import Mathlib

/-!
# Napbook: session registry, friend list and status fan-out

A shallow embedding of the request handlers of `UserServer.cpp` and `PushServer.cpp`.

* An incoming `http_request` is represented by what the handlers read from it: the
  segments `uri::split_path` yields for the decoded relative path, the `Content-Type`
  header and the JSON value of the body.
* Every outgoing `do_request (method, uri, body)` is a `Request`; the text
  `addr + "/" + a + "/" + b` of the source is kept as the address `addr` and the
  pieces `[a, b]`.  The answer comes from an oracle that threads a state of the
  outside world, so a handler is a function of the registry and of that world.
* A handler yields an `Outcome`: the `message.reply` calls in order, the requests it
  issued in order, the registry and the world afterwards, and how it ended
  (`returned`, a failed `assert`, or an index past the end of `paths`).
* `ClientUtils.h` is not among the sources.  Its declarations are the fields of the
  structure `ClientUtils`, a parameter of every handler.
-/

set_option autoImplicit false

/-! ## HTTP and JSON -/

/-- The type web::http::status_code. -/
abbrev status_code := Nat

namespace status_codes

def OK : status_code := 200
def BadRequest : status_code := 400
def Forbidden : status_code := 403
def NotFound : status_code := 404
def NotImplemented : status_code := 501
def ServiceUnavailable : status_code := 503

end status_codes

/-- The members of web::http::methods the servers use. -/
inductive method where
  | GET
  | POST
  | PUT
  | DEL
  deriving DecidableEq, Repr

/-- A member of a JSON object, as far as the servers can tell members apart: a string,
or any other value, which `get_json_body` keeps only through its serialization. -/
inductive scalar where
  | string (s : String)
  | other (serialized : String)
  deriving DecidableEq, Repr

/-- The type web::json::value, one object level deep; `null` is `value {}`. -/
inductive value where
  | null
  | object (fields : List (String × scalar))
  deriving DecidableEq, Repr

/-- The parts of an incoming http_request the handlers read. -/
structure http_request where
  /-- The result of `uri::split_path(uri::decode(message.relative_uri().path()))`. -/
  paths : List String
  /-- The `Content-Type` header, when present. -/
  content_type : Option String
  /-- The value `message.extract_json` yields. -/
  json : value
  deriving DecidableEq, Repr

/-- One call `do_request (http_method, addr + "/" + p1 + "/" + ... + "/" + pn, req_body)`;
the two-argument form of `do_request` passes `value {}`, here `value.null`. -/
structure Request where
  http_method : method
  addr : String
  path : List String
  req_body : value
  deriving DecidableEq, Repr

/-- The uri_string of a request, as the source concatenates it. -/
def Request.uri_string (r : Request) : String :=
  r.path.foldl (fun acc p => acc ++ "/" ++ p) r.addr

/-- The type friends_list_t of ClientUtils.h: `vector<pair<string,string>>`. -/
abbrev friends_list_t := List (String × String)

/-- The declarations of ClientUtils.h that the two servers call.  `do_request` answers a
request in a state of the outside world and gives the state after it.  `uri_exception`
tells whether the call of `do_request` inside the `try` block of UpdateStatus (the POST
to the push server) throws `web::uri_exception` instead of returning, as it does "if the
server isn't running"; the call then has no answer and leaves the world as it was.  It is
`false` unless a collaborator sets it.  No other call of `do_request` is inside a `try`
block; those calls are taken to return. -/
structure ClientUtils (σ : Type) where
  do_request : Request → σ → (status_code × value) × σ
  get_json_object_prop : value → String → String
  unpack_json_object : value → List (String × String)
  parse_friends_list : String → friends_list_t
  friends_list_to_string : friends_list_t → String
  uri_exception : Request → σ → Bool := fun _ _ => false

/-! ## std::map and std::unordered_map -/

/-- The session data of a signed-on user: token, partition, row. -/
abbrev session_t := String × String × String

/-- The type `map<string,tuple<string,string,string>>`: the entries in iteration order. -/
abbrev signed_on_users_t := List (String × session_t)

/-- The order `std::less<string>` of the map keys: lexicographic on the characters. -/
def key_lt (a b : String) : Prop := a.data < b.data

instance (a b : String) : Decidable (key_lt a b) := by
  unfold key_lt
  infer_instance

/-- The invariant of std::map: keys strictly ascending. -/
def map_wf (m : signed_on_users_t) : Prop :=
  m.Pairwise (fun a b => key_lt a.1 b.1)

/-- The call `m.find(key)`: the mapped value, or `none` for `m.end()`. -/
def map_find : signed_on_users_t → String → Option session_t
  | [], _ => none
  | (k, v) :: rest, key => if k = key then some v else map_find rest key

/-- The call `m.insert(pair(key, v))`: no effect when the key is present. -/
def map_insert : signed_on_users_t → String → session_t → signed_on_users_t
  | [], key, v => [(key, v)]
  | (k, v0) :: rest, key, v =>
    if k = key then (k, v0) :: rest
    else if key_lt key k then (key, v) :: (k, v0) :: rest
    else (k, v0) :: map_insert rest key v

/-- The call `m.erase(it)` for `it = m.find(key)`, `it != m.end()`. -/
def map_erase : signed_on_users_t → String → signed_on_users_t
  | [], _ => []
  | (k, v) :: rest, key => if k = key then rest else (k, v) :: map_erase rest key

/-- The statement `results[key] = v` on an `unordered_map<string,string>`. -/
def umap_assign : List (String × String) → String → String → List (String × String)
  | [], key, v => [(key, v)]
  | (k, v0) :: rest, key, v =>
    if k = key then (k, v) :: rest else (k, v0) :: umap_assign rest key v

/-! ## What a handler does -/

/-- How a handler ends. -/
inductive Completion where
  /-- The handler returned. -/
  | returned
  /-- An `assert` failed. -/
  | assert_failed
  /-- An index into `paths` was past its end. -/
  | out_of_range
  deriving DecidableEq, Repr

/-- The effects of one handler call. -/
structure Outcome (σ : Type) where
  /-- The calls of `message.reply`, in order: status code and body. -/
  replies : List (status_code × value)
  /-- The calls of `do_request`, in order. -/
  requests : List Request
  /-- The registry `signed_on_users` afterwards. -/
  users : signed_on_users_t
  /-- The outside world afterwards. -/
  world : σ
  completion : Completion

namespace UserServer

def auth_addr : String := "http://localhost:34570"
def auth_table_password_prop : String := "Password"
def auth_table_partition_prop : String := "DataPartition"
def auth_table_row_prop : String := "DataRow"
def token_prop : String := "token"
def friend_prop : String := "Friends"
def status_prop : String := "Status"

def data_addr : String := "http://localhost:34568"
def data_table_name : String := "DataTable"

def push_addr : String := "http://localhost:34574"
def push_status_op : String := "PushStatus"

def sign_on_op : String := "SignOn"
def sign_off_op : String := "SignOff"
def add_friend_op : String := "AddFriend"
def unfriend_op : String := "UnFriend"
def update_status_op : String := "UpdateStatus"
def read_friend_list_op : String := "ReadFriendList"

def read_entity_op : String := "ReadEntityAuth"
def update_entity_op : String := "UpdateEntityAuth"

def get_update_data_op : String := "GetUpdateData"

/-- Utility to create a JSON object value from a vector of properties:
`result[prop.first] = value::string(prop.second)` for each one. -/
def build_json_object (properties : List (String × String)) : value :=
  value.object
    ((properties.foldl (fun result prop => umap_assign result prop.1 prop.2) []).map
      (fun p => (p.1, scalar.string p.2)))

/-- The JSON body of a message as a map of strings to strings; empty unless the
`Content-Type` is `application/json` and the body is an object. -/
def get_json_body (message : http_request) : List (String × String) :=
  if message.content_type ≠ some "application/json" then []
  else
    match message.json with
    | value.object fields =>
      fields.foldl
        (fun results v =>
          match v.2 with
          | scalar.string s => umap_assign results v.1 s
          | scalar.other serialized => umap_assign results v.1 serialized)
        []
    | value.null => []

/-- The loop `for (const auto v : json_body) user_pass = string(v.second);`. -/
def last_value (json_body : List (String × String)) : String :=
  json_body.foldl (fun _ v => v.2) ""

/-- The loop over `signed_on_users` that copies the tuple stored for `user_name` into
`user_token`, `user_part`, `user_row`, all three empty before it. -/
def session_of (users : signed_on_users_t) (user_name : String) : session_t :=
  users.foldl (fun acc v => if v.1 = user_name then v.2 else acc) ("", "", "")

/-- The loop over `update_data` in SignOn that picks `token`, `DataPartition`, `DataRow`. -/
def session_from (update_data : List (String × String)) : session_t :=
  update_data.foldl
    (fun acc v =>
      if v.1 = token_prop then (v.2, acc.2.1, acc.2.2)
      else if v.1 = auth_table_partition_prop then (acc.1, v.2, acc.2.2)
      else if v.1 = auth_table_row_prop then (acc.1, acc.2.1, v.2)
      else acc)
    ("", "", "")

/-- The request SignOn sends to the authentication server. -/
def token_request (user_name user_pass : String) : Request :=
  { http_method := method.GET
    addr := auth_addr
    path := [get_update_data_op, user_name]
    req_body := value.object [(auth_table_password_prop, scalar.string user_pass)] }

/-- The read of the record a session is bound to. -/
def read_request (s : session_t) : Request :=
  { http_method := method.GET
    addr := data_addr
    path := [read_entity_op, data_table_name, s.1, s.2.1, s.2.2]
    req_body := value.null }

/-- Top-level routine for processing all HTTP POST requests. -/
def handle_post {σ : Type} (cu : ClientUtils σ) (message : http_request)
    (signed_on_users : signed_on_users_t) (w : σ) : Outcome σ :=
  let paths := message.paths
  match paths with
  | [] | [_] =>
    -- paths.size() < 2
    { replies := [(status_codes.BadRequest, value.null)], requests := [],
      users := signed_on_users, world := w, completion := Completion.returned }
  | op :: user_name :: _ =>
    let json_body := get_json_body message
    if op = sign_on_op ∧ json_body.length = 1 then
      let user_pass := last_value json_body
      let token_request_result := cu.do_request (token_request user_name user_pass) w
      if token_request_result.1.1 = status_codes.OK then
        let update_data := cu.unpack_json_object token_request_result.1.2
        let s := session_from update_data
        let read_result := cu.do_request (read_request s) token_request_result.2
        if read_result.1.1 = status_codes.OK then
          let already_signed_in := (map_find signed_on_users user_name).isSome
          { replies := [(status_codes.OK, value.null)],
            requests := [token_request user_name user_pass, read_request s],
            users :=
              if already_signed_in then signed_on_users
              else map_insert signed_on_users user_name s,
            world := read_result.2, completion := Completion.returned }
        else
          { replies := [(status_codes.NotFound, value.null)],
            requests := [token_request user_name user_pass, read_request s],
            users := signed_on_users, world := read_result.2,
            completion := Completion.returned }
      else
        { replies := [(status_codes.NotFound, value.null)],
          requests := [token_request user_name user_pass],
          users := signed_on_users, world := token_request_result.2,
          completion := Completion.returned }
    else if op = sign_off_op ∧ json_body.length = 0 then
      match map_find signed_on_users user_name with
      | some _ =>
        { replies := [(status_codes.OK, value.null)], requests := [],
          users := map_erase signed_on_users user_name, world := w,
          completion := Completion.returned }
      | none =>
        { replies := [(status_codes.NotFound, value.null)], requests := [],
          users := signed_on_users, world := w, completion := Completion.returned }
    else
      -- neither operation: the handler returns without a reply
      { replies := [], requests := [], users := signed_on_users, world := w,
        completion := Completion.returned }

/-- An outcome with one reply, no request and nothing changed. -/
def reply_only {σ : Type} (code : status_code) (signed_on_users : signed_on_users_t) (w : σ) :
    Outcome σ :=
  { replies := [(code, value.null)], requests := [], users := signed_on_users, world := w,
    completion := Completion.returned }

/-- Top-level routine for processing all HTTP GET requests. -/
def handle_get {σ : Type} (cu : ClientUtils σ) (message : http_request)
    (signed_on_users : signed_on_users_t) (w : σ) : Outcome σ :=
  match message.paths with
  | [] | [_] =>
    -- paths.size() < 2
    reply_only status_codes.BadRequest signed_on_users w
  | op :: user_name :: _ =>
    if op = read_friend_list_op then
      match map_find signed_on_users user_name with
      | some _ =>
        let s := session_of signed_on_users user_name
        let read_result := cu.do_request (read_request s) w
        let friend_list := cu.get_json_object_prop read_result.1.2 friend_prop
        { replies :=
            [(status_codes.OK, value.object [(friend_prop, scalar.string friend_list)])],
          requests := [read_request s], users := signed_on_users, world := read_result.2,
          completion := Completion.returned }
      | none => reply_only status_codes.Forbidden signed_on_users w
    else
      -- another operation: the handler returns without a reply
      { replies := [], requests := [], users := signed_on_users, world := w,
        completion := Completion.returned }

/-- The write of the properties `body` to the record a session is bound to. -/
def update_request (s : session_t) (body : value) : Request :=
  { http_method := method.PUT
    addr := data_addr
    path := [update_entity_op, data_table_name, s.1, s.2.1, s.2.2]
    req_body := body }

/-- The write of UpdateStatus; the source puts `"/" + "/"` between token and partition,
which leaves an empty piece there. -/
def status_request (s : session_t) (body : value) : Request :=
  { http_method := method.PUT
    addr := data_addr
    path := [update_entity_op, data_table_name, s.1, "", s.2.1, s.2.2]
    req_body := body }

/-- The request UpdateStatus sends to the push server. -/
def push_request (user_country user_name userstatus : String) (body : value) : Request :=
  { http_method := method.POST
    addr := push_addr
    path := [push_status_op, user_country, user_name, userstatus]
    req_body := body }

/-- The loop of AddFriend over the decoded list: `is_friend` becomes true at an entry
whose country and name both match. -/
def is_friend_loop (friend_country friend_name : String) (friends_list_op : friends_list_t) :
    Bool :=
  friends_list_op.foldl
    (fun is_friend f => if f.1 = friend_country ∧ f.2 = friend_name then true else is_friend)
    false

/-- The loop of UnFriend, from index `i` on:
`for (; i < friends_list_op.size(); i++) if (match at i) { erase(begin()+i); is_friend = true; }`.
The index is incremented after an erase as well. -/
def erase_loop (friend_country friend_name : String) (i : Nat)
    (friends_list_op : friends_list_t) (is_friend : Bool) : friends_list_t × Bool :=
  if h : i < friends_list_op.length then
    if friends_list_op[i].1 = friend_country ∧ friends_list_op[i].2 = friend_name then
      erase_loop friend_country friend_name (i + 1) (friends_list_op.eraseIdx i) true
    else
      erase_loop friend_country friend_name (i + 1) friends_list_op is_friend
  else (friends_list_op, is_friend)
termination_by friends_list_op.length - i
decreasing_by
  all_goals simp_wf
  · rw [List.length_eraseIdx]
    simp only [h, if_true]
    omega
  · omega

/-- The AddFriend branch of handle_put, for a path of four segments. -/
def add_friend {σ : Type} (cu : ClientUtils σ) (userid friend_country friend_name : String)
    (signed_on_users : signed_on_users_t) (w : σ) : Outcome σ :=
  match map_find signed_on_users userid with
  | some _ =>
    let s := session_of signed_on_users userid
    let read_result := cu.do_request (read_request s) w
    let friend_list := cu.get_json_object_prop read_result.1.2 friend_prop
    let friends_list_op := cu.parse_friends_list friend_list
    if is_friend_loop friend_country friend_name friends_list_op then
      { replies := [(status_codes.OK, value.null)], requests := [read_request s],
        users := signed_on_users, world := read_result.2,
        completion := Completion.returned }
    else
      let friends_list_op := friends_list_op ++ [(friend_country, friend_name)]
      let updated_friend_list := cu.friends_list_to_string friends_list_op
      let friend_json_object := build_json_object [(friend_prop, updated_friend_list)]
      let new_result := cu.do_request (update_request s friend_json_object) read_result.2
      if new_result.1.1 = status_codes.OK then
        { replies := [(status_codes.OK, value.null)],
          requests := [read_request s, update_request s friend_json_object],
          users := signed_on_users, world := new_result.2,
          completion := Completion.returned }
      else
        -- assert(new_result.first == status_codes::OK)
        { replies := [],
          requests := [read_request s, update_request s friend_json_object],
          users := signed_on_users, world := new_result.2,
          completion := Completion.assert_failed }
  | none => reply_only status_codes.Forbidden signed_on_users w

/-- The UnFriend branch of handle_put, for a path of four segments. -/
def unfriend {σ : Type} (cu : ClientUtils σ) (userid friend_country friend_name : String)
    (signed_on_users : signed_on_users_t) (w : σ) : Outcome σ :=
  match map_find signed_on_users userid with
  | some _ =>
    let s := session_of signed_on_users userid
    let read_result := cu.do_request (read_request s) w
    let friend_list := cu.get_json_object_prop read_result.1.2 friend_prop
    let friends_list_op := cu.parse_friends_list friend_list
    let erased := erase_loop friend_country friend_name 0 friends_list_op false
    if erased.2 = false then
      { replies := [(status_codes.OK, value.null)], requests := [read_request s],
        users := signed_on_users, world := read_result.2,
        completion := Completion.returned }
    else
      let updated_friend_list := cu.friends_list_to_string erased.1
      let friend_json_object := build_json_object [(friend_prop, updated_friend_list)]
      let new_result := cu.do_request (update_request s friend_json_object) read_result.2
      if new_result.1.1 = status_codes.OK then
        { replies := [(status_codes.OK, value.null)],
          requests := [read_request s, update_request s friend_json_object],
          users := signed_on_users, world := new_result.2,
          completion := Completion.returned }
      else
        -- assert(new_result.first == status_codes::OK)
        { replies := [],
          requests := [read_request s, update_request s friend_json_object],
          users := signed_on_users, world := new_result.2,
          completion := Completion.assert_failed }
  | none => reply_only status_codes.Forbidden signed_on_users w

/-- The UpdateStatus branch of handle_put, for a path of three segments.  The call of
`do_request` for the push server is inside `try`: when it throws `web::uri_exception`
the handler replies ServiceUnavailable. -/
def update_status {σ : Type} (cu : ClientUtils σ) (userid userstatus : String)
    (signed_on_users : signed_on_users_t) (w : σ) : Outcome σ :=
  match map_find signed_on_users userid with
  | some _ =>
    let s := session_of signed_on_users userid
    let user_name := s.2.2
    let user_country := s.2.1
    let read_result := cu.do_request (read_request s) w
    let friend_list := cu.get_json_object_prop read_result.1.2 friend_prop
    let status_json_object := build_json_object [(status_prop, userstatus)]
    let status_result := cu.do_request (status_request s status_json_object) read_result.2
    if status_result.1.1 ≠ status_codes.OK then
      { replies := [(status_codes.Forbidden, value.null)],
        requests := [read_request s, status_request s status_json_object],
        users := signed_on_users, world := status_result.2,
        completion := Completion.returned }
    else
      let friend_json_object := build_json_object [(friend_prop, friend_list)]
      if cu.uri_exception (push_request user_country user_name userstatus friend_json_object)
          status_result.2 then
        -- catch (const web::uri_exception& e)
        { replies := [(status_codes.ServiceUnavailable, value.null)],
          requests :=
            [read_request s, status_request s status_json_object,
              push_request user_country user_name userstatus friend_json_object],
          users := signed_on_users, world := status_result.2,
          completion := Completion.returned }
      else
        let push_result :=
          cu.do_request (push_request user_country user_name userstatus friend_json_object)
            status_result.2
        { replies := [(push_result.1.1, value.null)],
          requests :=
            [read_request s, status_request s status_json_object,
              push_request user_country user_name userstatus friend_json_object],
          users := signed_on_users, world := push_result.2,
          completion := Completion.returned }
  | none => reply_only status_codes.Forbidden signed_on_users w

/-- Top-level routine for processing all HTTP PUT requests. -/
def handle_put {σ : Type} (cu : ClientUtils σ) (message : http_request)
    (signed_on_users : signed_on_users_t) (w : σ) : Outcome σ :=
  match message.paths with
  | [] =>
    -- paths[0] on an empty vector
    { replies := [], requests := [], users := signed_on_users, world := w,
      completion := Completion.out_of_range }
  | op :: args =>
    if op = add_friend_op then
      match args with
      | [userid, friend_country, friend_name] =>
        add_friend cu userid friend_country friend_name signed_on_users w
      | _ => reply_only status_codes.BadRequest signed_on_users w
    else if op = unfriend_op then
      match args with
      | [userid, friend_country, friend_name] =>
        unfriend cu userid friend_country friend_name signed_on_users w
      | _ => reply_only status_codes.BadRequest signed_on_users w
    else if op = update_status_op then
      match args with
      | [userid, userstatus] => update_status cu userid userstatus signed_on_users w
      | _ => reply_only status_codes.BadRequest signed_on_users w
    else reply_only status_codes.BadRequest signed_on_users w

/-- Credential resolution for (user_name, user_pass) in the world `w` returns OK, and
so does the read of the record its answer names. -/
def sign_on_resolves {σ : Type} (cu : ClientUtils σ) (user_name user_pass : String) (w : σ) :
    Prop :=
  (cu.do_request (token_request user_name user_pass) w).1.1 = status_codes.OK ∧
    (cu.do_request
        (read_request
          (session_from
            (cu.unpack_json_object (cu.do_request (token_request user_name user_pass) w).1.2)))
        (cu.do_request (token_request user_name user_pass) w).2).1.1 = status_codes.OK

/-- The last value a list of properties gives to `key`, `dflt` when it gives none. -/
def pick (update_data : List (String × String)) (key dflt : String) : String :=
  update_data.foldl (fun acc v => if v.1 = key then v.2 else acc) dflt

/-- The decoded friend list of the record a session is bound to, as a read of that
record in the world `w` gives it. -/
def stored_friends {σ : Type} (cu : ClientUtils σ) (s : session_t) (w : σ) : friends_list_t :=
  cu.parse_friends_list
    (cu.get_json_object_prop (cu.do_request (read_request s) w).1.2 friend_prop)

/-- A PUT AddFriend/userid/country/name. -/
def add_friend_message (userid friend_country friend_name : String) : http_request :=
  { paths := [add_friend_op, userid, friend_country, friend_name]
    content_type := none
    json := value.null }

/-- A PUT UnFriend/userid/country/name. -/
def unfriend_message (userid friend_country friend_name : String) : http_request :=
  { paths := [unfriend_op, userid, friend_country, friend_name]
    content_type := none
    json := value.null }

/-- A GET ReadFriendList/userid. -/
def read_friend_list_message (userid : String) : http_request :=
  { paths := [read_friend_list_op, userid], content_type := none, json := value.null }

/-- The PUT request `message` handled next after the outcome `o`: on the registry and
in the world that `o` left. -/
def then_put {σ : Type} (cu : ClientUtils σ) (message : http_request) (o : Outcome σ) :
    Outcome σ :=
  handle_put cu message o.users o.world

/-- The GET request `message` handled next after the outcome `o`. -/
def then_get {σ : Type} (cu : ClientUtils σ) (message : http_request) (o : Outcome σ) :
    Outcome σ :=
  handle_get cu message o.users o.world

end UserServer

/-! ## The collaborators, modelled

The friend-list codec and the JSON helpers of `ClientUtils.h`, the entity store and
the credential service are not among the sources.  The definitions of this section
follow the specification; theorems that hold for every `ClientUtils` do not use them. -/

namespace Model

/-- Modelled from the spec: the split of a text at every occurrence of a separator,
the helper of `parse_friends_list` (ClientUtils.h is missing).  A text without the
separator is one piece. -/
def split_on (sep : Char) : List Char → List (List Char)
  | [] => [[]]
  | c :: cs =>
    if c = sep then [] :: split_on sep cs
    else
      match split_on sep cs with
      | [] => [[c]]
      | piece :: pieces => (c :: piece) :: pieces

/-- Modelled from the spec: the decoding of one entry, split on the field separator
`;` (ClientUtils.h is missing).  An entry that does not split into exactly a country
and a name gives no friend. -/
def parse_entry (entry : List Char) : Option (String × String) :=
  match split_on ';' entry with
  | [country, name] => some (String.mk country, String.mk name)
  | _ => none

/-- Modelled from the spec: `parse_friends_list` of the missing ClientUtils.h, the
decode of the codec: split on the entry separator `|`, then each entry on the field
separator `;`; empty input yields an empty sequence. -/
def parse_friends_list (friends_list : String) : friends_list_t :=
  if friends_list.data = [] then []
  else (split_on '|' friends_list.data).filterMap parse_entry

/-- Modelled from the spec: `friends_list_to_string` of the missing ClientUtils.h, the
encode of the codec: country and name joined by `;`, entries joined by `|`, in order;
the empty list gives the empty string. -/
def friends_list_to_string (friends_list : friends_list_t) : String :=
  String.mk
    (List.intercalate ['|'] (friends_list.map (fun f => f.1.data ++ ';' :: f.2.data)))

/-- Modelled from the spec: `get_json_object_prop` of the missing ClientUtils.h: the
named property of a JSON object as a string, the empty string when there is none. -/
def get_json_object_prop (v : value) (prop : String) : String :=
  match v with
  | value.null => ""
  | value.object fields =>
    match fields.find? (fun f => f.1 = prop) with
    | some (_, scalar.string s) => s
    | some (_, scalar.other serialized) => serialized
    | none => ""

/-- Modelled from the spec: `unpack_json_object` of the missing ClientUtils.h: the
properties of a JSON object as a map of strings to strings. -/
def unpack_json_object (v : value) : List (String × String) :=
  match v with
  | value.null => []
  | value.object fields =>
    fields.foldl
      (fun results f =>
        match f.2 with
        | scalar.string s => umap_assign results f.1 s
        | scalar.other serialized => umap_assign results f.1 serialized)
      []

/-- Modelled from the spec: a record of the entity store, identified by table,
partition key and row key, with its property map. -/
structure Record where
  table : String
  partition : String
  row : String
  properties : List (String × String)
  deriving DecidableEq, Repr

/-- Modelled from the spec: a login the credential service resolves, the user identity
binding: login identifier, password and the record coordinates. -/
structure Login where
  userid : String
  password : String
  partition : String
  row : String
  deriving DecidableEq, Repr

/-- Modelled from the spec: the state of the entity-store collaborator: its logins,
its records and the number of access tokens issued so far. -/
structure World where
  logins : List Login
  records : List Record
  issued : Nat
  deriving DecidableEq, Repr

/-- Modelled from the spec: the text of the access token issued after `issued` others;
every resolution gives a fresh one. -/
def token_text (issued : Nat) : String :=
  String.mk ('t' :: List.replicate issued '+')

/-- Modelled from the spec: the record at (table, partition, row), if the store has one. -/
def find_record (records : List Record) (table partition row : String) : Option Record :=
  records.find? (fun r => r.table = table ∧ r.partition = partition ∧ r.row = row)

/-- Modelled from the spec: `readRecord`: OK with the property map, or NotFound. -/
def read_record (w : World) (table partition row : String) : (status_code × value) × World :=
  match find_record w.records table partition row with
  | some r =>
    ((status_codes.OK, value.object (r.properties.map (fun p => (p.1, scalar.string p.2)))), w)
  | none => ((status_codes.NotFound, value.null), w)

/-- Modelled from the spec: the property map after a write of `properties` over `old`. -/
def merge_properties (old : List (String × String)) (properties : List (String × String)) :
    List (String × String) :=
  properties.foldl (fun acc p => umap_assign acc p.1 p.2) old

/-- Modelled from the spec: the records after a write to the record at
(table, partition, row). -/
def write_records : List Record → String → String → String → List (String × String) →
    List Record
  | [], _, _, _, _ => []
  | r :: rest, table, partition, row, properties =>
    if r.table = table ∧ r.partition = partition ∧ r.row = row then
      { r with properties := merge_properties r.properties properties } :: rest
    else r :: write_records rest table partition row properties

/-- Modelled from the spec: `writeRecord`: OK after the properties are written to an
existing record, NotFound when there is no such record. -/
def write_record (w : World) (table partition row : String) (body : value) :
    (status_code × value) × World :=
  match find_record w.records table partition row with
  | some _ =>
    ((status_codes.OK, value.null),
      { w with
        records := write_records w.records table partition row (unpack_json_object body) })
  | none => ((status_codes.NotFound, value.null), w)

/-- Modelled from the spec: `resolveCredentials`: for a login with that password, OK
with a fresh access token and the record coordinates; NotFound otherwise. -/
def resolve_credentials (w : World) (userid : String) (body : value) :
    (status_code × value) × World :=
  match w.logins.find? (fun l => l.userid = userid) with
  | some l =>
    if get_json_object_prop body "Password" = l.password then
      ((status_codes.OK,
          value.object
            [("token", scalar.string (token_text w.issued)),
              ("DataPartition", scalar.string l.partition),
              ("DataRow", scalar.string l.row)]),
        { w with issued := w.issued + 1 })
    else ((status_codes.NotFound, value.null), w)
  | none => ((status_codes.NotFound, value.null), w)

/-- Modelled from the spec: the answer of the collaborators to a request.  Empty pieces
of the path are dropped, as a split of the path does; the token piece of the
token-scoped operations is not inspected.  A request that is none of the operations
the core consumes from the store is answered BadRequest. -/
def do_request (r : Request) (w : World) : (status_code × value) × World :=
  match r.http_method, r.addr, r.path.filter (fun p => p ≠ "") with
  | method.GET, "http://localhost:34570", ["GetUpdateData", userid] =>
    resolve_credentials w userid r.req_body
  | method.GET, "http://localhost:34568", ["ReadEntityAuth", table, _, partition, row] =>
    read_record w table partition row
  | method.GET, "http://localhost:34568", ["ReadEntityAdmin", table, partition, row] =>
    read_record w table partition row
  | method.PUT, "http://localhost:34568", ["UpdateEntityAuth", table, _, partition, row] =>
    write_record w table partition row r.req_body
  | method.PUT, "http://localhost:34568", ["UpdateEntityAdmin", table, partition, row] =>
    write_record w table partition row r.req_body
  | _, _, _ => ((status_codes.BadRequest, value.null), w)

/-- Modelled from the spec: the declarations of the missing ClientUtils.h over the
modelled collaborators, for a friend-list codec given by `parse` and `encode`. -/
def utils_with (parse : String → friends_list_t) (encode : friends_list_t → String) :
    ClientUtils World :=
  { do_request := do_request
    get_json_object_prop := get_json_object_prop
    unpack_json_object := unpack_json_object
    parse_friends_list := parse
    friends_list_to_string := encode }

/-- Modelled from the spec: the declarations of the missing ClientUtils.h, over the
modelled collaborators and the modelled codec. -/
def utils : ClientUtils World :=
  utils_with parse_friends_list friends_list_to_string

/-- A world with one login, `bob`, bound to the record (Zimbabwe, Bob), whose friend
list and status are empty. -/
def world_bob : World :=
  { logins := [⟨"bob", "pw", "Zimbabwe", "Bob"⟩]
    records := [⟨"DataTable", "Zimbabwe", "Bob", [("Friends", ""), ("Status", "")]⟩]
    issued := 0 }

/-- The registry after `bob` signed on in `world_bob`. -/
def users_bob : signed_on_users_t := [("bob", "t", "Zimbabwe", "Bob")]

/-- A POST SignOn/bob with the password `pw` in the body. -/
def sign_on_bob : http_request :=
  { paths := ["SignOn", "bob"]
    content_type := some "application/json"
    json := value.object [("Password", scalar.string "pw")] }

/-- A POST SignOn/bob with a wrong password in the body. -/
def sign_on_bob_wrong : http_request :=
  { paths := ["SignOn", "bob"]
    content_type := some "application/json"
    json := value.object [("Password", scalar.string "pw0")] }

/-- A POST SignOff/bob without a body. -/
def sign_off_bob : http_request :=
  { paths := ["SignOff", "bob"], content_type := none, json := value.null }

/-- The world `world_bob` after the record of `bob` was deleted. -/
def world_no_record : World :=
  { logins := [⟨"bob", "pw", "Zimbabwe", "Bob"⟩], records := [], issued := 1 }

/-- The world `world_bob` in which `bob` already lists (USA, Ann) as a friend. -/
def world_ann : World :=
  { logins := [⟨"bob", "pw", "Zimbabwe", "Bob"⟩]
    records := [⟨"DataTable", "Zimbabwe", "Bob", [("Friends", "USA;Ann"), ("Status", "")]⟩]
    issued := 1 }

/-- The world `world_bob` in which the friend list of `bob` holds (USA, Ann) twice. -/
def world_twice : World :=
  { logins := [⟨"bob", "pw", "Zimbabwe", "Bob"⟩]
    records :=
      [⟨"DataTable", "Zimbabwe", "Bob", [("Friends", "USA;Ann|USA;Ann"), ("Status", "")]⟩]
    issued := 0 }

end Model

/-! ## PushServer.cpp -/

namespace PushServer

def data_table_name : String := "DataTable"

def read_entity_op : String := "ReadEntityAdmin"
def update_entity_op : String := "UpdateEntityAdmin"
def push_status_op : String := "PushStatus"
def data_addr : String := "http://localhost:34568"
def friend_updates : String := "Updates"

/-- The JSON body of a message as a map of strings to strings; empty unless the
`Content-Type` is `application/json` and the body is an object. -/
def get_json_body (message : http_request) : List (String × String) :=
  if message.content_type ≠ some "application/json" then []
  else
    match message.json with
    | value.object fields =>
      fields.foldl
        (fun results v =>
          match v.2 with
          | scalar.string s => umap_assign results v.1 s
          | scalar.other serialized => umap_assign results v.1 serialized)
        []
    | value.null => []

/-- Utility to create a JSON object value from a vector of properties. -/
def build_json_object (properties : List (String × String)) : value :=
  value.object
    ((properties.foldl (fun result prop => umap_assign result prop.1 prop.2) []).map
      (fun p => (p.1, scalar.string p.2)))

/-- The loop `for (const auto v : json_body) friends_string = string(v.second);` on a
string that is empty before it. -/
def friends_string_of (json_body : List (String × String)) : String :=
  json_body.foldl (fun _ v => v.2) ""

/-- The read of a friend's record. -/
def read_request (friend_country friend_name : String) : Request :=
  { http_method := method.GET
    addr := data_addr
    path := [read_entity_op, data_table_name, friend_country, friend_name]
    req_body := value.null }

/-- The write of the properties `body` to a friend's record. -/
def update_request (friend_country friend_name : String) (body : value) : Request :=
  { http_method := method.PUT
    addr := data_addr
    path := [update_entity_op, data_table_name, friend_country, friend_name]
    req_body := body }

/-- The value of `updated_status_list`: the status alone when the friend has no
updates, else the updates, a newline and the status. -/
def updated_status_list (updates user_status : String) : String :=
  if updates = "" then user_status else updates ++ "\n" ++ user_status

/-- What the loop over `update_list` has done when it stops. -/
structure FanOut (σ : Type) where
  /-- The calls of `do_request`, in order. -/
  requests : List Request
  /-- The outside world afterwards. -/
  world : σ
  /-- Whether the loop ran to its end or stopped at a failed `assert`. -/
  completion : Completion

/-- The loop of PushStatus over `update_list`: each friend's record is read; when the
read returns OK the status is appended to its `Updates` and written back, and the
write is asserted to return OK; a friend whose read does not return OK is passed
over. -/
def push_loop {σ : Type} (cu : ClientUtils σ) (user_status : String) :
    friends_list_t → σ → FanOut σ
  | [], w => { requests := [], world := w, completion := Completion.returned }
  | (friend_country, friend_name) :: rest, w =>
    let initial_result := cu.do_request (read_request friend_country friend_name) w
    if initial_result.1.1 = status_codes.OK then
      let updates := cu.get_json_object_prop initial_result.1.2 friend_updates
      let updated_json_object :=
        build_json_object [(friend_updates, updated_status_list updates user_status)]
      let updated_result :=
        cu.do_request (update_request friend_country friend_name updated_json_object)
          initial_result.2
      if updated_result.1.1 = status_codes.OK then
        let later := push_loop cu user_status rest updated_result.2
        { requests :=
            read_request friend_country friend_name
              :: update_request friend_country friend_name updated_json_object
              :: later.requests,
          world := later.world, completion := later.completion }
      else
        -- assert(updated_result.first == status_codes::OK)
        { requests :=
            [read_request friend_country friend_name,
              update_request friend_country friend_name updated_json_object],
          world := updated_result.2, completion := Completion.assert_failed }
    else
      let later := push_loop cu user_status rest initial_result.2
      { requests := read_request friend_country friend_name :: later.requests,
        world := later.world, completion := later.completion }

/-- The write the loop issues for a friend whose read returned OK. -/
def friend_write {σ : Type} (cu : ClientUtils σ) (user_status fc fn : String) (w : σ) :
    Request :=
  update_request fc fn
    (build_json_object
      [(friend_updates,
        updated_status_list
          (cu.get_json_object_prop (cu.do_request (read_request fc fn) w).1.2 friend_updates)
          user_status)])

/-- Top-level routine for processing all HTTP POST requests.  The push server keeps no
registry, so the registry of the outcome is empty. -/
def handle_post {σ : Type} (cu : ClientUtils σ) (message : http_request) (w : σ) :
    Outcome σ :=
  match message.paths with
  | op :: _user_country :: _user_name :: user_status :: _ =>
    let json_body := get_json_body message
    -- a first segment other than PushStatus is answered BadRequest, without return
    let first_replies : List (status_code × value) :=
      if op ≠ push_status_op then [(status_codes.BadRequest, value.null)] else []
    if op = push_status_op ∧ json_body.length = 1 then
      let friends_string := friends_string_of json_body
      let update_list := cu.parse_friends_list friends_string
      let fan_out := push_loop cu user_status update_list w
      match fan_out.completion with
      | Completion.returned =>
        { replies := first_replies ++ [(status_codes.OK, value.null)],
          requests := fan_out.requests, users := [], world := fan_out.world,
          completion := Completion.returned }
      | stopped =>
        { replies := first_replies, requests := fan_out.requests, users := [],
          world := fan_out.world, completion := stopped }
    else
      { replies := first_replies, requests := [], users := [], world := w,
        completion := Completion.returned }
  | _ =>
    -- paths.size() < 4
    { replies := [(status_codes.BadRequest, value.null)], requests := [], users := [],
      world := w, completion := Completion.returned }

/-- A POST PushStatus/country/name/status with the friend list text in the body. -/
def push_message (user_country user_name user_status friends : String) : http_request :=
  { paths := [push_status_op, user_country, user_name, user_status]
    content_type := some "application/json"
    json := value.object [("Friends", scalar.string friends)] }

end PushServer

/-! ## The services together, modelled -/

namespace Model

/-- Modelled from the spec: the message a server receives for a request: the path
pieces without the empty ones, and a JSON `Content-Type` exactly when the request
has a body. -/
def message_of (r : Request) : http_request :=
  { paths := r.path.filter (fun p => p ≠ "")
    content_type := if r.req_body = value.null then none else some "application/json"
    json := r.req_body }

/-- Modelled from the spec: the answers to the requests of the user server, with the
push server among the collaborators: a POST to the push server is answered by its
handler run over the entity store, before the caller goes on (synchronous call
chaining); any other request is answered by the store.  A POST the push server leaves
without reply is given the code 408 here. -/
def system_request (r : Request) (w : World) : (status_code × value) × World :=
  if r.http_method = method.POST ∧ r.addr = "http://localhost:34574" then
    match (PushServer.handle_post utils (message_of r) w).replies with
    | reply :: _ => (reply, (PushServer.handle_post utils (message_of r) w).world)
    | [] => ((408, value.null), (PushServer.handle_post utils (message_of r) w).world)
  else do_request r w

/-- Modelled from the spec: the declarations of the missing ClientUtils.h for the user
server, over the modelled store, push server and codec. -/
def system : ClientUtils World :=
  { do_request := system_request
    get_json_object_prop := get_json_object_prop
    unpack_json_object := unpack_json_object
    parse_friends_list := parse_friends_list
    friends_list_to_string := friends_list_to_string }

/-- The characters reserved by the friend-list codec do not occur in the text. -/
def no_separator (text : String) : Prop :=
  '|' ∉ text.data ∧ ';' ∉ text.data

end Model

namespace Model

/-- Modelled from the spec: a store that answers every write Forbidden (`writeRecord`
may fail so) and everything else as the modelled store does. -/
def refusing_request (r : Request) (w : World) : (status_code × value) × World :=
  if r.http_method = method.PUT then ((status_codes.Forbidden, value.null), w)
  else do_request r w

/-- Modelled from the spec: the declarations of the missing ClientUtils.h over the
store that refuses writes. -/
def refusing : ClientUtils World :=
  { do_request := refusing_request
    get_json_object_prop := get_json_object_prop
    unpack_json_object := unpack_json_object
    parse_friends_list := parse_friends_list
    friends_list_to_string := friends_list_to_string }

/-- The `Updates` text a read of the record (country, name) gives in the world `w`. -/
def stored_updates (w : World) (friend_country friend_name : String) : String :=
  get_json_object_prop (do_request (PushServer.read_request friend_country friend_name) w).1.2
    "Updates"

/-- The `Status` text a read of the record a session is bound to gives in the world `w`. -/
def stored_status (w : World) (s : session_t) : String :=
  get_json_object_prop (do_request (UserServer.read_request s) w).1.2 "Status"

/-- The `Friends` text a read of the record a session is bound to gives in the world `w`. -/
def stored_friends_text (w : World) (s : session_t) : String :=
  get_json_object_prop (do_request (UserServer.read_request s) w).1.2 "Friends"

/-- A world in which `bob` lists (Canada, Al), (Mars, Zed) and (USA, Ann); Al has no
updates yet, Ann has one, and there is no record (Mars, Zed). -/
def world_friends : World :=
  { logins := [⟨"bob", "pw", "Zimbabwe", "Bob"⟩]
    records :=
      [⟨"DataTable", "Zimbabwe", "Bob",
          [("Friends", "Canada;Al|Mars;Zed|USA;Ann"), ("Status", ""), ("Updates", "")]⟩,
        ⟨"DataTable", "Canada", "Al", [("Friends", ""), ("Status", ""), ("Updates", "")]⟩,
        ⟨"DataTable", "USA", "Ann", [("Friends", ""), ("Status", ""), ("Updates", "old")]⟩]
    issued := 1 }

/-- A POST PushStatus/Zimbabwe/Bob/status with the friend list `friends` in the body. -/
def push_message (status friends : String) : http_request :=
  { paths := ["PushStatus", "Zimbabwe", "Bob", status]
    content_type := some "application/json"
    json := value.object [("Friends", scalar.string friends)] }

end Model

namespace Model

/-- Modelled from the spec: the answers to the requests of the user server when the
fan-out entry point answers every POST with the code `code`; any other request is
answered by the store. -/
def push_answering (code : status_code) (r : Request) (w : World) :
    (status_code × value) × World :=
  if r.http_method = method.POST then ((code, value.null), w) else do_request r w

/-- Modelled from the spec: the declarations of the missing ClientUtils.h for the user
server, over the modelled store and a fan-out entry point that answers `code`. -/
def with_push (code : status_code) : ClientUtils World :=
  { do_request := push_answering code
    get_json_object_prop := get_json_object_prop
    unpack_json_object := unpack_json_object
    parse_friends_list := parse_friends_list
    friends_list_to_string := friends_list_to_string }

/-- A PUT UpdateStatus/bob/hello. -/
def update_status_bob : http_request :=
  { paths := ["UpdateStatus", "bob", "hello"], content_type := none, json := value.null }

end Model

/-! ## What a write carries -/

/-- The `Updates` text a request writes: the value of the property `Updates` in the
body of a PUT, none for a request that is no PUT or has no such property. -/
def written_updates (r : Request) : Option String :=
  if r.http_method = method.PUT then
    match r.req_body with
    | value.object fields =>
      match fields.find? (fun f => f.1 = "Updates") with
      | some (_, scalar.string text) => some text
      | some (_, scalar.other serialized) => some serialized
      | none => none
    | value.null => none
  else none

/-- The text `new` starts with the text `old`. -/
def begins_with (new old : String) : Prop := old.data <+: new.data

/-- The number of writes among `requests` that go to the record (country, name)
through the push server's update operation. -/
def writes_to (friend_country friend_name : String) (requests : List Request) : Nat :=
  (requests.filter
    (fun r =>
      r.http_method = method.PUT ∧
        r.path
          = [PushServer.update_entity_op, PushServer.data_table_name, friend_country,
              friend_name])).length

namespace Model

/-- A POST SignOn/bob without a body. -/
def sign_on_bob_no_body : http_request :=
  { paths := ["SignOn", "bob"], content_type := none, json := value.null }

/-- A POST PushStatus/Zimbabwe/Bob/hello without a body. -/
def push_no_body : http_request :=
  { paths := ["PushStatus", "Zimbabwe", "Bob", "hello"], content_type := none,
    json := value.null }

/-- A PUT with the empty path. -/
def put_empty_path : http_request :=
  { paths := [], content_type := none, json := value.null }

end Model

namespace UserServer

/-- The collaborators `cu` with the status code of every reply to a GET replaced by
`code`; the bodies of the replies, the store and the exceptions are as `cu` gives them.
The only GET of `handle_put` is the initial fetch of the caller's record. -/
def with_fetch_status {σ : Type} (cu : ClientUtils σ) (code : status_code) : ClientUtils σ :=
  { do_request := fun r w =>
      if r.http_method = method.GET then
        ((code, (cu.do_request r w).1.2), (cu.do_request r w).2)
      else cu.do_request r w
    get_json_object_prop := cu.get_json_object_prop
    unpack_json_object := cu.unpack_json_object
    parse_friends_list := cu.parse_friends_list
    friends_list_to_string := cu.friends_list_to_string
    uri_exception := cu.uri_exception }

end UserServer

namespace Model

/-- Modelled from the spec: the collaborators `system` in which the call of the push
server throws `web::uri_exception` where `throws` says so (the push server is not
running, or the URI of the call is refused); `system` itself is the case where the
call always returns. -/
def system_when (throws : Request → World → Bool) : ClientUtils World :=
  { do_request := system_request
    get_json_object_prop := get_json_object_prop
    unpack_json_object := unpack_json_object
    parse_friends_list := parse_friends_list
    friends_list_to_string := friends_list_to_string
    uri_exception := throws }

end Model

/-! ## The registry: SignOn and SignOff -/

theorem key_lt_irrefl (a : String) : ¬ key_lt a a := by
  unfold key_lt
  exact lt_irrefl a.data

theorem map_find_insert_of_none (m : signed_on_users_t) (key : String) (v : session_t)
    (h : map_find m key = none) : map_find (map_insert m key v) key = some v := by
  induction m with
  | nil => simp [map_insert, map_find]
  | cons e rest ih =>
    obtain ⟨k, v0⟩ := e
    by_cases hk : k = key
    · simp [map_find, hk] at h
    · simp only [map_find, hk, if_false] at h
      by_cases hlt : key_lt key k
      · simp [map_insert, hk, hlt, map_find]
      · simp [map_insert, hk, hlt, map_find, ih h]

theorem map_find_erase_other (m : signed_on_users_t) (key other : String)
    (h : other ≠ key) : map_find (map_erase m key) other = map_find m other := by
  induction m with
  | nil => rfl
  | cons e rest ih =>
    obtain ⟨k, v0⟩ := e
    by_cases hk : k = key
    · have hko : k ≠ other := fun e => h (e.symm.trans hk)
      simp [map_erase, hk, map_find, hko, hk ▸ hko]
    · by_cases hko : k = other
      · subst hko
        simp [map_erase, hk, map_find]
      · simp [map_erase, hk, map_find, hko, ih]

theorem map_find_none_of_lt (m : signed_on_users_t) (key : String)
    (h : ∀ e ∈ m, key_lt key e.1) : map_find m key = none := by
  induction m with
  | nil => rfl
  | cons e rest ih =>
    obtain ⟨k, v0⟩ := e
    have hk : k ≠ key := by
      intro e
      have := h (k, v0) (List.mem_cons_self _ _)
      rw [e] at this
      exact key_lt_irrefl key this
    simp only [map_find, hk, if_false]
    exact ih (fun e he => h e (List.mem_cons_of_mem _ he))

theorem map_find_erase_self (m : signed_on_users_t) (key : String) (hwf : map_wf m) :
    map_find (map_erase m key) key = none := by
  induction m with
  | nil => rfl
  | cons e rest ih =>
    obtain ⟨k, v0⟩ := e
    unfold map_wf at hwf
    rw [List.pairwise_cons] at hwf
    by_cases hk : k = key
    · simp only [map_erase, hk, if_true]
      apply map_find_none_of_lt
      intro e he
      have := hwf.1 e he
      rwa [hk] at this
    · simp only [map_erase, hk, if_false, map_find]
      exact ih hwf.2

namespace UserServer

theorem last_value_single (k v : String) : last_value [(k, v)] = v := rfl

/-- What a SignOff does for a user without a session. -/
theorem handle_post_sign_off_none {σ : Type} (cu : ClientUtils σ) (message : http_request)
    (userId : String) (rest : List String) (users : signed_on_users_t) (w : σ)
    (hpath : message.paths = sign_off_op :: userId :: rest)
    (hbody : get_json_body message = [])
    (hnone : map_find users userId = none) :
    handle_post cu message users w = reply_only status_codes.NotFound users w := by
  have hop : ¬ (sign_off_op = sign_on_op) := by decide
  simp [handle_post, hpath, hbody, hnone, hop, reply_only]

/-- C1. SignOff for a user without a session: the reply is NotFound, no request is
issued, and the registry and the world are as before. -/
theorem sign_off_without_session {σ : Type} (cu : ClientUtils σ) (message : http_request)
    (userId : String) (rest : List String) (users : signed_on_users_t) (w : σ)
    (hpath : message.paths = sign_off_op :: userId :: rest)
    (hbody : get_json_body message = [])
    (hnone : map_find users userId = none) :
    (handle_post cu message users w).replies = [(status_codes.NotFound, value.null)] ∧
      (handle_post cu message users w).users = users ∧
      (handle_post cu message users w).requests = [] ∧
      (handle_post cu message users w).world = w := by
  rw [handle_post_sign_off_none cu message userId rest users w hpath hbody hnone]
  exact ⟨rfl, rfl, rfl, rfl⟩

/-- C3. A SignOn whose credential resolution or whose read of the bound record does
not return OK: the reply is NotFound and the registry is unchanged, so a session the
user already holds is kept. -/
theorem sign_on_failure {σ : Type} (cu : ClientUtils σ) (message : http_request)
    (userId k password : String) (rest : List String) (users : signed_on_users_t) (w : σ)
    (hpath : message.paths = sign_on_op :: userId :: rest)
    (hbody : get_json_body message = [(k, password)])
    (hfail : ¬ sign_on_resolves cu userId password w) :
    (handle_post cu message users w).replies = [(status_codes.NotFound, value.null)] ∧
      (handle_post cu message users w).users = users ∧
      map_find (handle_post cu message users w).users userId = map_find users userId := by
  unfold sign_on_resolves at hfail
  simp only [handle_post, hpath, hbody, last_value_single, List.length_singleton, and_self,
    if_true]
  by_cases h1 : (cu.do_request (token_request userId password) w).1.1 = status_codes.OK
  · rw [if_pos h1, if_neg (fun h => hfail ⟨h1, h⟩)]
    exact ⟨rfl, rfl, rfl⟩
  · rw [if_neg h1]
    exact ⟨rfl, rfl, rfl⟩

theorem sign_off_without_session_witness :
    (handle_post Model.utils Model.sign_off_bob [] Model.world_bob).replies
        = [(status_codes.NotFound, value.null)] ∧
      (handle_post Model.utils Model.sign_off_bob [] Model.world_bob).users = [] ∧
      (handle_post Model.utils Model.sign_off_bob [] Model.world_bob).requests = [] ∧
      (handle_post Model.utils Model.sign_off_bob [] Model.world_bob).world = Model.world_bob :=
  sign_off_without_session Model.utils Model.sign_off_bob "bob" [] [] Model.world_bob
    (by decide) (by decide) (by decide)

theorem sign_on_failure_witness :
    ¬ sign_on_resolves Model.utils "bob" "pw0" Model.world_bob ∧
      (handle_post Model.utils Model.sign_on_bob_wrong Model.users_bob Model.world_bob).replies
        = [(status_codes.NotFound, value.null)] ∧
      (handle_post Model.utils Model.sign_on_bob_wrong Model.users_bob Model.world_bob).users
        = Model.users_bob ∧
      map_find
          (handle_post Model.utils Model.sign_on_bob_wrong Model.users_bob Model.world_bob).users
          "bob"
        = map_find Model.users_bob "bob" :=
  ⟨by unfold sign_on_resolves; decide,
    sign_on_failure Model.utils Model.sign_on_bob_wrong "bob" "Password" "pw0" []
      Model.users_bob Model.world_bob (by decide) (by decide)
      (by unfold sign_on_resolves; decide)⟩

/-- What a SignOn does when credential resolution and the read both return OK. -/
theorem handle_post_sign_on_ok {σ : Type} (cu : ClientUtils σ) (message : http_request)
    (userId k password : String) (rest : List String) (users : signed_on_users_t) (w : σ)
    (hpath : message.paths = sign_on_op :: userId :: rest)
    (hbody : get_json_body message = [(k, password)])
    (hres : sign_on_resolves cu userId password w) :
    (handle_post cu message users w).replies = [(status_codes.OK, value.null)] ∧
      (handle_post cu message users w).users
        = (if (map_find users userId).isSome then users
          else
            map_insert users userId
              (session_from
                (cu.unpack_json_object
                  (cu.do_request (token_request userId password) w).1.2))) := by
  unfold sign_on_resolves at hres
  simp only [handle_post, hpath, hbody, last_value_single, List.length_singleton, and_self,
    if_true]
  rw [if_pos hres.1, if_pos hres.2]
  exact ⟨rfl, rfl⟩

/-- C2. Two SignOn requests in a row, each with credential resolution and read
returning OK, are both answered OK, and the second leaves the registry, hence the
session of the user, exactly as the first left it, whatever token the second
resolution returns. -/
theorem sign_on_twice {σ : Type} (cu : ClientUtils σ) (message : http_request)
    (userId k password : String) (rest : List String) (users : signed_on_users_t) (w : σ)
    (hpath : message.paths = sign_on_op :: userId :: rest)
    (hbody : get_json_body message = [(k, password)])
    (h1 : sign_on_resolves cu userId password w)
    (h2 : sign_on_resolves cu userId password (handle_post cu message users w).world) :
    (handle_post cu message users w).replies = [(status_codes.OK, value.null)] ∧
      (handle_post cu message (handle_post cu message users w).users
          (handle_post cu message users w).world).replies
        = [(status_codes.OK, value.null)] ∧
      (map_find (handle_post cu message users w).users userId).isSome ∧
      (handle_post cu message (handle_post cu message users w).users
          (handle_post cu message users w).world).users
        = (handle_post cu message users w).users ∧
      map_find
          (handle_post cu message (handle_post cu message users w).users
            (handle_post cu message users w).world).users userId
        = map_find (handle_post cu message users w).users userId := by
  have first := handle_post_sign_on_ok cu message userId k password rest users w hpath hbody h1
  have second :=
    handle_post_sign_on_ok cu message userId k password rest
      (handle_post cu message users w).users (handle_post cu message users w).world
      hpath hbody h2
  have hsome : (map_find (handle_post cu message users w).users userId).isSome := by
    rw [first.2]
    cases hf : map_find users userId with
    | none => simp [map_find_insert_of_none users userId _ hf]
    | some s => simp [hf]
  have hsame :
      (handle_post cu message (handle_post cu message users w).users
          (handle_post cu message users w).world).users
        = (handle_post cu message users w).users := by
    rw [second.2, if_pos hsome]
  exact ⟨first.1, second.1, hsome, hsame, by rw [hsame]⟩

theorem pick_of_not_mem (l : List (String × String)) (key dflt : String)
    (h : key ∉ l.map Prod.fst) : pick l key dflt = dflt := by
  induction l generalizing dflt with
  | nil => rfl
  | cons e rest ih =>
    simp only [List.map_cons, List.mem_cons, not_or] at h
    have he : ¬ e.1 = key := fun e' => h.1 e'.symm
    simp only [pick, List.foldl_cons, he, if_false]
    exact ih dflt h.2

theorem pick_of_mem (l : List (String × String)) (key v dflt : String)
    (hnodup : (l.map Prod.fst).Nodup) (h : (key, v) ∈ l) : pick l key dflt = v := by
  induction l generalizing dflt with
  | nil => simp at h
  | cons e rest ih =>
    rw [List.map_cons, List.nodup_cons] at hnodup
    rcases List.mem_cons.mp h with he | hrest
    · subst he
      simp only [pick, List.foldl_cons, if_true]
      exact pick_of_not_mem rest key v hnodup.1
    · have hne : ¬ e.1 = key := by
        intro he
        apply hnodup.1
        rw [he]
        exact List.mem_map_of_mem Prod.fst hrest
      simp only [pick, List.foldl_cons, hne, if_false]
      exact ih _ hnodup.2 hrest

theorem session_from_fold (l : List (String × String)) (acc : session_t) :
    l.foldl
        (fun acc v =>
          if v.1 = token_prop then (v.2, acc.2.1, acc.2.2)
          else if v.1 = auth_table_partition_prop then (acc.1, v.2, acc.2.2)
          else if v.1 = auth_table_row_prop then (acc.1, acc.2.1, v.2)
          else acc)
        acc
      = (pick l token_prop acc.1, pick l auth_table_partition_prop acc.2.1,
          pick l auth_table_row_prop acc.2.2) := by
  induction l generalizing acc with
  | nil => rfl
  | cons e rest ih =>
    have htp : token_prop ≠ auth_table_partition_prop := by decide
    have htr : token_prop ≠ auth_table_row_prop := by decide
    have hpr : auth_table_partition_prop ≠ auth_table_row_prop := by decide
    simp only [List.foldl_cons, pick]
    rw [ih]
    by_cases h1 : e.1 = token_prop
    · have h2 : ¬ e.1 = auth_table_partition_prop := fun h => htp (h1.symm.trans h)
      have h3 : ¬ e.1 = auth_table_row_prop := fun h => htr (h1.symm.trans h)
      simp only [h1, if_true, pick]
      simp [htp, htr]
    · by_cases h2 : e.1 = auth_table_partition_prop
      · have h3 : ¬ e.1 = auth_table_row_prop := fun h => hpr (h2.symm.trans h)
        simp only [h1, h2, if_true, if_false, pick]
        simp [htp.symm, hpr]
      · by_cases h3 : e.1 = auth_table_row_prop
        · simp only [h1, h2, h3, if_true, if_false, pick]
          simp [htr.symm, hpr.symm]
        · simp only [h1, h2, h3, if_false, pick]

theorem session_from_eq (update_data : List (String × String)) (tok part row : String)
    (hnodup : (update_data.map Prod.fst).Nodup)
    (htok : (token_prop, tok) ∈ update_data)
    (hpart : (auth_table_partition_prop, part) ∈ update_data)
    (hrow : (auth_table_row_prop, row) ∈ update_data) :
    session_from update_data = (tok, part, row) := by
  unfold session_from
  rw [session_from_fold, pick_of_mem _ _ _ _ hnodup htok, pick_of_mem _ _ _ _ hnodup hpart,
    pick_of_mem _ _ _ _ hnodup hrow]

/-- C4. SignOn of a user without a session, when credential resolution returns OK
with the properties token, DataPartition and DataRow and the read of that record
returns OK: the reply is OK and the registry then maps the user to exactly that
(token, DataPartition, DataRow). -/
theorem sign_on_creates_session {σ : Type} (cu : ClientUtils σ) (message : http_request)
    (userId k password tok part row : String) (rest : List String)
    (users : signed_on_users_t) (w : σ)
    (hpath : message.paths = sign_on_op :: userId :: rest)
    (hbody : get_json_body message = [(k, password)])
    (hnone : map_find users userId = none)
    (hcode : (cu.do_request (token_request userId password) w).1.1 = status_codes.OK)
    (hnodup :
      ((cu.unpack_json_object (cu.do_request (token_request userId password) w).1.2).map
        Prod.fst).Nodup)
    (htok :
      (token_prop, tok)
        ∈ cu.unpack_json_object (cu.do_request (token_request userId password) w).1.2)
    (hpart :
      (auth_table_partition_prop, part)
        ∈ cu.unpack_json_object (cu.do_request (token_request userId password) w).1.2)
    (hrow :
      (auth_table_row_prop, row)
        ∈ cu.unpack_json_object (cu.do_request (token_request userId password) w).1.2)
    (hread :
      (cu.do_request (read_request (tok, part, row))
        (cu.do_request (token_request userId password) w).2).1.1 = status_codes.OK) :
    (handle_post cu message users w).replies = [(status_codes.OK, value.null)] ∧
      map_find (handle_post cu message users w).users userId = some (tok, part, row) := by
  have hs := session_from_eq _ tok part row hnodup htok hpart hrow
  have hres : sign_on_resolves cu userId password w := by
    unfold sign_on_resolves
    rw [hs]
    exact ⟨hcode, hread⟩
  have h := handle_post_sign_on_ok cu message userId k password rest users w hpath hbody hres
  refine ⟨h.1, ?_⟩
  rw [h.2, hnone, hs]
  simp [map_find_insert_of_none users userId _ hnone]

theorem sign_on_twice_witness :
    sign_on_resolves Model.utils "bob" "pw" Model.world_bob ∧
      (Model.do_request (token_request "bob" "pw")
            (handle_post Model.utils Model.sign_on_bob [] Model.world_bob).world).1.2
        ≠ (Model.do_request (token_request "bob" "pw") Model.world_bob).1.2 ∧
      (handle_post Model.utils Model.sign_on_bob [] Model.world_bob).replies
        = [(status_codes.OK, value.null)] ∧
      (handle_post Model.utils Model.sign_on_bob
          (handle_post Model.utils Model.sign_on_bob [] Model.world_bob).users
          (handle_post Model.utils Model.sign_on_bob [] Model.world_bob).world).replies
        = [(status_codes.OK, value.null)] ∧
      (map_find (handle_post Model.utils Model.sign_on_bob [] Model.world_bob).users
          "bob").isSome ∧
      (handle_post Model.utils Model.sign_on_bob
          (handle_post Model.utils Model.sign_on_bob [] Model.world_bob).users
          (handle_post Model.utils Model.sign_on_bob [] Model.world_bob).world).users
        = (handle_post Model.utils Model.sign_on_bob [] Model.world_bob).users ∧
      map_find
          (handle_post Model.utils Model.sign_on_bob
            (handle_post Model.utils Model.sign_on_bob [] Model.world_bob).users
            (handle_post Model.utils Model.sign_on_bob [] Model.world_bob).world).users "bob"
        = map_find (handle_post Model.utils Model.sign_on_bob [] Model.world_bob).users "bob" :=
  ⟨by unfold sign_on_resolves; decide, by decide,
    sign_on_twice Model.utils Model.sign_on_bob "bob" "Password" "pw" [] [] Model.world_bob
      (by decide) (by decide) (by unfold sign_on_resolves; decide)
      (by unfold sign_on_resolves; decide)⟩

theorem sign_on_creates_session_witness :
    (handle_post Model.utils Model.sign_on_bob [] Model.world_bob).replies
        = [(status_codes.OK, value.null)] ∧
      map_find (handle_post Model.utils Model.sign_on_bob [] Model.world_bob).users "bob"
        = some ("t", "Zimbabwe", "Bob") :=
  sign_on_creates_session Model.utils Model.sign_on_bob "bob" "Password" "pw" "t" "Zimbabwe"
    "Bob" [] [] Model.world_bob (by decide) (by decide) (by decide) (by decide) (by decide)
    (by decide) (by decide) (by decide) (by decide)

/-- C5. SignOff of a user who has a session: the reply is OK, afterwards the user has
no session and every other user has the session held before, and a SignOff that
follows at once is answered NotFound. -/
theorem sign_off_removes_session {σ : Type} (cu : ClientUtils σ) (message : http_request)
    (userId : String) (rest : List String) (users : signed_on_users_t) (s : session_t) (w : σ)
    (hwf : map_wf users)
    (hpath : message.paths = sign_off_op :: userId :: rest)
    (hbody : get_json_body message = [])
    (hsome : map_find users userId = some s) :
    (handle_post cu message users w).replies = [(status_codes.OK, value.null)] ∧
      map_find (handle_post cu message users w).users userId = none ∧
      (∀ other : String, other ≠ userId →
        map_find (handle_post cu message users w).users other = map_find users other) ∧
      (handle_post cu message (handle_post cu message users w).users
          (handle_post cu message users w).world).replies
        = [(status_codes.NotFound, value.null)] := by
  have hop : ¬ (sign_off_op = sign_on_op) := by decide
  have hfirst :
      handle_post cu message users w
        = { replies := [(status_codes.OK, value.null)], requests := [],
            users := map_erase users userId, world := w,
            completion := Completion.returned } := by
    simp [handle_post, hpath, hbody, hsome, hop]
  have hgone := map_find_erase_self users userId hwf
  rw [hfirst]
  refine ⟨rfl, hgone, fun other hne => map_find_erase_other users userId other hne, ?_⟩
  rw [handle_post_sign_off_none cu message userId rest _ w hpath hbody hgone]
  rfl

theorem sign_off_removes_session_witness :
    map_wf [("alice", "t+", "Canada", "Alice"), ("bob", "t", "Zimbabwe", "Bob")] ∧
      (handle_post Model.utils Model.sign_off_bob
            [("alice", "t+", "Canada", "Alice"), ("bob", "t", "Zimbabwe", "Bob")]
            Model.world_bob).replies
        = [(status_codes.OK, value.null)] ∧
      map_find
          (handle_post Model.utils Model.sign_off_bob
            [("alice", "t+", "Canada", "Alice"), ("bob", "t", "Zimbabwe", "Bob")]
            Model.world_bob).users "bob"
        = none ∧
      (∀ other : String, other ≠ "bob" →
        map_find
            (handle_post Model.utils Model.sign_off_bob
              [("alice", "t+", "Canada", "Alice"), ("bob", "t", "Zimbabwe", "Bob")]
              Model.world_bob).users other
          = map_find [("alice", "t+", "Canada", "Alice"), ("bob", "t", "Zimbabwe", "Bob")]
              other) ∧
      (handle_post Model.utils Model.sign_off_bob
          (handle_post Model.utils Model.sign_off_bob
            [("alice", "t+", "Canada", "Alice"), ("bob", "t", "Zimbabwe", "Bob")]
            Model.world_bob).users
          (handle_post Model.utils Model.sign_off_bob
            [("alice", "t+", "Canada", "Alice"), ("bob", "t", "Zimbabwe", "Bob")]
            Model.world_bob).world).replies
        = [(status_codes.NotFound, value.null)] :=
  ⟨by unfold map_wf; decide,
    sign_off_removes_session Model.utils Model.sign_off_bob "bob" []
      [("alice", "t+", "Canada", "Alice"), ("bob", "t", "Zimbabwe", "Bob")]
      ("t", "Zimbabwe", "Bob") Model.world_bob (by unfold map_wf; decide) (by decide)
      (by decide) (by decide)⟩

/-- C6. A session-gated operation for a user without a session, on a well-formed
path: AddFriend, UnFriend, UpdateStatus and ReadFriendList are each answered
Forbidden, issue no request, and leave the registry and the world unchanged. -/
theorem no_session_forbidden {σ : Type} (cu : ClientUtils σ) (userId : String)
    (users : signed_on_users_t) (w : σ) (hnone : map_find users userId = none)
    (friend_country friend_name userstatus : String) (rest : List String)
    (content_type : Option String) (json : value) :
    handle_put cu ⟨[add_friend_op, userId, friend_country, friend_name], content_type, json⟩
        users w
        = reply_only status_codes.Forbidden users w ∧
      handle_put cu ⟨[unfriend_op, userId, friend_country, friend_name], content_type, json⟩
          users w
        = reply_only status_codes.Forbidden users w ∧
      handle_put cu ⟨[update_status_op, userId, userstatus], content_type, json⟩ users w
        = reply_only status_codes.Forbidden users w ∧
      handle_get cu ⟨read_friend_list_op :: userId :: rest, content_type, json⟩ users w
        = reply_only status_codes.Forbidden users w ∧
      (reply_only status_codes.Forbidden users w).replies
        = [(status_codes.Forbidden, value.null)] ∧
      (reply_only status_codes.Forbidden users w).requests = [] ∧
      (reply_only status_codes.Forbidden users w).users = users ∧
      (reply_only status_codes.Forbidden users w).world = w := by
  have h1 : ¬ (unfriend_op = add_friend_op) := by decide
  have h2 : ¬ (update_status_op = add_friend_op) := by decide
  have h3 : ¬ (update_status_op = unfriend_op) := by decide
  refine ⟨?_, ?_, ?_, ?_, rfl, rfl, rfl, rfl⟩
  · simp [handle_put, add_friend, hnone]
  · simp [handle_put, unfriend, hnone, h1]
  · simp [handle_put, update_status, hnone, h2, h3]
  · simp [handle_get, hnone]

theorem no_session_forbidden_witness :
    map_find ([] : signed_on_users_t) "bob" = none ∧
      handle_put Model.utils ⟨[add_friend_op, "bob", "USA", "Ann"], none, value.null⟩ []
          Model.world_bob
        = reply_only status_codes.Forbidden [] Model.world_bob :=
  ⟨rfl,
    (no_session_forbidden Model.utils "bob" [] Model.world_bob rfl "USA" "Ann" "hello" []
      none value.null).1⟩

/-! ## The friend list: AddFriend and UnFriend -/

theorem session_of_fold_of_absent (m : signed_on_users_t) (key : String) (acc : session_t)
    (h : ∀ e ∈ m, e.1 ≠ key) :
    m.foldl (fun acc v => if v.1 = key then v.2 else acc) acc = acc := by
  induction m generalizing acc with
  | nil => rfl
  | cons e rest ih =>
    have he : ¬ e.1 = key := h e (List.mem_cons_self _ _)
    simp only [List.foldl_cons, he, if_false]
    exact ih acc (fun e' he' => h e' (List.mem_cons_of_mem _ he'))

theorem session_of_fold_eq (m : signed_on_users_t) (key : String) (s acc : session_t)
    (hwf : map_wf m) (h : map_find m key = some s) :
    m.foldl (fun acc v => if v.1 = key then v.2 else acc) acc = s := by
  induction m generalizing acc with
  | nil => simp [map_find] at h
  | cons e rest ih =>
    obtain ⟨k, v0⟩ := e
    unfold map_wf at hwf
    rw [List.pairwise_cons] at hwf
    by_cases hk : k = key
    · simp only [map_find, hk, if_true, Option.some.injEq] at h
      simp only [List.foldl_cons, hk, if_true, h]
      apply session_of_fold_of_absent
      intro e he hek
      have := hwf.1 e he
      rw [hek, hk] at this
      exact key_lt_irrefl key this
    · simp only [map_find, hk, if_false] at h
      simp only [List.foldl_cons, hk, if_false]
      exact ih acc hwf.2 h

/-- In a well-formed registry the loop over `signed_on_users` copies the tuple that
`find` points to. -/
theorem session_of_eq (users : signed_on_users_t) (userId : String) (s : session_t)
    (hwf : map_wf users) (h : map_find users userId = some s) :
    session_of users userId = s :=
  session_of_fold_eq users userId s _ hwf h

theorem is_friend_fold_true (c n : String) (l : friends_list_t) :
    l.foldl (fun is_friend f => if f.1 = c ∧ f.2 = n then true else is_friend) true = true := by
  induction l with
  | nil => rfl
  | cons e rest ih =>
    simp only [List.foldl_cons]
    split <;> exact ih

/-- The loop of AddFriend finds a match exactly when the pair is in the list. -/
theorem is_friend_loop_iff (c n : String) (l : friends_list_t) :
    is_friend_loop c n l = true ↔ (c, n) ∈ l := by
  unfold is_friend_loop
  induction l with
  | nil => simp
  | cons e rest ih =>
    obtain ⟨c0, n0⟩ := e
    simp only [List.foldl_cons, List.mem_cons, Prod.mk.injEq]
    by_cases h : c0 = c ∧ n0 = n
    · simp only [h, and_self, if_true, is_friend_fold_true, true_or]
    · simp only [h, if_false, ih]
      constructor
      · exact fun hm => Or.inr hm
      · rintro (⟨h1, h2⟩ | hm)
        · exact absurd ⟨h1.symm, h2.symm⟩ h
        · exact hm

/-- What AddFriend does when the pair is already in the decoded list. -/
theorem add_friend_present {σ : Type} (cu : ClientUtils σ) (userId c n : String)
    (users : signed_on_users_t) (s : session_t) (w : σ)
    (hwf : map_wf users) (hs : map_find users userId = some s)
    (hmem : (c, n) ∈ stored_friends cu s w) :
    handle_put cu (add_friend_message userId c n) users w
      = { replies := [(status_codes.OK, value.null)], requests := [read_request s],
          users := users, world := (cu.do_request (read_request s) w).2,
          completion := Completion.returned } := by
  have hloop := (is_friend_loop_iff c n _).mpr hmem
  unfold stored_friends at hloop
  simp only [handle_put, add_friend_message, add_friend, if_true, hs,
    session_of_eq users userId s hwf hs, hloop]

/-- What AddFriend does when the pair is not in the decoded list. -/
theorem add_friend_absent {σ : Type} (cu : ClientUtils σ) (userId c n : String)
    (users : signed_on_users_t) (s : session_t) (w : σ)
    (hwf : map_wf users) (hs : map_find users userId = some s)
    (hmem : (c, n) ∉ stored_friends cu s w) :
    handle_put cu (add_friend_message userId c n) users w
      = (if (cu.do_request
              (update_request s
                (build_json_object
                  [(friend_prop,
                    cu.friends_list_to_string (stored_friends cu s w ++ [(c, n)]))]))
              (cu.do_request (read_request s) w).2).1.1 = status_codes.OK then
          { replies := [(status_codes.OK, value.null)],
            requests :=
              [read_request s,
                update_request s
                  (build_json_object
                    [(friend_prop,
                      cu.friends_list_to_string (stored_friends cu s w ++ [(c, n)]))])],
            users := users,
            world :=
              (cu.do_request
                (update_request s
                  (build_json_object
                    [(friend_prop,
                      cu.friends_list_to_string (stored_friends cu s w ++ [(c, n)]))]))
                (cu.do_request (read_request s) w).2).2,
            completion := Completion.returned }
        else
          { replies := [],
            requests :=
              [read_request s,
                update_request s
                  (build_json_object
                    [(friend_prop,
                      cu.friends_list_to_string (stored_friends cu s w ++ [(c, n)]))])],
            users := users,
            world :=
              (cu.do_request
                (update_request s
                  (build_json_object
                    [(friend_prop,
                      cu.friends_list_to_string (stored_friends cu s w ++ [(c, n)]))]))
                (cu.do_request (read_request s) w).2).2,
            completion := Completion.assert_failed }) := by
  have hloop : is_friend_loop c n (stored_friends cu s w) = false := by
    cases h : is_friend_loop c n (stored_friends cu s w) with
    | false => rfl
    | true => exact absurd ((is_friend_loop_iff c n _).mp h) hmem
  unfold stored_friends at hloop
  simp only [handle_put, add_friend_message, add_friend, if_true, hs,
    session_of_eq users userId s hwf hs, hloop, stored_friends]
  rfl

/-- C7, as amended. For a signed-on user: when the decoded friend list of the caller's
record already contains (country, name), AddFriend replies OK and its only request is
the read of the caller's record; otherwise its requests are that read and the write to
the caller's record of the encoding of the old list with (country, name) appended, and
it replies OK when that write returns OK, while a write that does not return OK fails
the assertion and leaves the request without reply. The friend's record is never
requested. -/
theorem add_friend_outcome {σ : Type} (cu : ClientUtils σ) (userId c n : String)
    (users : signed_on_users_t) (s : session_t) (w : σ)
    (hwf : map_wf users) (hs : map_find users userId = some s) :
    ((c, n) ∈ stored_friends cu s w →
        (handle_put cu (add_friend_message userId c n) users w).replies
            = [(status_codes.OK, value.null)] ∧
          (handle_put cu (add_friend_message userId c n) users w).requests
            = [read_request s]) ∧
      ((c, n) ∉ stored_friends cu s w →
        (handle_put cu (add_friend_message userId c n) users w).requests
            = [read_request s,
                update_request s
                  (build_json_object
                    [(friend_prop,
                      cu.friends_list_to_string (stored_friends cu s w ++ [(c, n)]))])] ∧
          ((cu.do_request
                (update_request s
                  (build_json_object
                    [(friend_prop,
                      cu.friends_list_to_string (stored_friends cu s w ++ [(c, n)]))]))
                (cu.do_request (read_request s) w).2).1.1 = status_codes.OK →
            (handle_put cu (add_friend_message userId c n) users w).replies
              = [(status_codes.OK, value.null)]) ∧
          ((cu.do_request
                (update_request s
                  (build_json_object
                    [(friend_prop,
                      cu.friends_list_to_string (stored_friends cu s w ++ [(c, n)]))]))
                (cu.do_request (read_request s) w).2).1.1 ≠ status_codes.OK →
            (handle_put cu (add_friend_message userId c n) users w).replies = [] ∧
              (handle_put cu (add_friend_message userId c n) users w).completion
                = Completion.assert_failed)) := by
  constructor
  · intro hmem
    rw [add_friend_present cu userId c n users s w hwf hs hmem]
    exact ⟨rfl, rfl⟩
  · intro hmem
    rw [add_friend_absent cu userId c n users s w hwf hs hmem]
    refine ⟨?_, ?_, ?_⟩
    · split <;> rfl
    · intro hok
      rw [if_pos hok]
    · intro hbad
      rw [if_neg hbad]
      exact ⟨rfl, rfl⟩

theorem add_friend_outcome_witness :
    map_wf Model.users_bob ∧
      ("USA", "Ann") ∉ stored_friends Model.utils ("t", "Zimbabwe", "Bob") Model.world_bob ∧
      (handle_put Model.utils (add_friend_message "bob" "USA" "Ann") Model.users_bob
          Model.world_bob).requests
        = [read_request ("t", "Zimbabwe", "Bob"),
            update_request ("t", "Zimbabwe", "Bob")
              (value.object [("Friends", scalar.string "USA;Ann")])] ∧
      (handle_put Model.utils (add_friend_message "bob" "USA" "Ann") Model.users_bob
          Model.world_bob).replies
        = [(status_codes.OK, value.null)] :=
  ⟨by unfold map_wf; decide, by decide,
    ((add_friend_outcome Model.utils "bob" "USA" "Ann" Model.users_bob
        ("t", "Zimbabwe", "Bob") Model.world_bob (by unfold map_wf; decide)
        (by decide)).2 (by decide)).1,
    ((add_friend_outcome Model.utils "bob" "USA" "Ann" Model.users_bob
        ("t", "Zimbabwe", "Bob") Model.world_bob (by unfold map_wf; decide)
        (by decide)).2 (by decide)).2.1 (by decide)⟩

/-- C7 fails as stated: `bob` is signed on, (USA, Ann) is not in his decoded friend
list, and the store has lost his record, so the write is answered NotFound; AddFriend
issues the write, the assertion on its result fails, and there is no reply. -/
theorem add_friend_no_reply_when_write_fails :
    map_find Model.users_bob "bob" = some ("t", "Zimbabwe", "Bob") ∧
      ("USA", "Ann")
        ∉ stored_friends Model.utils ("t", "Zimbabwe", "Bob") Model.world_no_record ∧
      (handle_put Model.utils (add_friend_message "bob" "USA" "Ann") Model.users_bob
          Model.world_no_record).requests
        = [read_request ("t", "Zimbabwe", "Bob"),
            update_request ("t", "Zimbabwe", "Bob")
              (value.object [("Friends", scalar.string "USA;Ann")])] ∧
      (handle_put Model.utils (add_friend_message "bob" "USA" "Ann") Model.users_bob
          Model.world_no_record).replies = [] ∧
      (handle_put Model.utils (add_friend_message "bob" "USA" "Ann") Model.users_bob
          Model.world_no_record).completion = Completion.assert_failed := by
  decide

end UserServer

/-! ## The modelled store -/

namespace Model

open UserServer

theorem do_request_read (s : session_t) (w : World)
    (h1 : s.1 ≠ "") (h2 : s.2.1 ≠ "") (h3 : s.2.2 ≠ "") :
    do_request (read_request s) w = read_record w "DataTable" s.2.1 s.2.2 := by
  simp [do_request, read_request, List.filter, h1, h2, h3, data_addr, read_entity_op,
    data_table_name]

theorem do_request_update (s : session_t) (body : value) (w : World)
    (h1 : s.1 ≠ "") (h2 : s.2.1 ≠ "") (h3 : s.2.2 ≠ "") :
    do_request (update_request s body) w = write_record w "DataTable" s.2.1 s.2.2 body := by
  simp [do_request, update_request, List.filter, h1, h2, h3, data_addr, update_entity_op,
    data_table_name]

theorem pieces_of_read_ok (s : session_t) (w : World)
    (h : (do_request (read_request s) w).1.1 = status_codes.OK) :
    s.1 ≠ "" ∧ s.2.1 ≠ "" ∧ s.2.2 ≠ "" := by
  by_cases h1 : s.1 = "" <;> by_cases h2 : s.2.1 = "" <;> by_cases h3 : s.2.2 = "" <;>
    simp [do_request, read_request, List.filter, h1, h2, h3, data_addr, read_entity_op,
      data_table_name, status_codes.OK, status_codes.BadRequest] at h ⊢

theorem record_of_read_ok (w : World) (table partition row : String)
    (h : (read_record w table partition row).1.1 = status_codes.OK) :
    ∃ r, find_record w.records table partition row = some r := by
  unfold read_record at h
  cases hf : find_record w.records table partition row with
  | none => simp [hf, status_codes.OK, status_codes.NotFound] at h
  | some r => exact ⟨r, rfl⟩

theorem find_record_write (records : List Record) (table partition row : String)
    (properties : List (String × String)) (r : Record)
    (h : find_record records table partition row = some r) :
    find_record (write_records records table partition row properties) table partition row
      = some { r with properties := merge_properties r.properties properties } := by
  induction records with
  | nil => simp [find_record] at h
  | cons r0 rest ih =>
    unfold find_record at h ih ⊢
    by_cases hk : r0.table = table ∧ r0.partition = partition ∧ r0.row = row
    · simp only [write_records, hk, and_self, if_true]
      rw [List.find?_cons_of_pos _ (by simp [hk])] at h
      rw [List.find?_cons_of_pos _ (by simp [hk])]
      simp only [Option.some.injEq] at h
      subst h
      simp [hk.1, hk.2.1, hk.2.2]
    · simp only [write_records, hk, if_false]
      rw [List.find?_cons_of_neg _ (by simpa using hk)] at h
      rw [List.find?_cons_of_neg _ (by simpa using hk)]
      exact ih h

theorem get_prop_umap_assign (old : List (String × String)) (key v : String) :
    get_json_object_prop
        (value.object ((umap_assign old key v).map (fun p => (p.1, scalar.string p.2)))) key
      = v := by
  induction old with
  | nil => simp [umap_assign, get_json_object_prop]
  | cons e rest ih =>
    obtain ⟨k0, v0⟩ := e
    by_cases hk : k0 = key
    · simp [umap_assign, get_json_object_prop, hk]
    · simp only [umap_assign, hk, if_false]
      simp only [get_json_object_prop, List.map_cons] at ih ⊢
      rw [List.find?_cons_of_neg _ (by simpa using hk)]
      exact ih


/-- In the modelled store a readable record answers a read with its properties and
leaves the world as it was. -/
theorem read_of_ok (s : session_t) (w : World)
    (h : (do_request (read_request s) w).1.1 = status_codes.OK) :
    ∃ r, find_record w.records "DataTable" s.2.1 s.2.2 = some r ∧
      do_request (read_request s) w
        = ((status_codes.OK,
            value.object (r.properties.map (fun p => (p.1, scalar.string p.2)))), w) := by
  obtain ⟨h1, h2, h3⟩ := pieces_of_read_ok s w h
  rw [do_request_read s w h1 h2 h3] at h ⊢
  obtain ⟨r, hr⟩ := record_of_read_ok w _ _ _ h
  exact ⟨r, hr, by simp [read_record, hr]⟩

/-- In the modelled store a write of the friend list to a readable record returns OK,
and the record then reads back with that friend list. -/
theorem update_of_ok (parse : String → friends_list_t) (encode : friends_list_t → String)
    (s : session_t) (w : World) (text : String)
    (h : (do_request (read_request s) w).1.1 = status_codes.OK) :
    (do_request (update_request s (build_json_object [(friend_prop, text)])) w).1.1
        = status_codes.OK ∧
      (do_request (read_request s)
          (do_request (update_request s (build_json_object [(friend_prop, text)])) w).2).1.1
        = status_codes.OK ∧
      stored_friends (utils_with parse encode) s
          (do_request (update_request s (build_json_object [(friend_prop, text)])) w).2
        = parse text := by
  obtain ⟨h1, h2, h3⟩ := pieces_of_read_ok s w h
  obtain ⟨r, hr, -⟩ := read_of_ok s w h
  have hbody : unpack_json_object (build_json_object [(friend_prop, text)])
      = [("Friends", text)] := rfl
  have hw :
      do_request (update_request s (build_json_object [(friend_prop, text)])) w
        = ((status_codes.OK, value.null),
            { w with
              records := write_records w.records "DataTable" s.2.1 s.2.2 [("Friends", text)] }) := by
    rw [do_request_update s _ w h1 h2 h3]
    simp [write_record, hr, hbody]
  have hfind := find_record_write w.records "DataTable" s.2.1 s.2.2 [("Friends", text)] r hr
  have hread2 :
      do_request (read_request s)
          { w with
            records := write_records w.records "DataTable" s.2.1 s.2.2 [("Friends", text)] }
        = ((status_codes.OK,
            value.object
              ((umap_assign r.properties "Friends" text).map
                (fun p => (p.1, scalar.string p.2)))),
            { w with
              records :=
                write_records w.records "DataTable" s.2.1 s.2.2 [("Friends", text)] }) := by
    rw [do_request_read s _ h1 h2 h3]
    simp [read_record, hfind, merge_properties]
  rw [hw]
  refine ⟨rfl, ?_, ?_⟩
  · rw [hread2]
  · show parse (get_json_object_prop (do_request (read_request s) _).1.2 friend_prop) = parse text
    rw [hread2]
    show parse (get_json_object_prop _ "Friends") = parse text
    rw [get_prop_umap_assign]

/-- AddFriend over the modelled store, for a signed-on user whose record can be read. -/
theorem add_friend_step (parse : String → friends_list_t) (encode : friends_list_t → String)
    (userId c n : String) (users : signed_on_users_t) (s : session_t) (w : World)
    (hwf : map_wf users) (hs : map_find users userId = some s)
    (hread : (do_request (read_request s) w).1.1 = status_codes.OK) :
    (handle_put (utils_with parse encode) (add_friend_message userId c n) users w).replies
        = [(status_codes.OK, value.null)] ∧
      (handle_put (utils_with parse encode) (add_friend_message userId c n) users w).users
        = users ∧
      (do_request (read_request s)
          (handle_put (utils_with parse encode) (add_friend_message userId c n) users
            w).world).1.1 = status_codes.OK ∧
      ((c, n) ∈ stored_friends (utils_with parse encode) s w →
        (handle_put (utils_with parse encode) (add_friend_message userId c n) users w).world
          = w) ∧
      ((c, n) ∉ stored_friends (utils_with parse encode) s w →
        stored_friends (utils_with parse encode) s
            (handle_put (utils_with parse encode) (add_friend_message userId c n) users
              w).world
          = parse (encode (stored_friends (utils_with parse encode) s w ++ [(c, n)]))) := by
  obtain ⟨r, -, hr⟩ := read_of_ok s w hread
  have hw : ((utils_with parse encode).do_request (read_request s) w).2 = w := by
    show (do_request (read_request s) w).2 = w
    rw [hr]
  by_cases hmem : (c, n) ∈ stored_friends (utils_with parse encode) s w
  · rw [add_friend_present _ userId c n users s w hwf hs hmem, hw]
    exact ⟨rfl, rfl, hread, fun _ => rfl, fun h => absurd hmem h⟩
  · rw [add_friend_absent _ userId c n users s w hwf hs hmem, hw]
    have hu :=
      update_of_ok parse encode s w
        (encode (stored_friends (utils_with parse encode) s w ++ [(c, n)])) hread
    have hu1 :
        ((utils_with parse encode).do_request
            (update_request s
              (build_json_object
                [(friend_prop,
                  (utils_with parse encode).friends_list_to_string
                    (stored_friends (utils_with parse encode) s w ++ [(c, n)]))])) w).1.1
          = status_codes.OK := hu.1
    rw [if_pos hu1]
    exact ⟨rfl, rfl, hu.2.1, fun h => absurd h hmem, fun _ => hu.2.2⟩

end Model

namespace UserServer

theorem erase_loop_sublist (c n : String) (i : Nat) (l : friends_list_t) (f : Bool) :
    (erase_loop c n i l f).1.Sublist l := by
  induction i, l, f using erase_loop.induct c n with
  | case1 i l f h hm ih =>
    rw [erase_loop, dif_pos h, if_pos hm]
    exact ih.trans (List.eraseIdx_sublist l i)
  | case2 i l f h hm ih =>
    rw [erase_loop, dif_pos h, if_neg hm]
    exact ih
  | case3 i l f h =>
    rw [erase_loop, dif_neg h]

/-- What UnFriend does for a signed-on user. -/
theorem unfriend_outcome {σ : Type} (cu : ClientUtils σ) (userId c n : String)
    (users : signed_on_users_t) (s : session_t) (w : σ)
    (hwf : map_wf users) (hs : map_find users userId = some s) :
    handle_put cu (unfriend_message userId c n) users w
      = (if (erase_loop c n 0 (stored_friends cu s w) false).2 = false then
          { replies := [(status_codes.OK, value.null)], requests := [read_request s],
            users := users, world := (cu.do_request (read_request s) w).2,
            completion := Completion.returned }
        else if (cu.do_request
              (update_request s
                (build_json_object
                  [(friend_prop,
                    cu.friends_list_to_string
                      (erase_loop c n 0 (stored_friends cu s w) false).1)]))
              (cu.do_request (read_request s) w).2).1.1 = status_codes.OK then
          { replies := [(status_codes.OK, value.null)],
            requests :=
              [read_request s,
                update_request s
                  (build_json_object
                    [(friend_prop,
                      cu.friends_list_to_string
                        (erase_loop c n 0 (stored_friends cu s w) false).1)])],
            users := users,
            world :=
              (cu.do_request
                (update_request s
                  (build_json_object
                    [(friend_prop,
                      cu.friends_list_to_string
                        (erase_loop c n 0 (stored_friends cu s w) false).1)]))
                (cu.do_request (read_request s) w).2).2,
            completion := Completion.returned }
        else
          { replies := [],
            requests :=
              [read_request s,
                update_request s
                  (build_json_object
                    [(friend_prop,
                      cu.friends_list_to_string
                        (erase_loop c n 0 (stored_friends cu s w) false).1)])],
            users := users,
            world :=
              (cu.do_request
                (update_request s
                  (build_json_object
                    [(friend_prop,
                      cu.friends_list_to_string
                        (erase_loop c n 0 (stored_friends cu s w) false).1)]))
                (cu.do_request (read_request s) w).2).2,
            completion := Completion.assert_failed }) := by
  have h1 : ¬ (unfriend_op = add_friend_op) := by decide
  simp only [handle_put, unfriend_message, unfriend, if_true, h1, if_false, hs,
    session_of_eq users userId s hwf hs, stored_friends]

/-- The vector handed to the encoder stays duplicate-free: when the decoded friend
list of the caller's record has no pair twice, every request of AddFriend and of
UnFriend other than the read of that record is the write of the encoding of the list
the handler computed, and that list has no pair twice. -/
theorem written_friend_list_nodup {σ : Type} (cu : ClientUtils σ)
    (userId c n : String) (users : signed_on_users_t) (s : session_t) (w : σ)
    (hwf : map_wf users) (hs : map_find users userId = some s)
    (hnodup : (stored_friends cu s w).Nodup) :
    (∀ r ∈ (handle_put cu (add_friend_message userId c n) users w).requests,
        r = read_request s ∨
          (r = update_request s
                (build_json_object
                  [(friend_prop,
                    cu.friends_list_to_string (stored_friends cu s w ++ [(c, n)]))]) ∧
            (stored_friends cu s w ++ [(c, n)]).Nodup)) ∧
      (∀ r ∈ (handle_put cu (unfriend_message userId c n) users w).requests,
        r = read_request s ∨
          (r = update_request s
                (build_json_object
                  [(friend_prop,
                    cu.friends_list_to_string
                      (erase_loop c n 0 (stored_friends cu s w) false).1)]) ∧
            (erase_loop c n 0 (stored_friends cu s w) false).1.Nodup)) := by
  constructor
  · by_cases hmem : (c, n) ∈ stored_friends cu s w
    · rw [add_friend_present cu userId c n users s w hwf hs hmem]
      intro r hr
      simp only [List.mem_singleton] at hr
      exact Or.inl hr
    · have hnd : (stored_friends cu s w ++ [(c, n)]).Nodup := by
        rw [List.nodup_append]
        refine ⟨hnodup, List.nodup_singleton _, ?_⟩
        intro a ha hb
        rw [List.mem_singleton] at hb
        exact hmem (hb ▸ ha)
      rw [add_friend_absent cu userId c n users s w hwf hs hmem]
      intro r hr
      have hr' :
          r ∈ [read_request s,
            update_request s
              (build_json_object
                [(friend_prop,
                  cu.friends_list_to_string (stored_friends cu s w ++ [(c, n)]))])] := by
        split at hr <;> exact hr
      simp only [List.mem_cons, List.mem_singleton, List.not_mem_nil, or_false] at hr'
      rcases hr' with h | h
      · exact Or.inl h
      · exact Or.inr ⟨h, hnd⟩
  · have hnd : (erase_loop c n 0 (stored_friends cu s w) false).1.Nodup :=
      (erase_loop_sublist c n 0 _ false).nodup hnodup
    rw [unfriend_outcome cu userId c n users s w hwf hs]
    intro r hr
    have hr' :
        r ∈ [read_request s,
          update_request s
            (build_json_object
              [(friend_prop,
                cu.friends_list_to_string
                  (erase_loop c n 0 (stored_friends cu s w) false).1)])] := by
      split at hr
      · simp only [List.mem_singleton] at hr
        rw [hr]
        exact List.mem_cons_self _ _
      · split at hr <;> exact hr
    simp only [List.mem_cons, List.mem_singleton, List.not_mem_nil, or_false] at hr'
    rcases hr' with h | h
    · exact Or.inl h
    · exact Or.inr ⟨h, hnd⟩

/-- C10 fails on the code: the decoded friend list of `bob` holds (USA, Ann) twice in a
row (as after AddFriend with the country `USA;Ann|USA` and the name `Ann` on an empty
list); the erase loop of UnFriend removes the first, steps over the second, and the
list written back still holds (USA, Ann), while the exact-match filter of the list is
empty. -/
theorem unfriend_keeps_second_of_two :
    (handle_put Model.utils (add_friend_message "bob" "USA;Ann|USA" "Ann") Model.users_bob
          Model.world_bob).world = Model.world_twice ∧
      stored_friends Model.utils ("t", "Zimbabwe", "Bob") Model.world_twice
        = [("USA", "Ann"), ("USA", "Ann")] ∧
      [("USA", "Ann"), ("USA", "Ann")].filter (fun f => f ≠ (("USA", "Ann") : String × String))
        = [] ∧
      (erase_loop "USA" "Ann" 0 [("USA", "Ann"), ("USA", "Ann")] false).1
        = [("USA", "Ann")] ∧
      (handle_put Model.utils (unfriend_message "bob" "USA" "Ann") Model.users_bob
          Model.world_twice).requests
        = [read_request ("t", "Zimbabwe", "Bob"),
            update_request ("t", "Zimbabwe", "Bob")
              (value.object [("Friends", scalar.string "USA;Ann")])] ∧
      stored_friends Model.utils ("t", "Zimbabwe", "Bob")
          (handle_put Model.utils (unfriend_message "bob" "USA" "Ann") Model.users_bob
            Model.world_twice).world
        = [("USA", "Ann")] := by
  have hst :
      stored_friends Model.utils ("t", "Zimbabwe", "Bob") Model.world_twice
        = [("USA", "Ann"), ("USA", "Ann")] := by decide
  have hloop :
      erase_loop "USA" "Ann" 0 [("USA", "Ann"), ("USA", "Ann")] false
        = ([("USA", "Ann")], true) := by
    simp [erase_loop]
  rw [unfriend_outcome Model.utils "bob" "USA" "Ann" Model.users_bob ("t", "Zimbabwe", "Bob")
    Model.world_twice (by unfold map_wf; decide) (by decide), hst, hloop]
  decide

end UserServer

/-! ## The friend-list codec -/

namespace Model

open UserServer

theorem split_on_of_not_mem (sep : Char) (a : List Char) (h : sep ∉ a) :
    split_on sep a = [a] := by
  induction a with
  | nil => rfl
  | cons c cs ih =>
    simp only [List.mem_cons, not_or] at h
    have hc : ¬ c = sep := fun e => h.1 e.symm
    simp only [split_on, hc, if_false, ih h.2]

theorem split_on_append (sep : Char) (a b : List Char) (h : sep ∉ a) :
    split_on sep (a ++ sep :: b) = a :: split_on sep b := by
  induction a with
  | nil => simp [split_on]
  | cons c cs ih =>
    simp only [List.mem_cons, not_or] at h
    have hc : ¬ c = sep := fun e => h.1 e.symm
    have ih' := ih h.2
    simp [split_on, hc, ih']

/-- The characters of an encoded entry. -/
theorem parse_entry_encoded (f : String × String)
    (h1 : ';' ∉ f.1.data) (h2 : ';' ∉ f.2.data) :
    parse_entry (f.1.data ++ ';' :: f.2.data) = some f := by
  unfold parse_entry
  rw [split_on_append ';' _ _ h1, split_on_of_not_mem ';' _ h2]

theorem split_on_intercalate (xs : List (List Char)) (hne : xs ≠ [])
    (h : ∀ x ∈ xs, '|' ∉ x) : split_on '|' (List.intercalate ['|'] xs) = xs := by
  induction xs with
  | nil => exact absurd rfl hne
  | cons x rest ih =>
    cases rest with
    | nil =>
      have hx := split_on_of_not_mem '|' x (h x (List.mem_cons_self _ _))
      simpa [List.intercalate] using hx
    | cons y ys =>
      have hrest := ih (List.cons_ne_nil _ _) (fun z hz => h z (List.mem_cons_of_mem _ hz))
      have hx := h x (List.mem_cons_self _ _)
      have hsplit := split_on_append '|' x (List.intercalate ['|'] (y :: ys)) hx
      rw [hrest] at hsplit
      simpa [List.intercalate] using hsplit


theorem filterMap_parse_entry (entries : friends_list_t)
    (h : ∀ f ∈ entries, no_separator f.1 ∧ no_separator f.2) :
    (entries.map (fun f => f.1.data ++ ';' :: f.2.data)).filterMap parse_entry = entries := by
  induction entries with
  | nil => rfl
  | cons f rest ih =>
    have hf := h f (List.mem_cons_self _ _)
    rw [List.map_cons, List.filterMap_cons, parse_entry_encoded f hf.1.2 hf.2.2]
    simp only
    rw [ih (fun g hg => h g (List.mem_cons_of_mem _ hg))]

/-- The modelled codec decodes what it encoded, for fields without `|` and `;`. -/
theorem parse_friends_list_to_string (entries : friends_list_t)
    (h : ∀ f ∈ entries, no_separator f.1 ∧ no_separator f.2) :
    parse_friends_list (friends_list_to_string entries) = entries := by
  cases entries with
  | nil => rfl
  | cons f rest =>
    have hbar : ∀ x ∈ (f :: rest).map (fun f => f.1.data ++ ';' :: f.2.data), '|' ∉ x := by
      intro x hx
      obtain ⟨g, hg, rfl⟩ := List.mem_map.mp hx
      have hg' := h g hg
      simp only [List.mem_append, List.mem_cons, not_or]
      exact ⟨hg'.1.1, by decide, hg'.2.1⟩
    have hsplit :=
      split_on_intercalate ((f :: rest).map (fun f => f.1.data ++ ';' :: f.2.data))
        (by simp) hbar
    have hne :
        List.intercalate ['|'] ((f :: rest).map (fun f => f.1.data ++ ';' :: f.2.data)) ≠ [] := by
      intro hnil
      rw [hnil] at hsplit
      simp [split_on] at hsplit
    unfold parse_friends_list friends_list_to_string
    simp only [hne, if_false]
    rw [hsplit]
    exact filterMap_parse_entry (f :: rest) h

/-- C14. The friend-list codec round-trips: for every sequence of entries whose
countries and names contain neither `|` nor `;`, decoding the encoding gives the
sequence back, in the same order; and the empty sequence is encoded as the empty
string. -/
theorem friend_list_codec_round_trip (entries : friends_list_t)
    (h : ∀ f ∈ entries, no_separator f.1 ∧ no_separator f.2) :
    parse_friends_list (friends_list_to_string entries) = entries ∧
      friends_list_to_string [] = "" :=
  ⟨parse_friends_list_to_string entries h, rfl⟩

theorem friend_list_codec_round_trip_witness :
    (∀ f ∈ [("Canada", "Cruz,Ted"), ("USA", "Clinton,Hillary")],
        no_separator f.1 ∧ no_separator f.2) ∧
      friends_list_to_string [("Canada", "Cruz,Ted"), ("USA", "Clinton,Hillary")]
        = "Canada;Cruz,Ted|USA;Clinton,Hillary" ∧
      parse_friends_list
          (friends_list_to_string [("Canada", "Cruz,Ted"), ("USA", "Clinton,Hillary")])
        = [("Canada", "Cruz,Ted"), ("USA", "Clinton,Hillary")] :=
  ⟨by unfold no_separator; decide, by decide,
    (friend_list_codec_round_trip [("Canada", "Cruz,Ted"), ("USA", "Clinton,Hillary")]
      (by unfold no_separator; decide)).1⟩

end Model

/-! ## UnFriend and ReadFriendList -/

namespace UserServer

theorem erase_loop_of_absent (c n : String) (i : Nat) (l : friends_list_t) (f : Bool)
    (h : (c, n) ∉ l.drop i) : erase_loop c n i l f = (l, f) := by
  induction i, l, f using erase_loop.induct c n with
  | case1 i l f hi hm _ =>
    exfalso
    apply h
    rw [List.drop_eq_getElem_cons hi]
    have : l[i] = (c, n) := Prod.ext hm.1 hm.2
    rw [this]
    exact List.mem_cons_self _ _
  | case2 i l f hi hm ih =>
    rw [erase_loop, dif_pos hi, if_neg hm]
    apply ih
    rw [List.drop_eq_getElem_cons hi] at h
    exact fun hmem => h (List.mem_cons_of_mem _ hmem)
  | case3 i l f hi =>
    rw [erase_loop, dif_neg hi]

theorem erase_loop_flag_of_true (c n : String) (i : Nat) (l : friends_list_t) (f : Bool)
    (hf : f = true) : (erase_loop c n i l f).2 = true := by
  induction i, l, f using erase_loop.induct c n with
  | case1 i l f hi hm ih =>
    rw [erase_loop, dif_pos hi, if_pos hm]
    exact ih rfl
  | case2 i l f hi hm ih =>
    rw [erase_loop, dif_pos hi, if_neg hm]
    exact ih hf
  | case3 i l f hi =>
    rw [erase_loop, dif_neg hi]
    exact hf

theorem erase_loop_flag_of_mem (c n : String) (i : Nat) (l : friends_list_t) (f : Bool)
    (h : (c, n) ∈ l.drop i) : (erase_loop c n i l f).2 = true := by
  induction i, l, f using erase_loop.induct c n with
  | case1 i l f hi hm _ =>
    rw [erase_loop, dif_pos hi, if_pos hm]
    exact erase_loop_flag_of_true c n _ _ true rfl
  | case2 i l f hi hm ih =>
    rw [erase_loop, dif_pos hi, if_neg hm]
    apply ih
    rw [List.drop_eq_getElem_cons hi] at h
    rcases List.mem_cons.mp h with h0 | h1
    · exact absurd ⟨(congrArg Prod.fst h0).symm, (congrArg Prod.snd h0).symm⟩ hm
    · exact h1
  | case3 i l f hi =>
    rw [List.drop_of_length_le (Nat.le_of_not_lt hi)] at h
    simp at h

/-- What ReadFriendList does for a signed-on user. -/
theorem handle_get_signed_on {σ : Type} (cu : ClientUtils σ) (userId : String)
    (rest : List String) (content_type : Option String) (json : value)
    (users : signed_on_users_t) (s : session_t) (w : σ)
    (hwf : map_wf users) (hs : map_find users userId = some s) :
    handle_get cu ⟨read_friend_list_op :: userId :: rest, content_type, json⟩ users w
      = { replies :=
            [(status_codes.OK,
              value.object
                [(friend_prop,
                  scalar.string
                    (cu.get_json_object_prop (cu.do_request (read_request s) w).1.2
                      friend_prop))])],
          requests := [read_request s], users := users,
          world := (cu.do_request (read_request s) w).2,
          completion := Completion.returned } := by
  simp only [handle_get, if_true, hs, session_of_eq users userId s hwf hs]

/-- C11. UnFriend of a pair that does not occur in the caller's decoded friend list:
the reply is OK and the only request is the read of the caller's record, so no write
reaches the record; when that read leaves the world as it was, the stored friend list
afterwards is the one before. -/
theorem unfriend_absent_leaves_list {σ : Type} (cu : ClientUtils σ) (userId c n : String)
    (users : signed_on_users_t) (s : session_t) (w : σ)
    (hwf : map_wf users) (hs : map_find users userId = some s)
    (hmem : (c, n) ∉ stored_friends cu s w) :
    (handle_put cu (unfriend_message userId c n) users w).replies
        = [(status_codes.OK, value.null)] ∧
      (handle_put cu (unfriend_message userId c n) users w).requests = [read_request s] ∧
      (handle_put cu (unfriend_message userId c n) users w).world
        = (cu.do_request (read_request s) w).2 ∧
      ((cu.do_request (read_request s) w).2 = w →
        stored_friends cu s (handle_put cu (unfriend_message userId c n) users w).world
          = stored_friends cu s w) := by
  have hloop := erase_loop_of_absent c n 0 (stored_friends cu s w) false (by simpa using hmem)
  rw [unfriend_outcome cu userId c n users s w hwf hs, hloop, if_pos rfl]
  exact ⟨rfl, rfl, rfl, fun h => by rw [h]⟩

theorem unfriend_absent_leaves_list_witness :
    ("Canada", "Cy") ∉ stored_friends Model.utils ("t", "Zimbabwe", "Bob") Model.world_ann ∧
      (handle_put Model.utils (unfriend_message "bob" "Canada" "Cy") Model.users_bob
          Model.world_ann).replies = [(status_codes.OK, value.null)] ∧
      (handle_put Model.utils (unfriend_message "bob" "Canada" "Cy") Model.users_bob
          Model.world_ann).requests = [read_request ("t", "Zimbabwe", "Bob")] ∧
      stored_friends Model.utils ("t", "Zimbabwe", "Bob")
          (handle_put Model.utils (unfriend_message "bob" "Canada" "Cy") Model.users_bob
            Model.world_ann).world
        = stored_friends Model.utils ("t", "Zimbabwe", "Bob") Model.world_ann :=
  ⟨by decide,
    (unfriend_absent_leaves_list Model.utils "bob" "Canada" "Cy" Model.users_bob
      ("t", "Zimbabwe", "Bob") Model.world_ann (by unfold map_wf; decide) (by decide)
      (by decide)).1,
    (unfriend_absent_leaves_list Model.utils "bob" "Canada" "Cy" Model.users_bob
      ("t", "Zimbabwe", "Bob") Model.world_ann (by unfold map_wf; decide) (by decide)
      (by decide)).2.1,
    (unfriend_absent_leaves_list Model.utils "bob" "Canada" "Cy" Model.users_bob
      ("t", "Zimbabwe", "Bob") Model.world_ann (by unfold map_wf; decide) (by decide)
      (by decide)).2.2.2 (by decide)⟩

/-- C12, as amended. UnFriend writes the friend list back only when the loop erased
an entry: when the pair occurs in the caller's decoded list, the requests are the read
and the write of the encoding of the list the loop left; when it does not occur, the
read is the only request and the reply is OK. -/
theorem unfriend_writes_only_after_erase {σ : Type} (cu : ClientUtils σ)
    (userId c n : String) (users : signed_on_users_t) (s : session_t) (w : σ)
    (hwf : map_wf users) (hs : map_find users userId = some s) :
    ((c, n) ∈ stored_friends cu s w →
        (handle_put cu (unfriend_message userId c n) users w).requests
          = [read_request s,
              update_request s
                (build_json_object
                  [(friend_prop,
                    cu.friends_list_to_string
                      (erase_loop c n 0 (stored_friends cu s w) false).1)])]) ∧
      ((c, n) ∉ stored_friends cu s w →
        (handle_put cu (unfriend_message userId c n) users w).requests = [read_request s] ∧
          (handle_put cu (unfriend_message userId c n) users w).replies
            = [(status_codes.OK, value.null)]) := by
  constructor
  · intro hmem
    have hflag :=
      erase_loop_flag_of_mem c n 0 (stored_friends cu s w) false (by simpa using hmem)
    rw [unfriend_outcome cu userId c n users s w hwf hs, hflag]
    simp only [Bool.true_eq_false, if_false]
    split <;> rfl
  · intro hmem
    have hloop :=
      erase_loop_of_absent c n 0 (stored_friends cu s w) false (by simpa using hmem)
    rw [unfriend_outcome cu userId c n users s w hwf hs, hloop, if_pos rfl]
    exact ⟨rfl, rfl⟩

theorem unfriend_writes_only_after_erase_witness :
    ("USA", "Ann") ∈ stored_friends Model.utils ("t", "Zimbabwe", "Bob") Model.world_ann ∧
      (handle_put Model.utils (unfriend_message "bob" "USA" "Ann") Model.users_bob
          Model.world_ann).requests
        = [read_request ("t", "Zimbabwe", "Bob"),
            update_request ("t", "Zimbabwe", "Bob")
              (build_json_object
                [(friend_prop,
                  Model.utils.friends_list_to_string
                    (erase_loop "USA" "Ann" 0
                      (stored_friends Model.utils ("t", "Zimbabwe", "Bob") Model.world_ann)
                      false).1)])] :=
  ⟨by decide,
    (unfriend_writes_only_after_erase Model.utils "bob" "USA" "Ann" Model.users_bob
      ("t", "Zimbabwe", "Bob") Model.world_ann (by unfold map_wf; decide) (by decide)).1
      (by decide)⟩

/-- C12 fails as stated: (Canada, Cy) is not in the friend list of `bob`; UnFriend
replies OK after the read alone, and none of its requests is a write. -/
theorem unfriend_absent_issues_no_write :
    ("Canada", "Cy") ∉ stored_friends Model.utils ("t", "Zimbabwe", "Bob") Model.world_ann ∧
      (handle_put Model.utils (unfriend_message "bob" "Canada" "Cy") Model.users_bob
          Model.world_ann).requests = [read_request ("t", "Zimbabwe", "Bob")] ∧
      (∀ r ∈ (handle_put Model.utils (unfriend_message "bob" "Canada" "Cy") Model.users_bob
            Model.world_ann).requests, r.http_method ≠ method.PUT) := by
  have hmem :
      ("Canada", "Cy") ∉ stored_friends Model.utils ("t", "Zimbabwe", "Bob") Model.world_ann := by
    decide
  have hloop :=
    erase_loop_of_absent "Canada" "Cy" 0
      (stored_friends Model.utils ("t", "Zimbabwe", "Bob") Model.world_ann) false
      (by simpa using hmem)
  rw [unfriend_outcome Model.utils "bob" "Canada" "Cy" Model.users_bob ("t", "Zimbabwe", "Bob")
    Model.world_ann (by unfold map_wf; decide) (by decide), hloop, if_pos rfl]
  refine ⟨hmem, rfl, ?_⟩
  intro r hr
  simp only [List.mem_singleton] at hr
  rw [hr]
  decide

/-- C15. ReadFriendList for a signed-on user: the reply is OK with the one property
Friends, whose value is the Friends text of the answer to the read of the record at
the session's token, partition and row, passed through undecoded; that read is the
only request. -/
theorem read_friend_list_raw {σ : Type} (cu : ClientUtils σ) (userId : String)
    (rest : List String) (content_type : Option String) (json : value)
    (users : signed_on_users_t) (s : session_t) (w : σ)
    (hwf : map_wf users) (hs : map_find users userId = some s) :
    (handle_get cu ⟨read_friend_list_op :: userId :: rest, content_type, json⟩ users
          w).replies
        = [(status_codes.OK,
            value.object
              [(friend_prop,
                scalar.string
                  (cu.get_json_object_prop (cu.do_request (read_request s) w).1.2
                    friend_prop))])] ∧
      (handle_get cu ⟨read_friend_list_op :: userId :: rest, content_type, json⟩ users
          w).requests = [read_request s] ∧
      (read_request s).http_method = method.GET ∧
      (read_request s).path = [read_entity_op, data_table_name, s.1, s.2.1, s.2.2] := by
  rw [handle_get_signed_on cu userId rest content_type json users s w hwf hs]
  exact ⟨rfl, rfl, rfl, rfl⟩

theorem read_friend_list_raw_witness :
    map_find Model.users_bob "bob" = some ("t", "Zimbabwe", "Bob") ∧
      (handle_get Model.utils ⟨read_friend_list_op :: "bob" :: [], none, value.null⟩
          Model.users_bob Model.world_ann).replies
        = [(status_codes.OK,
            value.object
              [(friend_prop,
                scalar.string
                  (Model.utils.get_json_object_prop
                    (Model.utils.do_request (read_request ("t", "Zimbabwe", "Bob"))
                      Model.world_ann).1.2
                    friend_prop))])] :=
  ⟨by decide,
    (read_friend_list_raw Model.utils "bob" [] none value.null Model.users_bob
      ("t", "Zimbabwe", "Bob") Model.world_ann (by unfold map_wf; decide) (by decide)).1⟩

end UserServer

/-! ## The fan-out of PushStatus -/

namespace PushServer

/-- The loop at a friend whose read does not return OK. -/
theorem push_loop_skip {σ : Type} (cu : ClientUtils σ) (user_status fc fn : String)
    (rest : friends_list_t) (w : σ)
    (h : (cu.do_request (read_request fc fn) w).1.1 ≠ status_codes.OK) :
    push_loop cu user_status ((fc, fn) :: rest) w
      = { requests :=
            read_request fc fn
              :: (push_loop cu user_status rest
                  (cu.do_request (read_request fc fn) w).2).requests,
          world :=
            (push_loop cu user_status rest (cu.do_request (read_request fc fn) w).2).world,
          completion :=
            (push_loop cu user_status rest
              (cu.do_request (read_request fc fn) w).2).completion } := by
  simp only [push_loop, h, if_false]

/-- The loop at a friend whose read returns OK. -/
theorem push_loop_found {σ : Type} (cu : ClientUtils σ) (user_status fc fn : String)
    (rest : friends_list_t) (w : σ)
    (h : (cu.do_request (read_request fc fn) w).1.1 = status_codes.OK) :
    push_loop cu user_status ((fc, fn) :: rest) w
      = (if (cu.do_request (friend_write cu user_status fc fn w)
              (cu.do_request (read_request fc fn) w).2).1.1 = status_codes.OK then
          { requests :=
              read_request fc fn :: friend_write cu user_status fc fn w
                :: (push_loop cu user_status rest
                    (cu.do_request (friend_write cu user_status fc fn w)
                      (cu.do_request (read_request fc fn) w).2).2).requests,
            world :=
              (push_loop cu user_status rest
                (cu.do_request (friend_write cu user_status fc fn w)
                  (cu.do_request (read_request fc fn) w).2).2).world,
            completion :=
              (push_loop cu user_status rest
                (cu.do_request (friend_write cu user_status fc fn w)
                  (cu.do_request (read_request fc fn) w).2).2).completion }
        else
          { requests := [read_request fc fn, friend_write cu user_status fc fn w],
            world :=
              (cu.do_request (friend_write cu user_status fc fn w)
                (cu.do_request (read_request fc fn) w).2).2,
            completion := Completion.assert_failed }) := by
  simp only [push_loop, h, if_true, friend_write]

/-- The loop over a list in two parts: the second part is processed from the world
the first part left, unless the first part stopped at a failed assertion. -/
theorem push_loop_append {σ : Type} (cu : ClientUtils σ) (user_status : String)
    (pre post : friends_list_t) (w : σ) :
    push_loop cu user_status (pre ++ post) w
      = (if (push_loop cu user_status pre w).completion = Completion.returned then
          { requests :=
              (push_loop cu user_status pre w).requests
                ++ (push_loop cu user_status post (push_loop cu user_status pre w).world).requests,
            world :=
              (push_loop cu user_status post (push_loop cu user_status pre w).world).world,
            completion :=
              (push_loop cu user_status post
                (push_loop cu user_status pre w).world).completion }
        else push_loop cu user_status pre w) := by
  induction pre generalizing w with
  | nil => simp [push_loop]
  | cons e rest ih =>
    obtain ⟨fc, fn⟩ := e
    by_cases h : (cu.do_request (read_request fc fn) w).1.1 = status_codes.OK
    · rw [List.cons_append, push_loop_found cu user_status fc fn _ w h,
        push_loop_found cu user_status fc fn _ w h]
      by_cases hw :
          (cu.do_request (friend_write cu user_status fc fn w)
            (cu.do_request (read_request fc fn) w).2).1.1 = status_codes.OK
      · rw [if_pos hw, if_pos hw, ih]
        simp only
        split <;> simp
      · rw [if_neg hw, if_neg hw]
        simp
    · rw [List.cons_append, push_loop_skip cu user_status fc fn _ w h,
        push_loop_skip cu user_status fc fn _ w h, ih]
      simp only
      split <;> simp

/-- The loop ends in one of two ways. -/
theorem push_loop_completion {σ : Type} (cu : ClientUtils σ) (user_status : String)
    (l : friends_list_t) (w : σ) :
    (push_loop cu user_status l w).completion = Completion.returned ∨
      (push_loop cu user_status l w).completion = Completion.assert_failed := by
  induction l generalizing w with
  | nil => exact Or.inl rfl
  | cons e rest ih =>
    obtain ⟨fc, fn⟩ := e
    by_cases h : (cu.do_request (read_request fc fn) w).1.1 = status_codes.OK
    · rw [push_loop_found cu user_status fc fn _ w h]
      split
      · exact ih _
      · exact Or.inr rfl
    · rw [push_loop_skip cu user_status fc fn _ w h]
      exact ih _

/-- What handle_post does on a PushStatus request with a body of one property. -/
theorem handle_post_push {σ : Type} (cu : ClientUtils σ) (message : http_request)
    (user_country user_name user_status k friends : String) (more : List String) (w : σ)
    (hpath :
      message.paths = push_status_op :: user_country :: user_name :: user_status :: more)
    (hbody : get_json_body message = [(k, friends)]) :
    handle_post cu message w
      = { replies :=
            if (push_loop cu user_status (cu.parse_friends_list friends) w).completion
                = Completion.returned then [(status_codes.OK, value.null)]
            else [],
          requests := (push_loop cu user_status (cu.parse_friends_list friends) w).requests,
          users := [],
          world := (push_loop cu user_status (cu.parse_friends_list friends) w).world,
          completion :=
            (push_loop cu user_status (cu.parse_friends_list friends) w).completion } := by
  have hfs : friends_string_of [(k, friends)] = friends := rfl
  simp only [handle_post, hpath, hbody, hfs, List.length_singleton, and_self, if_true,
    ne_eq, not_true_eq_false, if_false, List.nil_append]
  rcases push_loop_completion cu user_status (cu.parse_friends_list friends) w with h | h
  · rw [h]
    simp
  · rw [h]
    simp

end PushServer

/-! ## The fan-out over the modelled store -/

namespace Model

theorem admin_read (fc fn : String) (w : World) (h1 : fc ≠ "") (h2 : fn ≠ "") :
    do_request (PushServer.read_request fc fn) w = read_record w "DataTable" fc fn := by
  simp [do_request, PushServer.read_request, List.filter, h1, h2, PushServer.data_addr,
    PushServer.read_entity_op, PushServer.data_table_name]

theorem admin_update (fc fn : String) (body : value) (w : World) (h1 : fc ≠ "")
    (h2 : fn ≠ "") :
    do_request (PushServer.update_request fc fn body) w
      = write_record w "DataTable" fc fn body := by
  simp [do_request, PushServer.update_request, List.filter, h1, h2, PushServer.data_addr,
    PushServer.update_entity_op, PushServer.data_table_name]

theorem admin_pieces_of_read_ok (fc fn : String) (w : World)
    (h : (do_request (PushServer.read_request fc fn) w).1.1 = status_codes.OK) :
    fc ≠ "" ∧ fn ≠ "" := by
  by_cases h1 : fc = "" <;> by_cases h2 : fn = "" <;>
    simp [do_request, PushServer.read_request, List.filter, h1, h2, PushServer.data_addr,
      PushServer.read_entity_op, PushServer.data_table_name, status_codes.OK,
      status_codes.BadRequest] at h ⊢

/-- In the modelled store a friend's record that can be read answers the read with
its properties and leaves the world as it was. -/
theorem admin_read_of_ok (fc fn : String) (w : World)
    (h : (do_request (PushServer.read_request fc fn) w).1.1 = status_codes.OK) :
    ∃ r, find_record w.records "DataTable" fc fn = some r ∧
      do_request (PushServer.read_request fc fn) w
        = ((status_codes.OK,
            value.object (r.properties.map (fun p => (p.1, scalar.string p.2)))), w) := by
  obtain ⟨h1, h2⟩ := admin_pieces_of_read_ok fc fn w h
  rw [admin_read fc fn w h1 h2] at h ⊢
  obtain ⟨r, hr⟩ := record_of_read_ok w _ _ _ h
  exact ⟨r, hr, by simp [read_record, hr]⟩

/-- A read of a friend's record in the modelled store leaves the world as it was,
whatever its answer. -/
theorem admin_read_world (fc fn : String) (w : World) :
    (do_request (PushServer.read_request fc fn) w).2 = w := by
  by_cases h1 : fc = "" <;> by_cases h2 : fn = "" <;>
    simp [do_request, PushServer.read_request, List.filter, h1, h2, PushServer.data_addr,
      PushServer.read_entity_op, PushServer.data_table_name, read_record]
  split <;> rfl

/-- In the modelled store the write of `Updates` to a friend's record that can be read
returns OK; the record can still be read and then gives that text as its updates. -/
theorem admin_update_of_ok (fc fn text : String) (w : World)
    (h : (do_request (PushServer.read_request fc fn) w).1.1 = status_codes.OK) :
    (do_request
          (PushServer.update_request fc fn
            (PushServer.build_json_object [(PushServer.friend_updates, text)])) w).1.1
        = status_codes.OK ∧
      (do_request (PushServer.read_request fc fn)
          (do_request
            (PushServer.update_request fc fn
              (PushServer.build_json_object [(PushServer.friend_updates, text)])) w).2).1.1
        = status_codes.OK ∧
      stored_updates
          (do_request
            (PushServer.update_request fc fn
              (PushServer.build_json_object [(PushServer.friend_updates, text)])) w).2
          fc fn
        = text := by
  obtain ⟨h1, h2⟩ := admin_pieces_of_read_ok fc fn w h
  obtain ⟨r, hr, -⟩ := admin_read_of_ok fc fn w h
  have hbody :
      unpack_json_object (PushServer.build_json_object [(PushServer.friend_updates, text)])
        = [("Updates", text)] := rfl
  have hw :
      do_request
          (PushServer.update_request fc fn
            (PushServer.build_json_object [(PushServer.friend_updates, text)])) w
        = ((status_codes.OK, value.null),
            { w with
              records := write_records w.records "DataTable" fc fn [("Updates", text)] }) := by
    rw [admin_update fc fn _ w h1 h2]
    simp [write_record, hr, hbody]
  have hfind := find_record_write w.records "DataTable" fc fn [("Updates", text)] r hr
  have hread2 :
      do_request (PushServer.read_request fc fn)
          { w with records := write_records w.records "DataTable" fc fn [("Updates", text)] }
        = ((status_codes.OK,
            value.object
              ((umap_assign r.properties "Updates" text).map
                (fun p => (p.1, scalar.string p.2)))),
            { w with
              records := write_records w.records "DataTable" fc fn [("Updates", text)] }) := by
    rw [admin_read fc fn _ h1 h2]
    simp [read_record, hfind, merge_properties]
  rw [hw]
  refine ⟨rfl, ?_, ?_⟩
  · rw [hread2]
  · unfold stored_updates
    rw [hread2]
    exact get_prop_umap_assign _ _ _

/-- Over the modelled store the loop of PushStatus always runs to its end: a record
that was read can be written. -/
theorem push_loop_completes (user_status : String) (l : friends_list_t) (w : World) :
    (PushServer.push_loop utils user_status l w).completion = Completion.returned := by
  induction l generalizing w with
  | nil => rfl
  | cons e rest ih =>
    obtain ⟨fc, fn⟩ := e
    by_cases h : (utils.do_request (PushServer.read_request fc fn) w).1.1 = status_codes.OK
    · rw [PushServer.push_loop_found utils user_status fc fn rest w h]
      have hw : (utils.do_request (PushServer.read_request fc fn) w).2 = w :=
        admin_read_world fc fn w
      rw [hw]
      have hu :=
        (admin_update_of_ok fc fn
          (PushServer.updated_status_list
            (utils.get_json_object_prop (utils.do_request (PushServer.read_request fc fn) w).1.2
              PushServer.friend_updates)
            user_status) w h).1
      have hu' :
          (utils.do_request (PushServer.friend_write utils user_status fc fn w) w).1.1
            = status_codes.OK := hu
      rw [if_pos hu']
      exact ih _
    · rw [PushServer.push_loop_skip utils user_status fc fn rest w h]
      exact ih _

end Model

/-! ## PushStatus: what is written, what is skipped, what stops the loop -/

namespace PushServer

theorem get_json_body_push_message (uc un st friends : String) :
    get_json_body (push_message uc un st friends) = [("Friends", friends)] := by
  simp [get_json_body, push_message, umap_assign]

/-- What the handler does when the fan-out reaches a friend, after the friends `pre`
were processed to the end. -/
theorem handle_post_at_friend {σ : Type} (cu : ClientUtils σ) (message : http_request)
    (user_country user_name user_status k friends : String) (more : List String)
    (pre rest : friends_list_t) (fc fn : String) (w : σ)
    (hpath :
      message.paths = push_status_op :: user_country :: user_name :: user_status :: more)
    (hbody : get_json_body message = [(k, friends)])
    (hlist : cu.parse_friends_list friends = pre ++ (fc, fn) :: rest)
    (hpre : (push_loop cu user_status pre w).completion = Completion.returned) :
    handle_post cu message w
      = { replies :=
            if (push_loop cu user_status ((fc, fn) :: rest)
                  (push_loop cu user_status pre w).world).completion
                = Completion.returned then [(status_codes.OK, value.null)]
            else [],
          requests :=
            (push_loop cu user_status pre w).requests
              ++ (push_loop cu user_status ((fc, fn) :: rest)
                  (push_loop cu user_status pre w).world).requests,
          users := [],
          world :=
            (push_loop cu user_status ((fc, fn) :: rest)
              (push_loop cu user_status pre w).world).world,
          completion :=
            (push_loop cu user_status ((fc, fn) :: rest)
              (push_loop cu user_status pre w).world).completion } := by
  rw [handle_post_push cu message user_country user_name user_status k friends more w hpath
    hbody, hlist, push_loop_append, if_pos hpre]

/-- C16. A friend whose record is found during the fan-out gets one write, to its
Updates property, of the status text when the Updates read are empty and of the
Updates read, a newline and the status text otherwise. Hence, over the modelled store,
for a friend that can be read and has no Updates, a push of `hello` leaves the
Updates `hello` and a following push of `world` leaves `hello\nworld`. -/
theorem push_status_appends {σ : Type} (cu : ClientUtils σ) (message : http_request)
    (user_country user_name user_status k friends : String) (more : List String)
    (pre rest : friends_list_t) (fc fn : String) (w : σ)
    (hpath :
      message.paths = push_status_op :: user_country :: user_name :: user_status :: more)
    (hbody : get_json_body message = [(k, friends)])
    (hlist : cu.parse_friends_list friends = pre ++ (fc, fn) :: rest)
    (hpre : (push_loop cu user_status pre w).completion = Completion.returned)
    (hfound :
      (cu.do_request (read_request fc fn) (push_loop cu user_status pre w).world).1.1
        = status_codes.OK) :
    (∃ later : List Request,
        (handle_post cu message w).requests
          = (push_loop cu user_status pre w).requests
            ++ read_request fc fn
              :: update_request fc fn
                  (build_json_object
                    [(friend_updates,
                      if cu.get_json_object_prop
                            (cu.do_request (read_request fc fn)
                              (push_loop cu user_status pre w).world).1.2
                            friend_updates = "" then
                        user_status
                      else
                        cu.get_json_object_prop
                            (cu.do_request (read_request fc fn)
                              (push_loop cu user_status pre w).world).1.2
                            friend_updates
                          ++ "\n" ++ user_status)])
              :: later) ∧
      (∀ (mw : Model.World) (uc un text gc gn : String),
        Model.parse_friends_list text = [(gc, gn)] →
          (Model.do_request (read_request gc gn) mw).1.1 = status_codes.OK →
          Model.stored_updates mw gc gn = "" →
          Model.stored_updates
                (handle_post Model.utils (push_message uc un "hello" text) mw).world gc gn
              = "hello" ∧
            Model.stored_updates
                (handle_post Model.utils (push_message uc un "world" text)
                  (handle_post Model.utils (push_message uc un "hello" text) mw).world).world
                gc gn
              = "hello\nworld") := by
  constructor
  · rw [handle_post_at_friend cu message user_country user_name user_status k friends more pre
      rest fc fn w hpath hbody hlist hpre,
      push_loop_found cu user_status fc fn rest _ hfound]
    split
    · exact ⟨_, rfl⟩
    · exact ⟨[], rfl⟩
  · intro mw uc un text gc gn hparse hread hempty
    have step :
        ∀ (st : String) (v : Model.World),
          (Model.do_request (read_request gc gn) v).1.1 = status_codes.OK →
            (Model.do_request (read_request gc gn)
                  (handle_post Model.utils (push_message uc un st text) v).world).1.1
                = status_codes.OK ∧
              Model.stored_updates (handle_post Model.utils (push_message uc un st text) v).world
                  gc gn
                = updated_status_list (Model.stored_updates v gc gn) st := by
      intro st v hv
      have hlist : Model.utils.parse_friends_list text = [] ++ (gc, gn) :: [] := hparse
      have hv' :
          (Model.utils.do_request (read_request gc gn)
            (push_loop Model.utils st [] v).world).1.1 = status_codes.OK := hv
      rw [handle_post_at_friend Model.utils (push_message uc un st text) uc un st "Friends" text
        [] [] [] gc gn v rfl (get_json_body_push_message uc un st text) hlist rfl,
        push_loop_found Model.utils st gc gn [] _ hv']
      have hw : (Model.utils.do_request (read_request gc gn) v).2 = v :=
        Model.admin_read_world gc gn v
      have hu :=
        Model.admin_update_of_ok gc gn
          (updated_status_list (Model.stored_updates v gc gn) st) v hv
      have hu1 :
          (Model.utils.do_request (friend_write Model.utils st gc gn
              (push_loop Model.utils st [] v).world)
            (Model.utils.do_request (read_request gc gn)
              (push_loop Model.utils st [] v).world).2).1.1 = status_codes.OK := by
        show (Model.utils.do_request (friend_write Model.utils st gc gn v)
            (Model.utils.do_request (read_request gc gn) v).2).1.1 = status_codes.OK
        rw [hw]
        exact hu.1
      rw [if_pos hu1]
      show (Model.do_request (read_request gc gn)
              (Model.utils.do_request (friend_write Model.utils st gc gn v)
                (Model.utils.do_request (read_request gc gn) v).2).2).1.1 = status_codes.OK ∧
          Model.stored_updates
              (Model.utils.do_request (friend_write Model.utils st gc gn v)
                (Model.utils.do_request (read_request gc gn) v).2).2 gc gn
            = updated_status_list (Model.stored_updates v gc gn) st
      rw [hw]
      exact ⟨hu.2.1, hu.2.2⟩
    obtain ⟨h1, h2⟩ := step "hello" mw hread
    obtain ⟨-, h4⟩ := step "world" _ h1
    rw [hempty] at h2
    refine ⟨h2, ?_⟩
    rw [h4, h2]
    decide

theorem push_status_appends_witness :
    (Model.do_request (read_request "Canada" "Al") Model.world_friends).1.1 = status_codes.OK ∧
      Model.stored_updates Model.world_friends "Canada" "Al" = "" ∧
      Model.stored_updates
          (handle_post Model.utils (push_message "Zimbabwe" "Bob" "hello" "Canada;Al")
            Model.world_friends).world "Canada" "Al"
        = "hello" ∧
      Model.stored_updates
          (handle_post Model.utils (push_message "Zimbabwe" "Bob" "world" "Canada;Al")
            (handle_post Model.utils (push_message "Zimbabwe" "Bob" "hello" "Canada;Al")
              Model.world_friends).world).world
          "Canada" "Al"
        = "hello\nworld" :=
  ⟨by decide, by decide,
    (push_status_appends Model.utils
        (push_message "Zimbabwe" "Bob" "hello" "Canada;Al|Mars;Zed|USA;Ann") "Zimbabwe" "Bob"
        "hello" "Friends" "Canada;Al|Mars;Zed|USA;Ann" []
        [("Canada", "Al"), ("Mars", "Zed")] [] "USA" "Ann" Model.world_friends (by decide)
        (by decide) (by decide) (by decide) (by decide)).2
      Model.world_friends "Zimbabwe" "Bob" "Canada;Al" "Canada" "Al" (by decide) (by decide)
      (by decide)⟩

end PushServer

namespace PushServer

/-- C18, as amended. When the fan-out reaches a friend whose record is found: if the
write of the friend's Updates returns a code other than OK, the assertion on it fails,
the write is the last request (no later friend is read or written) and no reply is
sent; if it returns OK, the loop goes on with the later entries from the world the
write left, and the reply is OK when they are processed to the end. -/
theorem push_status_stops_at_failed_write {σ : Type} (cu : ClientUtils σ)
    (message : http_request) (user_country user_name user_status k friends : String)
    (more : List String) (pre rest : friends_list_t) (fc fn : String) (w : σ)
    (hpath :
      message.paths = push_status_op :: user_country :: user_name :: user_status :: more)
    (hbody : get_json_body message = [(k, friends)])
    (hlist : cu.parse_friends_list friends = pre ++ (fc, fn) :: rest)
    (hpre : (push_loop cu user_status pre w).completion = Completion.returned)
    (hfound :
      (cu.do_request (read_request fc fn) (push_loop cu user_status pre w).world).1.1
        = status_codes.OK) :
    ((cu.do_request (friend_write cu user_status fc fn (push_loop cu user_status pre w).world)
            (cu.do_request (read_request fc fn) (push_loop cu user_status pre w).world).2).1.1
          ≠ status_codes.OK →
        (handle_post cu message w).replies = [] ∧
          (handle_post cu message w).completion = Completion.assert_failed ∧
          (handle_post cu message w).requests
            = (push_loop cu user_status pre w).requests
              ++ [read_request fc fn,
                friend_write cu user_status fc fn (push_loop cu user_status pre w).world]) ∧
      ((cu.do_request (friend_write cu user_status fc fn (push_loop cu user_status pre w).world)
            (cu.do_request (read_request fc fn) (push_loop cu user_status pre w).world).2).1.1
          = status_codes.OK →
        (handle_post cu message w).requests
            = (push_loop cu user_status pre w).requests
              ++ read_request fc fn
                :: friend_write cu user_status fc fn (push_loop cu user_status pre w).world
                :: (push_loop cu user_status rest
                    (cu.do_request
                      (friend_write cu user_status fc fn (push_loop cu user_status pre w).world)
                      (cu.do_request (read_request fc fn)
                        (push_loop cu user_status pre w).world).2).2).requests ∧
          ((push_loop cu user_status rest
                (cu.do_request
                  (friend_write cu user_status fc fn (push_loop cu user_status pre w).world)
                  (cu.do_request (read_request fc fn)
                    (push_loop cu user_status pre w).world).2).2).completion
              = Completion.returned →
            (handle_post cu message w).replies = [(status_codes.OK, value.null)])) := by
  rw [handle_post_at_friend cu message user_country user_name user_status k friends more pre
    rest fc fn w hpath hbody hlist hpre,
    push_loop_found cu user_status fc fn rest _ hfound]
  constructor
  · intro hbad
    rw [if_neg hbad]
    exact ⟨by simp, rfl, rfl⟩
  · intro hok
    rw [if_pos hok]
    refine ⟨rfl, ?_⟩
    intro hdone
    simp only [hdone, if_true]

theorem push_status_stops_at_failed_write_witness :
    (handle_post Model.refusing
          (push_message "Zimbabwe" "Bob" "hello" "Canada;Al|Mars;Zed|USA;Ann")
          Model.world_friends).replies = [] ∧
      (handle_post Model.refusing
          (push_message "Zimbabwe" "Bob" "hello" "Canada;Al|Mars;Zed|USA;Ann")
          Model.world_friends).completion = Completion.assert_failed ∧
      (handle_post Model.refusing
          (push_message "Zimbabwe" "Bob" "hello" "Canada;Al|Mars;Zed|USA;Ann")
          Model.world_friends).requests
        = (push_loop Model.refusing "hello" [] Model.world_friends).requests
          ++ [read_request "Canada" "Al",
            friend_write Model.refusing "hello" "Canada" "Al"
              (push_loop Model.refusing "hello" [] Model.world_friends).world] :=
  (push_status_stops_at_failed_write Model.refusing
      (push_message "Zimbabwe" "Bob" "hello" "Canada;Al|Mars;Zed|USA;Ann") "Zimbabwe" "Bob"
      "hello" "Friends" "Canada;Al|Mars;Zed|USA;Ann" [] [] [("Mars", "Zed"), ("USA", "Ann")]
      "Canada" "Al" Model.world_friends (by decide) (by decide) (by decide) (by decide)
      (by decide)).1 (by decide)

/-- C18 fails as stated: the store refuses writes; the fan-out over (Canada, Al),
(Mars, Zed), (USA, Ann) reads Al, issues the write for Al, and stops at the failed
assertion: it sends no reply and never requests the record of Ann. -/
theorem push_status_aborts_when_write_refused :
    (PushServer.handle_post Model.refusing
          (push_message "Zimbabwe" "Bob" "hello" "Canada;Al|Mars;Zed|USA;Ann")
          Model.world_friends).requests
        = [read_request "Canada" "Al",
            update_request "Canada" "Al" (value.object [("Updates", scalar.string "hello")])] ∧
      (Model.refusing.do_request
          (update_request "Canada" "Al" (value.object [("Updates", scalar.string "hello")]))
          Model.world_friends).1.1 = status_codes.Forbidden ∧
      read_request "USA" "Ann"
        ∉ (PushServer.handle_post Model.refusing
            (push_message "Zimbabwe" "Bob" "hello" "Canada;Al|Mars;Zed|USA;Ann")
            Model.world_friends).requests ∧
      (PushServer.handle_post Model.refusing
          (push_message "Zimbabwe" "Bob" "hello" "Canada;Al|Mars;Zed|USA;Ann")
          Model.world_friends).replies = [] ∧
      (PushServer.handle_post Model.refusing
          (push_message "Zimbabwe" "Bob" "hello" "Canada;Al|Mars;Zed|USA;Ann")
          Model.world_friends).completion = Completion.assert_failed := by
  decide

end PushServer

namespace UserServer

/-- What UpdateStatus does for a signed-on user. -/
theorem update_status_outcome {σ : Type} (cu : ClientUtils σ) (userId userstatus : String)
    (content_type : Option String) (json : value)
    (users : signed_on_users_t) (s : session_t) (w : σ)
    (hwf : map_wf users) (hs : map_find users userId = some s) :
    handle_put cu ⟨[update_status_op, userId, userstatus], content_type, json⟩ users w
      = (if (cu.do_request (status_request s (build_json_object [(status_prop, userstatus)]))
              (cu.do_request (read_request s) w).2).1.1 ≠ status_codes.OK then
          { replies := [(status_codes.Forbidden, value.null)],
            requests :=
              [read_request s,
                status_request s (build_json_object [(status_prop, userstatus)])],
            users := users,
            world :=
              (cu.do_request (status_request s (build_json_object [(status_prop, userstatus)]))
                (cu.do_request (read_request s) w).2).2,
            completion := Completion.returned }
        else if cu.uri_exception
              (push_request s.2.1 s.2.2 userstatus
                (build_json_object
                  [(friend_prop,
                    cu.get_json_object_prop (cu.do_request (read_request s) w).1.2
                      friend_prop)]))
              (cu.do_request (status_request s (build_json_object [(status_prop, userstatus)]))
                (cu.do_request (read_request s) w).2).2 = true then
          { replies := [(status_codes.ServiceUnavailable, value.null)],
            requests :=
              [read_request s,
                status_request s (build_json_object [(status_prop, userstatus)]),
                push_request s.2.1 s.2.2 userstatus
                  (build_json_object
                    [(friend_prop,
                      cu.get_json_object_prop (cu.do_request (read_request s) w).1.2
                        friend_prop)])],
            users := users,
            world :=
              (cu.do_request (status_request s (build_json_object [(status_prop, userstatus)]))
                (cu.do_request (read_request s) w).2).2,
            completion := Completion.returned }
        else
          { replies :=
              [((cu.do_request
                    (push_request s.2.1 s.2.2 userstatus
                      (build_json_object
                        [(friend_prop,
                          cu.get_json_object_prop (cu.do_request (read_request s) w).1.2
                            friend_prop)]))
                    (cu.do_request
                      (status_request s (build_json_object [(status_prop, userstatus)]))
                      (cu.do_request (read_request s) w).2).2).1.1,
                value.null)],
            requests :=
              [read_request s,
                status_request s (build_json_object [(status_prop, userstatus)]),
                push_request s.2.1 s.2.2 userstatus
                  (build_json_object
                    [(friend_prop,
                      cu.get_json_object_prop (cu.do_request (read_request s) w).1.2
                        friend_prop)])],
            users := users,
            world :=
              (cu.do_request
                (push_request s.2.1 s.2.2 userstatus
                  (build_json_object
                    [(friend_prop,
                      cu.get_json_object_prop (cu.do_request (read_request s) w).1.2
                        friend_prop)]))
                (cu.do_request
                  (status_request s (build_json_object [(status_prop, userstatus)]))
                  (cu.do_request (read_request s) w).2).2).2,
            completion := Completion.returned }) := by
  have h1 : ¬ (update_status_op = add_friend_op) := by decide
  have h2 : ¬ (update_status_op = unfriend_op) := by decide
  simp only [handle_put, update_status, h1, h2, if_false, if_true, hs,
    session_of_eq users userId s hwf hs]

end UserServer

/-! ## UpdateStatus -/

namespace UserServer

/-- C19, as amended. When the write of the new status to the caller's own record
returns a code other than OK, UpdateStatus replies Forbidden, whatever that code was;
its requests are the read and that write, and none goes to the push server. -/
theorem update_status_write_failure {σ : Type} (cu : ClientUtils σ)
    (userId userstatus : String) (content_type : Option String) (json : value)
    (users : signed_on_users_t) (s : session_t) (w : σ)
    (hwf : map_wf users) (hs : map_find users userId = some s)
    (hbad :
      (cu.do_request (status_request s (build_json_object [(status_prop, userstatus)]))
        (cu.do_request (read_request s) w).2).1.1 ≠ status_codes.OK) :
    (handle_put cu ⟨[update_status_op, userId, userstatus], content_type, json⟩ users
          w).replies = [(status_codes.Forbidden, value.null)] ∧
      (handle_put cu ⟨[update_status_op, userId, userstatus], content_type, json⟩ users
          w).requests
        = [read_request s, status_request s (build_json_object [(status_prop, userstatus)])] ∧
      (∀ r ∈ (handle_put cu ⟨[update_status_op, userId, userstatus], content_type, json⟩
            users w).requests, r.addr ≠ push_addr) := by
  rw [update_status_outcome cu userId userstatus content_type json users s w hwf hs,
    if_pos hbad]
  refine ⟨rfl, rfl, ?_⟩
  intro r hr
  simp only [List.mem_cons, List.mem_singleton, List.not_mem_nil, or_false] at hr
  have hne : data_addr ≠ push_addr := by decide
  rcases hr with h | h <;> rw [h] <;> exact hne

theorem update_status_write_failure_witness :
    (Model.utils.do_request
          (status_request ("t", "Zimbabwe", "Bob")
            (build_json_object [(status_prop, "hello")]))
          (Model.utils.do_request (read_request ("t", "Zimbabwe", "Bob"))
            Model.world_no_record).2).1.1 ≠ status_codes.OK ∧
      (handle_put Model.utils Model.update_status_bob Model.users_bob
          Model.world_no_record).replies = [(status_codes.Forbidden, value.null)] :=
  ⟨by decide,
    (update_status_write_failure Model.utils "bob" "hello" none value.null Model.users_bob
      ("t", "Zimbabwe", "Bob") Model.world_no_record (by unfold map_wf; decide) (by decide)
      (by decide)).1⟩

/-- C19 fails as stated: the record of `bob` is gone, the store answers the write of
his Status NotFound (404), and UpdateStatus replies Forbidden (403), not that code. -/
theorem update_status_replies_forbidden_not_store_code :
    (Model.utils.do_request
          (status_request ("t", "Zimbabwe", "Bob")
            (build_json_object [(status_prop, "hello")]))
          (Model.utils.do_request (read_request ("t", "Zimbabwe", "Bob"))
            Model.world_no_record).2).1.1 = status_codes.NotFound ∧
      (handle_put Model.utils Model.update_status_bob Model.users_bob
          Model.world_no_record).replies = [(status_codes.Forbidden, value.null)] ∧
      status_codes.Forbidden ≠ status_codes.NotFound := by
  decide

/-- C20, as amended. Once the write of Status to the caller's own record has returned
OK, UpdateStatus calls the push server with the status and the friend list it read.
When that call throws web::uri_exception the reply is ServiceUnavailable; when it
returns, the reply is the code the fan-out entry point returned.  So UpdateStatus
replies OK exactly when the call returns and that code is OK; nothing else of the
fan-out reaches the reply. -/
theorem update_status_relays_push_code {σ : Type} (cu : ClientUtils σ)
    (userId userstatus : String) (content_type : Option String) (json : value)
    (users : signed_on_users_t) (s : session_t) (w : σ)
    (hwf : map_wf users) (hs : map_find users userId = some s)
    (hok :
      (cu.do_request (status_request s (build_json_object [(status_prop, userstatus)]))
        (cu.do_request (read_request s) w).2).1.1 = status_codes.OK) :
    (handle_put cu ⟨[update_status_op, userId, userstatus], content_type, json⟩ users
          w).requests
        = [read_request s, status_request s (build_json_object [(status_prop, userstatus)]),
            push_request s.2.1 s.2.2 userstatus
              (build_json_object
                [(friend_prop,
                  cu.get_json_object_prop (cu.do_request (read_request s) w).1.2
                    friend_prop)])] ∧
      (cu.uri_exception
            (push_request s.2.1 s.2.2 userstatus
              (build_json_object
                [(friend_prop,
                  cu.get_json_object_prop (cu.do_request (read_request s) w).1.2
                    friend_prop)]))
            (cu.do_request (status_request s (build_json_object [(status_prop, userstatus)]))
              (cu.do_request (read_request s) w).2).2 = true →
        (handle_put cu ⟨[update_status_op, userId, userstatus], content_type, json⟩ users
            w).replies = [(status_codes.ServiceUnavailable, value.null)]) ∧
      (cu.uri_exception
            (push_request s.2.1 s.2.2 userstatus
              (build_json_object
                [(friend_prop,
                  cu.get_json_object_prop (cu.do_request (read_request s) w).1.2
                    friend_prop)]))
            (cu.do_request (status_request s (build_json_object [(status_prop, userstatus)]))
              (cu.do_request (read_request s) w).2).2 = false →
        (handle_put cu ⟨[update_status_op, userId, userstatus], content_type, json⟩ users
            w).replies
          = [((cu.do_request
                  (push_request s.2.1 s.2.2 userstatus
                    (build_json_object
                      [(friend_prop,
                        cu.get_json_object_prop (cu.do_request (read_request s) w).1.2
                          friend_prop)]))
                  (cu.do_request
                    (status_request s (build_json_object [(status_prop, userstatus)]))
                    (cu.do_request (read_request s) w).2).2).1.1,
              value.null)]) ∧
      ((handle_put cu ⟨[update_status_op, userId, userstatus], content_type, json⟩ users
            w).replies = [(status_codes.OK, value.null)] ↔
        (cu.uri_exception
              (push_request s.2.1 s.2.2 userstatus
                (build_json_object
                  [(friend_prop,
                    cu.get_json_object_prop (cu.do_request (read_request s) w).1.2
                      friend_prop)]))
              (cu.do_request
                (status_request s (build_json_object [(status_prop, userstatus)]))
                (cu.do_request (read_request s) w).2).2 = false ∧
          (cu.do_request
                (push_request s.2.1 s.2.2 userstatus
                  (build_json_object
                    [(friend_prop,
                      cu.get_json_object_prop (cu.do_request (read_request s) w).1.2
                        friend_prop)]))
                (cu.do_request
                  (status_request s (build_json_object [(status_prop, userstatus)]))
                  (cu.do_request (read_request s) w).2).2).1.1 = status_codes.OK)) := by
  rw [update_status_outcome cu userId userstatus content_type json users s w hwf hs,
    if_neg (not_not.mpr hok)]
  cases hthrow :
      cu.uri_exception
        (push_request s.2.1 s.2.2 userstatus
          (build_json_object
            [(friend_prop,
              cu.get_json_object_prop (cu.do_request (read_request s) w).1.2 friend_prop)]))
        (cu.do_request (status_request s (build_json_object [(status_prop, userstatus)]))
          (cu.do_request (read_request s) w).2).2 with
  | false =>
    rw [if_neg (by decide)]
    refine ⟨rfl, fun h => absurd h (by decide), fun _ => rfl, ?_⟩
    simp
  | true =>
    rw [if_pos rfl]
    refine ⟨rfl, fun _ => rfl, fun h => absurd h (by decide), ?_⟩
    have hne : status_codes.ServiceUnavailable ≠ status_codes.OK := by decide
    simp [hne]

theorem update_status_relays_push_code_witness :
    (handle_put Model.system Model.update_status_bob Model.users_bob
          Model.world_friends).replies
        = [((Model.system.do_request
                (push_request "Zimbabwe" "Bob" "hello"
                  (build_json_object
                    [(friend_prop,
                      Model.system.get_json_object_prop
                        (Model.system.do_request (read_request ("t", "Zimbabwe", "Bob"))
                          Model.world_friends).1.2
                        friend_prop)]))
                (Model.system.do_request
                  (status_request ("t", "Zimbabwe", "Bob")
                    (build_json_object [(status_prop, "hello")]))
                  (Model.system.do_request (read_request ("t", "Zimbabwe", "Bob"))
                    Model.world_friends).2).2).1.1,
            value.null)] ∧
      (handle_put (Model.system_when (fun _ _ => true)) Model.update_status_bob
          Model.users_bob Model.world_friends).replies
        = [(status_codes.ServiceUnavailable, value.null)] :=
  ⟨(update_status_relays_push_code Model.system "bob" "hello" none value.null
      Model.users_bob ("t", "Zimbabwe", "Bob") Model.world_friends
      (by unfold map_wf; decide) (by decide) (by decide)).2.2.1 rfl,
    (update_status_relays_push_code (Model.system_when (fun _ _ => true)) "bob" "hello" none
      value.null Model.users_bob ("t", "Zimbabwe", "Bob") Model.world_friends
      (by unfold map_wf; decide) (by decide) (by decide)).2.1 rfl⟩

/-- C20 fails as stated: the write of Status returns OK, the fan-out entry point
answers BadRequest, and UpdateStatus replies BadRequest, not OK. -/
theorem update_status_not_ok_when_push_not_ok :
    ((Model.with_push status_codes.BadRequest).do_request
          (status_request ("t", "Zimbabwe", "Bob")
            (build_json_object [(status_prop, "hello")]))
          ((Model.with_push status_codes.BadRequest).do_request
            (read_request ("t", "Zimbabwe", "Bob")) Model.world_friends).2).1.1
        = status_codes.OK ∧
      (handle_put (Model.with_push status_codes.BadRequest) Model.update_status_bob
          Model.users_bob Model.world_friends).replies
        = [(status_codes.BadRequest, value.null)] ∧
      status_codes.BadRequest ≠ status_codes.OK := by
  decide

end UserServer

/-! ## The services together -/

namespace Model

theorem find_record_write_any (records : List Record) (t p r t' p' r' : String)
    (properties : List (String × String)) :
    find_record (write_records records t p r properties) t' p' r'
      = (find_record records t' p' r').map
          (fun rec =>
            if rec.table = t ∧ rec.partition = p ∧ rec.row = r then
              { rec with properties := merge_properties rec.properties properties }
            else rec) := by
  induction records with
  | nil => rfl
  | cons r0 rest ih =>
    unfold find_record at ih ⊢
    by_cases hk : r0.table = t ∧ r0.partition = p ∧ r0.row = r
    · obtain ⟨h1, h2, h3⟩ := hk
      subst h1 h2 h3
      simp only [write_records, and_self, if_true]
      by_cases hk' : r0.table = t' ∧ r0.partition = p' ∧ r0.row = r'
      · rw [List.find?_cons_of_pos _ (by simp [hk']), List.find?_cons_of_pos _ (by simp [hk'])]
        simp
      · rw [List.find?_cons_of_neg _ (by simpa using hk'),
          List.find?_cons_of_neg _ (by simpa using hk')]
        cases hf : List.find? (fun r => decide (r.table = t' ∧ r.partition = p' ∧ r.row = r')) rest with
        | none => rfl
        | some rec =>
          have hrec := List.find?_some hf
          simp only [decide_eq_true_eq] at hrec
          have hne :
              ¬ (rec.table = r0.table ∧ rec.partition = r0.partition ∧ rec.row = r0.row) := by
            intro h
            apply hk'
            rw [← h.1, ← h.2.1, ← h.2.2]
            exact hrec
          simp [hne]
    · simp only [write_records, hk, if_false]
      by_cases hk' : r0.table = t' ∧ r0.partition = p' ∧ r0.row = r'
      · rw [List.find?_cons_of_pos _ (by simp [hk']), List.find?_cons_of_pos _ (by simp [hk'])]
        simp [hk]
      · rw [List.find?_cons_of_neg _ (by simpa using hk'),
          List.find?_cons_of_neg _ (by simpa using hk')]
        exact ih

theorem get_prop_umap_assign_other (old : List (String × String)) (key v other : String)
    (h : key ≠ other) :
    get_json_object_prop
        (value.object ((umap_assign old key v).map (fun p => (p.1, scalar.string p.2)))) other
      = get_json_object_prop
          (value.object (old.map (fun p => (p.1, scalar.string p.2)))) other := by
  induction old with
  | nil => simp [umap_assign, get_json_object_prop, h]
  | cons e rest ih =>
    obtain ⟨k0, v0⟩ := e
    by_cases hk : k0 = key
    · have hko : ¬ k0 = other := fun e => h (hk.symm.trans e)
      simp [umap_assign, get_json_object_prop, hk, h, hk ▸ hko]
    · simp only [umap_assign, hk, if_false]
      simp only [get_json_object_prop, List.map_cons] at ih ⊢
      by_cases hko : k0 = other
      · rw [List.find?_cons_of_pos _ (by simpa using hko),
          List.find?_cons_of_pos _ (by simpa using hko)]
      · rw [List.find?_cons_of_neg _ (by simpa using hko),
          List.find?_cons_of_neg _ (by simpa using hko)]
        exact ih

/-- A write of `Updates` to any record leaves the `Status` every session reads. -/
theorem stored_status_write_updates (w : World) (fc fn text : String) (s : session_t) :
    stored_status
        { w with records := write_records w.records "DataTable" fc fn [("Updates", text)] } s
      = stored_status w s := by
  unfold stored_status
  by_cases h1 : s.1 = ""
  · simp [do_request, UserServer.read_request, List.filter, h1, UserServer.data_addr,
      UserServer.read_entity_op, UserServer.data_table_name]
    by_cases h2 : s.2.1 = "" <;> by_cases h3 : s.2.2 = "" <;> simp [h2, h3]
  · by_cases h2 : s.2.1 = ""
    · simp [do_request, UserServer.read_request, List.filter, h1, h2, UserServer.data_addr,
        UserServer.read_entity_op, UserServer.data_table_name]
      by_cases h3 : s.2.2 = "" <;> simp [h3]
    · by_cases h3 : s.2.2 = ""
      · simp [do_request, UserServer.read_request, List.filter, h1, h2, h3,
          UserServer.data_addr, UserServer.read_entity_op, UserServer.data_table_name]
      · rw [do_request_read s _ h1 h2 h3, do_request_read s _ h1 h2 h3]
        unfold read_record
        simp only []
        rw [find_record_write_any]
        cases hf : find_record w.records "DataTable" s.2.1 s.2.2 with
        | none => rfl
        | some rec =>
          simp only [Option.map_some']
          by_cases hk : rec.table = "DataTable" ∧ rec.partition = fc ∧ rec.row = fn
          · simp only [hk, and_self, if_true, merge_properties, List.foldl_cons,
              List.foldl_nil]
            exact get_prop_umap_assign_other rec.properties "Updates" text "Status"
              (by decide)
          · simp only [hk, if_false]

theorem admin_update_world (fc fn text : String) (w : World)
    (h : (do_request (PushServer.read_request fc fn) w).1.1 = status_codes.OK) :
    (do_request
        (PushServer.update_request fc fn
          (PushServer.build_json_object [(PushServer.friend_updates, text)])) w).2
      = { w with records := write_records w.records "DataTable" fc fn [("Updates", text)] } := by
  obtain ⟨h1, h2⟩ := admin_pieces_of_read_ok fc fn w h
  obtain ⟨r, hr, -⟩ := admin_read_of_ok fc fn w h
  have hbody :
      unpack_json_object (PushServer.build_json_object [(PushServer.friend_updates, text)])
        = [("Updates", text)] := rfl
  rw [admin_update fc fn _ w h1 h2]
  simp [write_record, hr, hbody]

/-- Over the modelled store the fan-out leaves the `Status` every session reads. -/
theorem push_loop_status (user_status : String) (l : friends_list_t) (w : World)
    (s : session_t) :
    stored_status (PushServer.push_loop utils user_status l w).world s = stored_status w s := by
  induction l generalizing w with
  | nil => rfl
  | cons e rest ih =>
    obtain ⟨fc, fn⟩ := e
    have hw : (utils.do_request (PushServer.read_request fc fn) w).2 = w :=
      admin_read_world fc fn w
    by_cases h : (utils.do_request (PushServer.read_request fc fn) w).1.1 = status_codes.OK
    · rw [PushServer.push_loop_found utils user_status fc fn rest w h, hw]
      have hu :=
        (admin_update_of_ok fc fn
          (PushServer.updated_status_list
            (utils.get_json_object_prop (utils.do_request (PushServer.read_request fc fn) w).1.2
              PushServer.friend_updates)
            user_status) w h).1
      have hu' :
          (utils.do_request (PushServer.friend_write utils user_status fc fn w) w).1.1
            = status_codes.OK := hu
      have hworld :
          (utils.do_request (PushServer.friend_write utils user_status fc fn w) w).2
            = { w with
                records :=
                  write_records w.records "DataTable" fc fn
                    [("Updates",
                      PushServer.updated_status_list
                        (utils.get_json_object_prop
                          (utils.do_request (PushServer.read_request fc fn) w).1.2
                          PushServer.friend_updates)
                        user_status)] } :=
        admin_update_world fc fn _ w h
      rw [if_pos hu']
      show stored_status
          (PushServer.push_loop utils user_status rest
            (utils.do_request (PushServer.friend_write utils user_status fc fn w) w).2).world s
        = stored_status w s
      rw [ih, hworld, stored_status_write_updates]
    · rw [PushServer.push_loop_skip utils user_status fc fn rest w h, hw]
      exact ih w

theorem do_request_status (s : session_t) (body : value) (w : World)
    (h1 : s.1 ≠ "") (h2 : s.2.1 ≠ "") (h3 : s.2.2 ≠ "") :
    do_request (UserServer.status_request s body) w
      = write_record w "DataTable" s.2.1 s.2.2 body := by
  simp [do_request, UserServer.status_request, List.filter, h1, h2, h3, UserServer.data_addr,
    UserServer.update_entity_op, UserServer.data_table_name]

/-- In the modelled store the write of `Status` to a record that can be read returns
OK, and the record then reads back with that status. -/
theorem status_write_of_ok (s : session_t) (w : World) (text : String)
    (h : (do_request (UserServer.read_request s) w).1.1 = status_codes.OK) :
    (do_request
          (UserServer.status_request s
            (UserServer.build_json_object [(UserServer.status_prop, text)])) w).1.1
        = status_codes.OK ∧
      stored_status
          (do_request
            (UserServer.status_request s
              (UserServer.build_json_object [(UserServer.status_prop, text)])) w).2 s
        = text := by
  obtain ⟨h1, h2, h3⟩ := pieces_of_read_ok s w h
  obtain ⟨r, hr, -⟩ := read_of_ok s w h
  have hbody :
      unpack_json_object (UserServer.build_json_object [(UserServer.status_prop, text)])
        = [("Status", text)] := rfl
  have hw :
      do_request
          (UserServer.status_request s
            (UserServer.build_json_object [(UserServer.status_prop, text)])) w
        = ((status_codes.OK, value.null),
            { w with
              records := write_records w.records "DataTable" s.2.1 s.2.2 [("Status", text)] }) := by
    rw [do_request_status s _ w h1 h2 h3]
    simp [write_record, hr, hbody]
  have hfind := find_record_write w.records "DataTable" s.2.1 s.2.2 [("Status", text)] r hr
  rw [hw]
  refine ⟨rfl, ?_⟩
  unfold stored_status
  rw [do_request_read s _ h1 h2 h3]
  simp only [read_record, hfind, merge_properties, List.foldl_cons, List.foldl_nil]
  exact get_prop_umap_assign _ _ _

/-- The message the push server receives for the push request of UpdateStatus. -/
theorem message_of_push_request (part row st fl : String)
    (h1 : part ≠ "") (h2 : row ≠ "") (h3 : st ≠ "") :
    message_of
        (UserServer.push_request part row st
          (UserServer.build_json_object [(UserServer.friend_prop, fl)]))
      = PushServer.push_message part row st fl := by
  simp [message_of, UserServer.push_request, PushServer.push_message, List.filter, h1, h2, h3,
    UserServer.push_status_op, PushServer.push_status_op, UserServer.build_json_object,
    UserServer.friend_prop, umap_assign]

/-- Over the modelled store the push server answers every PushStatus request with a
body of one property OK. -/
theorem push_message_replies_ok (uc un st fl : String) (w : World) :
    (PushServer.handle_post utils (PushServer.push_message uc un st fl) w).replies
        = [(status_codes.OK, value.null)] ∧
      (PushServer.handle_post utils (PushServer.push_message uc un st fl) w).world
        = (PushServer.push_loop utils st (parse_friends_list fl) w).world := by
  rw [PushServer.handle_post_push utils (PushServer.push_message uc un st fl) uc un st "Friends"
    fl [] w rfl (PushServer.get_json_body_push_message uc un st fl)]
  have hc := push_loop_completes st (utils.parse_friends_list fl) w
  rw [if_pos hc]
  exact ⟨rfl, rfl⟩

/-- Over the modelled services UpdateStatus of a signed-on user whose record can be
read replies OK and leaves the new status on the record, whatever the friend list. -/
theorem update_status_system (userId userstatus : String) (content_type : Option String)
    (json : value) (users : signed_on_users_t) (s : session_t) (w : World)
    (hwf : map_wf users) (hs : map_find users userId = some s)
    (hread : (do_request (UserServer.read_request s) w).1.1 = status_codes.OK)
    (hst : userstatus ≠ "") :
    (UserServer.handle_put system
          ⟨[UserServer.update_status_op, userId, userstatus], content_type, json⟩ users
          w).replies = [(status_codes.OK, value.null)] ∧
      stored_status
          (UserServer.handle_put system
            ⟨[UserServer.update_status_op, userId, userstatus], content_type, json⟩ users
            w).world s
        = userstatus := by
  obtain ⟨h1, h2, h3⟩ := pieces_of_read_ok s w hread
  obtain ⟨r, -, hr⟩ := read_of_ok s w hread
  have hget : ∀ v, system.do_request (UserServer.read_request s) v
      = do_request (UserServer.read_request s) v := by
    intro v
    simp [system, system_request, UserServer.read_request]
  have hput : ∀ body v, system.do_request (UserServer.status_request s body) v
      = do_request (UserServer.status_request s body) v := by
    intro body v
    simp [system, system_request, UserServer.status_request]
  have hw : (do_request (UserServer.read_request s) w).2 = w := by rw [hr]
  obtain ⟨hok, hstatus⟩ := status_write_of_ok s w userstatus hread
  rw [UserServer.update_status_outcome system userId userstatus content_type json users s w
    hwf hs, hget, hput, hw, if_neg (not_not.mpr hok)]
  have hpush :
      ∀ fl v,
        system.do_request
            (UserServer.push_request s.2.1 s.2.2 userstatus
              (UserServer.build_json_object [(UserServer.friend_prop, fl)])) v
          = ((status_codes.OK, value.null),
              (PushServer.push_loop utils userstatus (parse_friends_list fl) v).world) := by
    intro fl v
    have hm := message_of_push_request s.2.1 s.2.2 userstatus fl h2 h3 hst
    have hp := push_message_replies_ok s.2.1 s.2.2 userstatus fl v
    show system_request
          (UserServer.push_request s.2.1 s.2.2 userstatus
            (UserServer.build_json_object [(UserServer.friend_prop, fl)])) v
        = ((status_codes.OK, value.null),
            (PushServer.push_loop utils userstatus (parse_friends_list fl) v).world)
    unfold system_request
    rw [if_pos ⟨rfl, rfl⟩, hm, hp.1, hp.2]
  rw [hpush]
  refine ⟨rfl, ?_⟩
  show stored_status (PushServer.push_loop utils userstatus _ _).world s = userstatus
  rw [push_loop_status, hstatus]

end Model

/-! ## The scenario: two friends added, one removed -/

namespace Model

open UserServer

theorem friends_list_to_string_one (c f : String) :
    friends_list_to_string [(c, f)] = c ++ ";" ++ f := by
  apply String.ext
  simp [friends_list_to_string, List.intercalate, String.data_append]

theorem friends_list_to_string_two (c1 f1 c2 f2 : String) :
    friends_list_to_string [(c1, f1), (c2, f2)] = c1 ++ ";" ++ f1 ++ "|" ++ c2 ++ ";" ++ f2 := by
  apply String.ext
  simp [friends_list_to_string, List.intercalate, String.data_append]

theorem erase_loop_first_of_two (c1 f1 c2 f2 : String) :
    erase_loop c1 f1 0 [(c1, f1), (c2, f2)] false = ([(c2, f2)], true) := by
  simp [erase_loop]

/-- The friend list text a record gives after a write of it. -/
theorem update_of_ok_text (s : session_t) (w : World) (text : String)
    (h : (do_request (read_request s) w).1.1 = status_codes.OK) :
    stored_friends_text
        (do_request (update_request s (build_json_object [(friend_prop, text)])) w).2 s
      = text := by
  obtain ⟨h1, h2, h3⟩ := pieces_of_read_ok s w h
  obtain ⟨r, hr, -⟩ := read_of_ok s w h
  have hbody : unpack_json_object (build_json_object [(friend_prop, text)])
      = [("Friends", text)] := rfl
  have hw :
      do_request (update_request s (build_json_object [(friend_prop, text)])) w
        = ((status_codes.OK, value.null),
            { w with
              records := write_records w.records "DataTable" s.2.1 s.2.2 [("Friends", text)] }) := by
    rw [do_request_update s _ w h1 h2 h3]
    simp [write_record, hr, hbody]
  have hfind := find_record_write w.records "DataTable" s.2.1 s.2.2 [("Friends", text)] r hr
  rw [hw]
  unfold stored_friends_text
  rw [do_request_read s _ h1 h2 h3]
  simp only [read_record, hfind, merge_properties, List.foldl_cons, List.foldl_nil]
  exact get_prop_umap_assign _ _ _

theorem stored_friends_eq_parse (s : session_t) (w : World) :
    stored_friends utils s w = parse_friends_list (stored_friends_text w s) := rfl

/-- AddFriend of a pair that is not yet listed, over the modelled store. -/
theorem add_friend_text_step (userId c n : String) (users : signed_on_users_t)
    (s : session_t) (w : World) (hwf : map_wf users) (hs : map_find users userId = some s)
    (hread : (do_request (read_request s) w).1.1 = status_codes.OK)
    (hmem : (c, n) ∉ stored_friends utils s w) :
    (handle_put utils (add_friend_message userId c n) users w).users = users ∧
      (do_request (read_request s)
          (handle_put utils (add_friend_message userId c n) users w).world).1.1
        = status_codes.OK ∧
      stored_friends_text (handle_put utils (add_friend_message userId c n) users w).world s
        = friends_list_to_string (stored_friends utils s w ++ [(c, n)]) := by
  obtain ⟨r, -, hr⟩ := read_of_ok s w hread
  have hw : (utils.do_request (read_request s) w).2 = w := by
    show (do_request (read_request s) w).2 = w
    rw [hr]
  have hu :=
    update_of_ok parse_friends_list friends_list_to_string s w
      (friends_list_to_string (stored_friends utils s w ++ [(c, n)])) hread
  have hu1 :
      (utils.do_request
          (update_request s
            (build_json_object
              [(friend_prop, utils.friends_list_to_string (stored_friends utils s w ++ [(c, n)]))]))
          w).1.1 = status_codes.OK := hu.1
  rw [add_friend_absent utils userId c n users s w hwf hs hmem, hw, if_pos hu1]
  exact ⟨rfl, hu.2.1, update_of_ok_text s w _ hread⟩

/-- UnFriend of a listed pair, over the modelled store. -/
theorem unfriend_text_step (userId c n : String) (users : signed_on_users_t)
    (s : session_t) (w : World) (hwf : map_wf users) (hs : map_find users userId = some s)
    (hread : (do_request (read_request s) w).1.1 = status_codes.OK)
    (hflag : (erase_loop c n 0 (stored_friends utils s w) false).2 = true) :
    (handle_put utils (unfriend_message userId c n) users w).users = users ∧
      (do_request (read_request s)
          (handle_put utils (unfriend_message userId c n) users w).world).1.1
        = status_codes.OK ∧
      stored_friends_text (handle_put utils (unfriend_message userId c n) users w).world s
        = friends_list_to_string (erase_loop c n 0 (stored_friends utils s w) false).1 := by
  obtain ⟨r, -, hr⟩ := read_of_ok s w hread
  have hw : (utils.do_request (read_request s) w).2 = w := by
    show (do_request (read_request s) w).2 = w
    rw [hr]
  have hu :=
    update_of_ok parse_friends_list friends_list_to_string s w
      (friends_list_to_string (erase_loop c n 0 (stored_friends utils s w) false).1) hread
  have hu1 :
      (utils.do_request
          (update_request s
            (build_json_object
              [(friend_prop,
                utils.friends_list_to_string
                  (erase_loop c n 0 (stored_friends utils s w) false).1)]))
          w).1.1 = status_codes.OK := hu.1
  rw [unfriend_outcome utils userId c n users s w hwf hs, hflag, hw,
    if_neg (by decide), if_pos hu1]
  exact ⟨rfl, hu.2.1, update_of_ok_text s w _ hread⟩

/-- ReadFriendList over the modelled store. -/
theorem read_friend_list_step (userId : String) (users : signed_on_users_t)
    (s : session_t) (w : World) (hwf : map_wf users) (hs : map_find users userId = some s)
    (hread : (do_request (read_request s) w).1.1 = status_codes.OK) :
    handle_get utils (read_friend_list_message userId) users w
      = { replies :=
            [(status_codes.OK,
              value.object [(friend_prop, scalar.string (stored_friends_text w s))])],
          requests := [read_request s], users := users, world := w,
          completion := Completion.returned } := by
  obtain ⟨r, -, hr⟩ := read_of_ok s w hread
  have hw : (utils.do_request (read_request s) w).2 = w := by
    show (do_request (read_request s) w).2 = w
    rw [hr]
  unfold read_friend_list_message
  rw [handle_get_signed_on utils userId [] none value.null users s w hwf hs, hw]
  rfl

/-- C13. Over the modelled store and codec, for a signed-on user whose record can be
read and whose friend list is empty, and two distinct pairs whose fields contain
neither `|` nor `;`: after AddFriend of the first and AddFriend of the second,
ReadFriendList replies OK with the text `C1;F1|C2;F2`; after a following UnFriend of
the first, ReadFriendList replies OK with the text `C2;F2`. -/
theorem add_add_read_unfriend_read (userId c1 f1 c2 f2 : String)
    (users : signed_on_users_t) (s : session_t) (w : World)
    (hwf : map_wf users) (hs : map_find users userId = some s)
    (hread : (do_request (read_request s) w).1.1 = status_codes.OK)
    (hempty : stored_friends utils s w = [])
    (hsep : no_separator c1 ∧ no_separator f1 ∧ no_separator c2 ∧ no_separator f2)
    (hdistinct : (c1, f1) ≠ (c2, f2)) :
    (then_get utils (read_friend_list_message userId)
          (then_put utils (add_friend_message userId c2 f2)
            (handle_put utils (add_friend_message userId c1 f1) users w))).replies
        = [(status_codes.OK,
            value.object
              [(friend_prop, scalar.string (c1 ++ ";" ++ f1 ++ "|" ++ c2 ++ ";" ++ f2))])] ∧
      (then_get utils (read_friend_list_message userId)
          (then_put utils (unfriend_message userId c1 f1)
            (then_get utils (read_friend_list_message userId)
              (then_put utils (add_friend_message userId c2 f2)
                (handle_put utils (add_friend_message userId c1 f1) users w))))).replies
        = [(status_codes.OK,
            value.object [(friend_prop, scalar.string (c2 ++ ";" ++ f2))])] := by
  -- the first AddFriend
  obtain ⟨u1, r1, t1⟩ :=
    add_friend_text_step userId c1 f1 users s w hwf hs hread (by rw [hempty]; simp)
  rw [hempty, List.nil_append] at t1
  have l1 :
      stored_friends utils s (handle_put utils (add_friend_message userId c1 f1) users w).world
        = [(c1, f1)] := by
    rw [stored_friends_eq_parse, t1]
    apply parse_friends_list_to_string
    intro f hf
    rw [List.mem_singleton] at hf
    rw [hf]
    exact ⟨hsep.1, hsep.2.1⟩
  -- the second AddFriend
  have hmem2 :
      (c2, f2) ∉ stored_friends utils s
        (handle_put utils (add_friend_message userId c1 f1) users w).world := by
    rw [l1, List.mem_singleton]
    exact fun h => hdistinct h.symm
  obtain ⟨u2, r2, t2⟩ :=
    add_friend_text_step userId c2 f2 users s _ hwf hs r1 hmem2
  rw [l1, List.singleton_append, friends_list_to_string_two] at t2
  unfold then_put then_get
  rw [u1, u2]
  -- the first ReadFriendList
  rw [read_friend_list_step userId users s _ hwf hs r2, t2]
  refine ⟨rfl, ?_⟩
  -- UnFriend
  have l2 :
      stored_friends utils s
          (handle_put utils (add_friend_message userId c2 f2) users
            (handle_put utils (add_friend_message userId c1 f1) users w).world).world
        = [(c1, f1), (c2, f2)] := by
    rw [stored_friends_eq_parse, t2, ← friends_list_to_string_two]
    apply parse_friends_list_to_string
    intro f hf
    simp only [List.mem_cons, List.mem_singleton, List.not_mem_nil, or_false] at hf
    rcases hf with hf | hf <;> rw [hf]
    · exact ⟨hsep.1, hsep.2.1⟩
    · exact ⟨hsep.2.2.1, hsep.2.2.2⟩
  obtain ⟨u3, r3, t3⟩ :=
    unfriend_text_step userId c1 f1 users s _ hwf hs r2
      (by rw [l2, erase_loop_first_of_two])
  rw [l2, erase_loop_first_of_two, friends_list_to_string_one] at t3
  simp only []
  rw [u3, read_friend_list_step userId users s _ hwf hs r3, t3]

theorem add_add_read_unfriend_read_witness :
    stored_friends utils ("t", "Zimbabwe", "Bob") world_bob = [] ∧
      (then_get utils (read_friend_list_message "bob")
            (then_put utils (add_friend_message "bob" "USA" "Clinton,Hillary")
              (handle_put utils (add_friend_message "bob" "Canada" "Cruz,Ted") users_bob
                world_bob))).replies
        = [(status_codes.OK,
            value.object
              [(friend_prop,
                scalar.string
                  ("Canada" ++ ";" ++ "Cruz,Ted" ++ "|" ++ "USA" ++ ";" ++ "Clinton,Hillary"))])] ∧
      (then_get utils (read_friend_list_message "bob")
            (then_put utils (unfriend_message "bob" "Canada" "Cruz,Ted")
              (then_get utils (read_friend_list_message "bob")
                (then_put utils (add_friend_message "bob" "USA" "Clinton,Hillary")
                  (handle_put utils (add_friend_message "bob" "Canada" "Cruz,Ted") users_bob
                    world_bob))))).replies
        = [(status_codes.OK,
            value.object
              [(friend_prop, scalar.string ("USA" ++ ";" ++ "Clinton,Hillary"))])] :=
  ⟨by decide,
    add_add_read_unfriend_read "bob" "Canada" "Cruz,Ted" "USA" "Clinton,Hillary" users_bob
      ("t", "Zimbabwe", "Bob") world_bob (by unfold map_wf; decide) (by decide) (by decide)
      (by decide) (by unfold no_separator; decide) (by decide)⟩

end Model

/-! ## Malformed requests and missing replies -/

namespace UserServer

/-- C24 fails on the code: a POST SignOn/bob without a body matches neither the SignOn
branch (which needs a body of one property) nor the SignOff branch, and the handler
returns without any reply; it issues no request and leaves the registry as it was. -/
theorem sign_on_without_body_gets_no_reply :
    get_json_body Model.sign_on_bob_no_body = [] ∧
      (handle_post Model.utils Model.sign_on_bob_no_body [] Model.world_bob).replies = [] ∧
      (handle_post Model.utils Model.sign_on_bob_no_body [] Model.world_bob).requests = [] ∧
      (handle_post Model.utils Model.sign_on_bob_no_body [] Model.world_bob).users = [] ∧
      (handle_post Model.utils Model.sign_on_bob_no_body [] Model.world_bob).completion
        = Completion.returned := by
  decide

/-- C25. Malformed requests are answered BadRequest before any request is issued and
without a change of the registry or the world: every GET and every POST whose path has
fewer than two segments, and every PUT whose path is not empty and is neither
AddFriend with four segments, nor UnFriend with four segments, nor UpdateStatus with
three segments; whatever the registry holds. -/
theorem malformed_requests_rejected {σ : Type} (cu : ClientUtils σ) (message : http_request)
    (users : signed_on_users_t) (w : σ) :
    (message.paths.length < 2 →
        handle_get cu message users w = reply_only status_codes.BadRequest users w ∧
          handle_post cu message users w = reply_only status_codes.BadRequest users w) ∧
      (message.paths ≠ [] →
        ¬ (message.paths.head? = some add_friend_op ∧ message.paths.length = 4) →
        ¬ (message.paths.head? = some unfriend_op ∧ message.paths.length = 4) →
        ¬ (message.paths.head? = some update_status_op ∧ message.paths.length = 3) →
        handle_put cu message users w = reply_only status_codes.BadRequest users w) ∧
      (reply_only status_codes.BadRequest users w).replies
        = [(status_codes.BadRequest, value.null)] ∧
      (reply_only status_codes.BadRequest users w).requests = [] ∧
      (reply_only status_codes.BadRequest users w).users = users ∧
      (reply_only status_codes.BadRequest users w).world = w := by
  refine ⟨?_, ?_, rfl, rfl, rfl, rfl⟩
  · intro hlen
    rcases hp : message.paths with _ | ⟨a, _ | ⟨b, rest⟩⟩
    · simp [handle_get, handle_post, hp, reply_only]
    · simp [handle_get, handle_post, hp, reply_only]
    · exfalso
      rw [hp] at hlen
      simp only [List.length_cons] at hlen
      omega
  · intro hne h1 h2 h3
    rcases hp : message.paths with _ | ⟨op, args⟩
    · exact absurd hp hne
    · rw [hp] at h1 h2 h3
      simp only [List.head?_cons, Option.some.injEq, List.length_cons] at h1 h2 h3
      unfold handle_put
      rw [hp]
      simp only []
      by_cases ha : op = add_friend_op
      · rw [if_pos ha]
        rcases args with _ | ⟨x, _ | ⟨y, _ | ⟨z, _ | ⟨u, more⟩⟩⟩⟩ <;> simp_all
      · rw [if_neg ha]
        by_cases hu : op = unfriend_op
        · rw [if_pos hu]
          rcases args with _ | ⟨x, _ | ⟨y, _ | ⟨z, _ | ⟨u, more⟩⟩⟩⟩ <;> simp_all
        · rw [if_neg hu]
          by_cases hs : op = update_status_op
          · rw [if_pos hs]
            rcases args with _ | ⟨x, _ | ⟨y, _ | ⟨z, more⟩⟩⟩ <;> simp_all
          · rw [if_neg hs]

theorem malformed_requests_rejected_witness :
    handle_get Model.utils ⟨["DoSomething"], none, value.null⟩ Model.users_bob Model.world_bob
        = reply_only status_codes.BadRequest Model.users_bob Model.world_bob ∧
      handle_post Model.utils ⟨["DoSomething"], none, value.null⟩ Model.users_bob
          Model.world_bob
        = reply_only status_codes.BadRequest Model.users_bob Model.world_bob ∧
      handle_put Model.utils ⟨["AddFriend", "bob", "USA"], none, value.null⟩ Model.users_bob
          Model.world_bob
        = reply_only status_codes.BadRequest Model.users_bob Model.world_bob :=
  ⟨((malformed_requests_rejected Model.utils ⟨["DoSomething"], none, value.null⟩
        Model.users_bob Model.world_bob).1 (by decide)).1,
    ((malformed_requests_rejected Model.utils ⟨["DoSomething"], none, value.null⟩
        Model.users_bob Model.world_bob).1 (by decide)).2,
    (malformed_requests_rejected Model.utils ⟨["AddFriend", "bob", "USA"], none, value.null⟩
        Model.users_bob Model.world_bob).2.1 (by decide) (by decide) (by decide) (by decide)⟩

/-- C30 fails on the code: a PUT with the empty path reaches `paths[0]` on an empty
vector, whatever the registry, the world and the body are; handle_get and handle_post
test `paths.size()` first, handle_put does not. -/
theorem put_empty_path_out_of_range :
    (∀ (σ : Type) (cu : ClientUtils σ) (content_type : Option String) (json : value)
        (users : signed_on_users_t) (w : σ),
        (handle_put cu ⟨[], content_type, json⟩ users w).completion
            = Completion.out_of_range ∧
          (handle_put cu ⟨[], content_type, json⟩ users w).replies = []) ∧
      (handle_put Model.utils Model.put_empty_path [] Model.world_bob).completion
        = Completion.out_of_range ∧
      (handle_get Model.utils Model.put_empty_path [] Model.world_bob).replies
        = [(status_codes.BadRequest, value.null)] ∧
      (handle_post Model.utils Model.put_empty_path [] Model.world_bob).replies
        = [(status_codes.BadRequest, value.null)] := by
  refine ⟨?_, by decide, by decide, by decide⟩
  intro σ cu content_type json users w
  exact ⟨rfl, rfl⟩

/-- The erase loop keeps every entry that differs from the pair. -/
theorem erase_loop_filter (c n : String) (i : Nat) (l : friends_list_t) (f : Bool) :
    (erase_loop c n i l f).1.filter (fun e => e ≠ (c, n)) = l.filter (fun e => e ≠ (c, n)) := by
  induction i, l, f using erase_loop.induct c n with
  | case1 i l f hi hm ih =>
    rw [erase_loop, dif_pos hi, if_pos hm, ih]
    have hli : l[i] = (c, n) := Prod.ext hm.1 hm.2
    rw [List.eraseIdx_eq_take_drop_succ]
    conv_rhs => rw [← List.take_append_drop i l, List.drop_eq_getElem_cons hi]
    simp [List.filter_append, hli]
  | case2 i l f hi hm ih =>
    rw [erase_loop, dif_pos hi, if_neg hm]
    exact ih
  | case3 i l f hi =>
    rw [erase_loop, dif_neg hi]

/-- C27. The erase loop of UnFriend never removes a non-matching entry: the list it
leaves is a subsequence of the decoded list, and the entries of the decoded list that
differ from (country, name), in their order, are a subsequence of what it leaves and
are exactly its entries that differ from (country, name). -/
theorem unfriend_keeps_other_entries (c n : String) (l : friends_list_t) :
    (erase_loop c n 0 l false).1.Sublist l ∧
      (l.filter (fun e => e ≠ (c, n))).Sublist (erase_loop c n 0 l false).1 ∧
      (erase_loop c n 0 l false).1.filter (fun e => e ≠ (c, n))
        = l.filter (fun e => e ≠ (c, n)) ∧
      (∀ e ∈ l, e ≠ (c, n) → e ∈ (erase_loop c n 0 l false).1) := by
  have hf := erase_loop_filter c n 0 l false
  refine ⟨erase_loop_sublist c n 0 l false, ?_, hf, ?_⟩
  · rw [← hf]
    exact List.filter_sublist _
  · intro e he hne
    have : e ∈ l.filter (fun e => e ≠ (c, n)) := by
      rw [List.mem_filter]
      exact ⟨he, by simpa using hne⟩
    rw [← hf] at this
    exact (List.mem_filter.mp this).1

end UserServer

namespace PushServer

/-- C26. A POST to the push server whose path has fewer than four segments, or whose
first segment is not PushStatus, is answered BadRequest, once, and issues no request,
so no read and no write reaches the entity store. -/
theorem malformed_push_rejected {σ : Type} (cu : ClientUtils σ) (message : http_request)
    (w : σ)
    (h : message.paths.length < 4 ∨ message.paths.head? ≠ some push_status_op) :
    (handle_post cu message w).replies = [(status_codes.BadRequest, value.null)] ∧
      (handle_post cu message w).requests = [] ∧
      (handle_post cu message w).world = w := by
  rcases hp : message.paths with _ | ⟨a, _ | ⟨b, _ | ⟨c, _ | ⟨d, more⟩⟩⟩⟩
  · simp [handle_post, hp]
  · simp [handle_post, hp]
  · simp [handle_post, hp]
  · simp [handle_post, hp]
  · rw [hp] at h
    have hop : a ≠ push_status_op := by
      rcases h with h | h
      · simp only [List.length_cons] at h
        omega
      · simpa using h
    simp [handle_post, hp, hop]

theorem malformed_push_rejected_witness :
    (handle_post Model.utils ⟨["DoSomething", "Zimbabwe", "Bob", "hello"], none, value.null⟩
          Model.world_friends).replies = [(status_codes.BadRequest, value.null)] ∧
      (handle_post Model.utils ⟨["DoSomething", "Zimbabwe", "Bob", "hello"], none, value.null⟩
          Model.world_friends).requests = [] ∧
      (handle_post Model.utils ⟨["DoSomething", "Zimbabwe", "Bob", "hello"], none, value.null⟩
          Model.world_friends).world = Model.world_friends :=
  malformed_push_rejected Model.utils ⟨["DoSomething", "Zimbabwe", "Bob", "hello"], none,
    value.null⟩ Model.world_friends (Or.inr (by decide))

/-- C29 fails on the code: a POST PushStatus/Zimbabwe/Bob/hello without a body passes
the test of the segments, fails the test `json_body.size() == 1`, and the handler
returns without any reply. -/
theorem push_without_body_gets_no_reply :
    get_json_body Model.push_no_body = [] ∧
      (handle_post Model.utils Model.push_no_body Model.world_friends).replies = [] ∧
      (handle_post Model.utils Model.push_no_body Model.world_friends).replies.length ≠ 1 ∧
      (handle_post Model.utils Model.push_no_body Model.world_friends).completion
        = Completion.returned := by
  decide

end PushServer

/-! ## Delivery once per list entry -/

namespace PushServer

theorem writes_to_cons (fc fn : String) (r : Request) (rs : List Request) :
    writes_to fc fn (r :: rs)
      = (if r.http_method = method.PUT ∧
            r.path = [update_entity_op, data_table_name, fc, fn] then 1 else 0)
        + writes_to fc fn rs := by
  unfold writes_to
  by_cases h : r.http_method = method.PUT ∧
      r.path = [update_entity_op, data_table_name, fc, fn]
  · rw [List.filter_cons_of_pos (by simpa using h), if_pos h, List.length_cons]
    omega
  · rw [List.filter_cons_of_neg (by simpa using h), if_neg h]
    omega

/-- The loop writes to a record at most once for each entry of the list that names it. -/
theorem push_loop_writes_to {σ : Type} (cu : ClientUtils σ) (user_status fc fn : String)
    (l : friends_list_t) (w : σ) :
    writes_to fc fn (push_loop cu user_status l w).requests ≤ l.count (fc, fn) := by
  induction l generalizing w with
  | nil => simp [push_loop, writes_to]
  | cons e rest ih =>
    obtain ⟨gc, gn⟩ := e
    have hread :
        ¬ ((read_request gc gn).http_method = method.PUT ∧
          (read_request gc gn).path = [update_entity_op, data_table_name, fc, fn]) := by
      intro h
      have hget : (read_request gc gn).http_method = method.GET := rfl
      rw [hget] at h
      exact absurd h.1 (by decide)
    by_cases h : (cu.do_request (read_request gc gn) w).1.1 = status_codes.OK
    · rw [push_loop_found cu user_status gc gn rest w h]
      have hwrite :
          (if (friend_write cu user_status gc gn w).http_method = method.PUT ∧
                (friend_write cu user_status gc gn w).path
                  = [update_entity_op, data_table_name, fc, fn] then 1 else 0)
            ≤ (if (gc, gn) = (fc, fn) then 1 else 0) := by
        by_cases hk : (gc, gn) = (fc, fn)
        · rw [if_pos hk]
          split <;> omega
        · rw [if_neg hk, if_neg]
          intro hp
          apply hk
          have := hp.2
          simp only [friend_write, update_request, List.cons.injEq, and_true, true_and] at this
          exact Prod.ext this.1 this.2
      have hcount : List.count (fc, fn) ((gc, gn) :: rest)
          = List.count (fc, fn) rest + (if (gc, gn) = (fc, fn) then 1 else 0) := by
        rw [List.count_cons]
        simp only [beq_iff_eq]
      split
      · simp only [writes_to_cons, if_neg hread]
        have := ih (cu.do_request (friend_write cu user_status gc gn w)
          (cu.do_request (read_request gc gn) w).2).2
        omega
      · simp only [writes_to_cons, if_neg hread]
        have : writes_to fc fn [] = 0 := rfl
        omega
    · rw [push_loop_skip cu user_status gc gn rest w h]
      simp only [writes_to_cons, if_neg hread]
      have := ih (cu.do_request (read_request gc gn) w).2
      have hle : List.count (fc, fn) rest ≤ List.count (fc, fn) ((gc, gn) :: rest) := by
        rw [List.count_cons]
        omega
      omega

/-- C22, as amended. A PushStatus request writes to a friend record at most once for
each entry of its friend list that names the record: the number of its writes to
(country, name) is at most the number of occurrences of (country, name) in the
decoded list, so a friend listed once gets the status at most once and a friend that
is not listed gets none. -/
theorem push_status_once_per_entry {σ : Type} (cu : ClientUtils σ) (message : http_request)
    (fc fn : String) (w : σ) :
    writes_to fc fn (handle_post cu message w).requests
        ≤ (cu.parse_friends_list (friends_string_of (get_json_body message))).count (fc, fn) ∧
      ((cu.parse_friends_list (friends_string_of (get_json_body message))).count (fc, fn) ≤ 1 →
        writes_to fc fn (handle_post cu message w).requests ≤ 1) := by
  have key :
      writes_to fc fn (handle_post cu message w).requests
        ≤ (cu.parse_friends_list (friends_string_of (get_json_body message))).count
            (fc, fn) := by
    rcases hp : message.paths with _ | ⟨a, _ | ⟨b, _ | ⟨c, _ | ⟨d, more⟩⟩⟩⟩
    · simp [handle_post, hp, writes_to]
    · simp [handle_post, hp, writes_to]
    · simp [handle_post, hp, writes_to]
    · simp [handle_post, hp, writes_to]
    · by_cases hb : a = push_status_op ∧ (get_json_body message).length = 1
      · have hloop :=
          push_loop_writes_to cu d fc fn
            (cu.parse_friends_list (friends_string_of (get_json_body message))) w
        simp only [handle_post, hp, hb, and_self, if_true]
        split <;> exact hloop
      · simp only [handle_post, hp, hb, if_false]
        exact Nat.zero_le _
  exact ⟨key, fun h => le_trans key h⟩

/-- C22 fails as stated: the friend list names (Canada, Al) twice; the one PushStatus
request writes to the record of Al twice, and Al's Updates end up with the status
twice. -/
theorem push_status_twice_for_friend_listed_twice :
    Model.parse_friends_list "Canada;Al|Canada;Al" = [("Canada", "Al"), ("Canada", "Al")] ∧
      writes_to "Canada" "Al"
          (handle_post Model.utils (push_message "Zimbabwe" "Bob" "hello" "Canada;Al|Canada;Al")
            Model.world_friends).requests = 2 ∧
      Model.stored_updates Model.world_friends "Canada" "Al" = "" ∧
      Model.stored_updates
          (handle_post Model.utils (push_message "Zimbabwe" "Bob" "hello" "Canada;Al|Canada;Al")
            Model.world_friends).world "Canada" "Al"
        = "hello\nhello" := by
  decide

theorem push_status_once_per_entry_witness :
    (Model.utils.parse_friends_list
          (friends_string_of
            (get_json_body
              (push_message "Zimbabwe" "Bob" "hello" "Canada;Al|Mars;Zed|USA;Ann")))).count
        ("Canada", "Al") ≤ 1 ∧
      writes_to "Canada" "Al"
          (handle_post Model.utils
            (push_message "Zimbabwe" "Bob" "hello" "Canada;Al|Mars;Zed|USA;Ann")
            Model.world_friends).requests ≤ 1 :=
  ⟨by decide,
    (push_status_once_per_entry Model.utils
      (push_message "Zimbabwe" "Bob" "hello" "Canada;Al|Mars;Zed|USA;Ann") "Canada" "Al"
      Model.world_friends).2 (by decide)⟩

end PushServer

/-! ## UnFriend of a pair listed once -/

namespace Model

open UserServer

theorem split_on_ne_nil (sep : Char) (a : List Char) : split_on sep a ≠ [] := by
  induction a with
  | nil => simp [split_on]
  | cons c cs ih =>
    unfold split_on
    split
    · simp
    · split
      · simp
      · simp

theorem split_on_piece (sep : Char) (a : List Char) :
    ∀ p ∈ split_on sep a, sep ∉ p ∧ ∀ c ∈ p, c ∈ a := by
  induction a with
  | nil =>
    intro p hp
    simp only [split_on, List.mem_singleton] at hp
    subst hp
    simp
  | cons c cs ih =>
    intro p hp
    unfold split_on at hp
    by_cases hc : c = sep
    · rw [if_pos hc] at hp
      rcases List.mem_cons.mp hp with h | h
      · subst h
        simp
      · obtain ⟨h1, h2⟩ := ih p h
        exact ⟨h1, fun x hx => List.mem_cons_of_mem _ (h2 x hx)⟩
    · rw [if_neg hc] at hp
      cases hs : split_on sep cs with
      | nil => exact absurd hs (split_on_ne_nil sep cs)
      | cons piece pieces =>
        rw [hs] at hp ih
        simp only [] at hp
        rcases List.mem_cons.mp hp with h | h
        · subst h
          obtain ⟨h1, h2⟩ := ih piece (List.mem_cons_self _ _)
          refine ⟨?_, ?_⟩
          · simp only [List.mem_cons, not_or]
            exact ⟨fun e => hc e.symm, h1⟩
          · intro x hx
            rcases List.mem_cons.mp hx with hx | hx
            · rw [hx]
              exact List.mem_cons_self _ _
            · exact List.mem_cons_of_mem _ (h2 x hx)
        · obtain ⟨h1, h2⟩ := ih p (List.mem_cons_of_mem _ h)
          exact ⟨h1, fun x hx => List.mem_cons_of_mem _ (h2 x hx)⟩

/-- Every entry the modelled codec decodes has fields without `|` and `;`. -/
theorem parse_friends_list_no_separator (text : String) :
    ∀ f ∈ parse_friends_list text, no_separator f.1 ∧ no_separator f.2 := by
  intro f hf
  unfold parse_friends_list at hf
  split at hf
  · simp at hf
  · rw [List.mem_filterMap] at hf
    obtain ⟨entry, hentry, hparse⟩ := hf
    obtain ⟨hbar, -⟩ := split_on_piece '|' text.data entry hentry
    unfold parse_entry at hparse
    split at hparse
    · rename_i country name hsplit
      simp only [Option.some.injEq] at hparse
      subst hparse
      have hc := split_on_piece ';' entry country (by rw [hsplit]; simp)
      have hn := split_on_piece ';' entry name (by rw [hsplit]; simp)
      exact ⟨⟨fun h => hbar (hc.2 _ h), hc.1⟩, ⟨fun h => hbar (hn.2 _ h), hn.1⟩⟩
    · simp at hparse

end Model

/-! ## The status of the initial fetch -/

namespace UserServer

theorem stored_friends_with_fetch_status {σ : Type} (cu : ClientUtils σ) (code : status_code)
    (s : session_t) (w : σ) :
    stored_friends (with_fetch_status cu code) s w = stored_friends cu s w := rfl

/-- C23, amended. The three handlers never look at the status code of the initial fetch
of the caller's record: for a signed-on user, AddFriend, UnFriend and UpdateStatus have
the same outcome (replies, requests, registry, store, completion) whatever status code
the store gives that fetch, so a failed fetch is handled like a successful fetch with
the same body. -/
theorem fetch_status_not_checked {σ : Type} (cu : ClientUtils σ) (code : status_code)
    (userId c n userstatus : String) (content_type : Option String) (json : value)
    (users : signed_on_users_t) (s : session_t) (w : σ)
    (hwf : map_wf users) (hs : map_find users userId = some s) :
    handle_put (with_fetch_status cu code) (add_friend_message userId c n) users w
        = handle_put cu (add_friend_message userId c n) users w ∧
      handle_put (with_fetch_status cu code) (unfriend_message userId c n) users w
        = handle_put cu (unfriend_message userId c n) users w ∧
      handle_put (with_fetch_status cu code)
          ⟨[update_status_op, userId, userstatus], content_type, json⟩ users w
        = handle_put cu ⟨[update_status_op, userId, userstatus], content_type, json⟩ users w := by
  refine ⟨?_, ?_, ?_⟩
  · by_cases hmem : (c, n) ∈ stored_friends cu s w
    · rw [add_friend_present cu userId c n users s w hwf hs hmem,
        add_friend_present (with_fetch_status cu code) userId c n users s w hwf hs hmem]
      rfl
    · rw [add_friend_absent cu userId c n users s w hwf hs hmem,
        add_friend_absent (with_fetch_status cu code) userId c n users s w hwf hs hmem]
      rfl
  · rw [unfriend_outcome cu userId c n users s w hwf hs,
      unfriend_outcome (with_fetch_status cu code) userId c n users s w hwf hs]
    rfl
  · rw [update_status_outcome cu userId userstatus content_type json users s w hwf hs,
      update_status_outcome (with_fetch_status cu code) userId userstatus content_type json
        users s w hwf hs]
    rfl

theorem fetch_status_not_checked_witness :
    map_wf Model.users_bob ∧
      map_find Model.users_bob "bob" = some ("t", "Zimbabwe", "Bob") ∧
      handle_put (with_fetch_status Model.utils status_codes.NotFound)
          (unfriend_message "bob" "USA" "Ann") Model.users_bob Model.world_ann
        = handle_put Model.utils (unfriend_message "bob" "USA" "Ann") Model.users_bob
            Model.world_ann :=
  ⟨by unfold map_wf; decide, by decide,
    (fetch_status_not_checked Model.utils status_codes.NotFound "bob" "USA" "Ann" "hello"
      none value.null Model.users_bob ("t", "Zimbabwe", "Bob") Model.world_ann
      (by unfold map_wf; decide) (by decide)).2.1⟩

/-- C23 fails as stated: `bob` is signed on and the store has lost his record, so the
initial fetch is answered NotFound; yet UnFriend replies OK, AddFriend issues the write
of the new friend list to his record, and UpdateStatus issues the write of the status
to his record. -/
theorem failed_fetch_is_not_fatal :
    map_find Model.users_bob "bob" = some ("t", "Zimbabwe", "Bob") ∧
      (Model.utils.do_request (read_request ("t", "Zimbabwe", "Bob"))
          Model.world_no_record).1.1 = status_codes.NotFound ∧
      (handle_put Model.utils (unfriend_message "bob" "USA" "Ann") Model.users_bob
          Model.world_no_record).replies = [(status_codes.OK, value.null)] ∧
      update_request ("t", "Zimbabwe", "Bob")
          (value.object [("Friends", scalar.string "USA;Ann")])
        ∈ (handle_put Model.utils (add_friend_message "bob" "USA" "Ann") Model.users_bob
            Model.world_no_record).requests ∧
      status_request ("t", "Zimbabwe", "Bob")
          (value.object [("Status", scalar.string "hello")])
        ∈ (handle_put Model.utils Model.update_status_bob Model.users_bob
            Model.world_no_record).requests := by
  refine ⟨by decide, by decide, ?_, by decide, by decide⟩
  rw [unfriend_outcome Model.utils "bob" "USA" "Ann" Model.users_bob ("t", "Zimbabwe", "Bob")
    Model.world_no_record (by unfold map_wf; decide) (by decide),
    erase_loop_of_absent "USA" "Ann" 0 _ false (by decide)]
  rfl

end UserServer

/-! ## Updates is append-only -/

namespace UserServer

theorem written_updates_read_request (s : session_t) :
    written_updates (read_request s) = none := rfl

theorem written_updates_token_request (user_name user_pass : String) :
    written_updates (token_request user_name user_pass) = none := rfl

theorem written_updates_push_request (uc un st : String) (body : value) :
    written_updates (push_request uc un st body) = none := rfl

theorem written_updates_update_request (s : session_t) (text : String) :
    written_updates (update_request s (build_json_object [(friend_prop, text)])) = none := by
  simp [written_updates, update_request, build_json_object, umap_assign, friend_prop]

theorem written_updates_status_request (s : session_t) (text : String) :
    written_updates (status_request s (build_json_object [(status_prop, text)])) = none := by
  simp [written_updates, status_request, build_json_object, umap_assign, status_prop]

/-- No request of handle_get carries a value for `Updates`. -/
theorem handle_get_writes_no_updates {σ : Type} (cu : ClientUtils σ) (message : http_request)
    (users : signed_on_users_t) (w : σ) :
    ∀ r ∈ (handle_get cu message users w).requests, written_updates r = none := by
  intro r hr
  unfold handle_get at hr
  split at hr
  · simp [reply_only] at hr
  · simp [reply_only] at hr
  · split at hr
    · split at hr
      · simp only [List.mem_singleton] at hr
        rw [hr]
        rfl
      · simp [reply_only] at hr
    · simp at hr

/-- No request of handle_post carries a value for `Updates`. -/
theorem handle_post_writes_no_updates {σ : Type} (cu : ClientUtils σ) (message : http_request)
    (users : signed_on_users_t) (w : σ) :
    ∀ r ∈ (handle_post cu message users w).requests, written_updates r = none := by
  intro r hr
  unfold handle_post at hr
  simp only [] at hr
  split at hr
  · simp at hr
  · simp at hr
  · split at hr
    · split at hr
      · split at hr
        · simp only [List.mem_cons, List.mem_singleton, List.not_mem_nil, or_false] at hr
          rcases hr with h | h <;> rw [h] <;> rfl
        · simp only [List.mem_cons, List.mem_singleton, List.not_mem_nil, or_false] at hr
          rcases hr with h | h <;> rw [h] <;> rfl
      · simp only [List.mem_singleton] at hr
        rw [hr]
        rfl
    · split at hr
      · split at hr <;> simp at hr
      · simp at hr

theorem add_friend_writes_no_updates {σ : Type} (cu : ClientUtils σ) (u c n : String)
    (users : signed_on_users_t) (w : σ) :
    ∀ r ∈ (add_friend cu u c n users w).requests, written_updates r = none := by
  intro r hr
  unfold add_friend at hr
  split at hr
  · simp only [] at hr
    split at hr
    · simp only [List.mem_singleton] at hr
      rw [hr]
      rfl
    · split at hr <;>
        simp only [List.mem_cons, List.mem_singleton, List.not_mem_nil, or_false] at hr <;>
        rcases hr with h | h <;> rw [h]
      · rfl
      · exact written_updates_update_request _ _
      · rfl
      · exact written_updates_update_request _ _
  · simp [reply_only] at hr

theorem unfriend_writes_no_updates {σ : Type} (cu : ClientUtils σ) (u c n : String)
    (users : signed_on_users_t) (w : σ) :
    ∀ r ∈ (unfriend cu u c n users w).requests, written_updates r = none := by
  intro r hr
  unfold unfriend at hr
  split at hr
  · simp only [] at hr
    split at hr
    · simp only [List.mem_singleton] at hr
      rw [hr]
      rfl
    · split at hr <;>
        simp only [List.mem_cons, List.mem_singleton, List.not_mem_nil, or_false] at hr <;>
        rcases hr with h | h <;> rw [h]
      · rfl
      · exact written_updates_update_request _ _
      · rfl
      · exact written_updates_update_request _ _
  · simp [reply_only] at hr

theorem update_status_writes_no_updates {σ : Type} (cu : ClientUtils σ) (u st : String)
    (users : signed_on_users_t) (w : σ) :
    ∀ r ∈ (update_status cu u st users w).requests, written_updates r = none := by
  intro r hr
  unfold update_status at hr
  split at hr
  · simp only [] at hr
    split at hr
    · simp only [List.mem_cons, List.mem_singleton, List.not_mem_nil, or_false] at hr
      rcases hr with h | h <;> rw [h]
      · rfl
      · exact written_updates_status_request _ _
    · split at hr <;>
        simp only [List.mem_cons, List.mem_singleton, List.not_mem_nil, or_false] at hr <;>
        rcases hr with h | h | h <;> rw [h]
      · rfl
      · exact written_updates_status_request _ _
      · rfl
      · rfl
      · exact written_updates_status_request _ _
      · rfl
  · simp [reply_only] at hr

/-- No request of handle_put carries a value for `Updates`. -/
theorem handle_put_writes_no_updates {σ : Type} (cu : ClientUtils σ) (message : http_request)
    (users : signed_on_users_t) (w : σ) :
    ∀ r ∈ (handle_put cu message users w).requests, written_updates r = none := by
  intro r hr
  unfold handle_put at hr
  split at hr
  · simp at hr
  · split at hr
    · split at hr
      · exact add_friend_writes_no_updates cu _ _ _ users w r hr
      · simp [reply_only] at hr
    · split at hr
      · split at hr
        · exact unfriend_writes_no_updates cu _ _ _ users w r hr
        · simp [reply_only] at hr
      · split at hr
        · split at hr
          · exact update_status_writes_no_updates cu _ _ users w r hr
          · simp [reply_only] at hr
        · simp [reply_only] at hr

end UserServer

namespace PushServer

theorem written_updates_friend_read (fc fn : String) :
    written_updates (read_request fc fn) = none := rfl

theorem written_updates_friend_write {σ : Type} (cu : ClientUtils σ)
    (user_status fc fn : String) (w : σ) :
    written_updates (friend_write cu user_status fc fn w)
      = some
          (updated_status_list
            (cu.get_json_object_prop (cu.do_request (read_request fc fn) w).1.2 friend_updates)
            user_status) := by
  simp [written_updates, friend_write, update_request, build_json_object, umap_assign,
    friend_updates]

/-- The text the loop writes starts with the text it read. -/
theorem updated_status_list_begins_with (updates user_status : String) :
    begins_with (updated_status_list updates user_status) updates := by
  unfold begins_with updated_status_list
  by_cases h : updates = ""
  · rw [if_pos h, h]
    exact List.nil_prefix
  · rw [if_neg h]
    simp only [String.data_append, List.append_assoc]
    exact List.prefix_append _ _

end PushServer

theorem begins_with_refl (t : String) : begins_with t t := List.prefix_refl _

theorem begins_with_trans (a b c : String) (h1 : begins_with a b) (h2 : begins_with b c) :
    begins_with a c := List.IsPrefix.trans h2 h1

namespace Model

/-- A write of `Updates` to one record leaves the `Updates` of every other record. -/
theorem stored_updates_write_other (w : World) (fc fn text gc gn : String)
    (h : ¬ (gc = fc ∧ gn = fn)) :
    stored_updates
        { w with records := write_records w.records "DataTable" fc fn [("Updates", text)] }
        gc gn
      = stored_updates w gc gn := by
  unfold stored_updates
  by_cases h1 : gc = ""
  · by_cases h2 : gn = "" <;>
      simp [do_request, PushServer.read_request, List.filter, h1, h2, PushServer.data_addr,
        PushServer.read_entity_op, PushServer.data_table_name]
  · by_cases h2 : gn = ""
    · simp [do_request, PushServer.read_request, List.filter, h1, h2, PushServer.data_addr,
        PushServer.read_entity_op, PushServer.data_table_name]
    · rw [admin_read gc gn _ h1 h2, admin_read gc gn _ h1 h2]
      unfold read_record
      simp only []
      rw [find_record_write_any]
      cases hf : find_record w.records "DataTable" gc gn with
      | none => rfl
      | some rec =>
        simp only [Option.map_some']
        have hrec := List.find?_some hf
        simp only [decide_eq_true_eq] at hrec
        have hk : ¬ (rec.table = "DataTable" ∧ rec.partition = fc ∧ rec.row = fn) := by
          intro hk
          exact h ⟨hrec.2.1.symm.trans hk.2.1, hrec.2.2.symm.trans hk.2.2⟩
        simp only [hk, if_false]

/-- Over the modelled store the write the loop issues for a friend whose read returned
OK only extends the `Updates` of any record. -/
theorem friend_write_extends (user_status fc fn : String) (w : World)
    (h : (utils.do_request (PushServer.read_request fc fn) w).1.1 = status_codes.OK)
    (gc gn : String) :
    begins_with
      (stored_updates
        (utils.do_request (PushServer.friend_write utils user_status fc fn w) w).2 gc gn)
      (stored_updates w gc gn) := by
  have hworld :
      (utils.do_request (PushServer.friend_write utils user_status fc fn w) w).2
        = { w with
            records :=
              write_records w.records "DataTable" fc fn
                [("Updates",
                  PushServer.updated_status_list (stored_updates w fc fn) user_status)] } :=
    admin_update_world fc fn _ w h
  by_cases hk : gc = fc ∧ gn = fn
  · obtain ⟨hg1, hg2⟩ := hk
    subst hg1 hg2
    have hu :=
      (admin_update_of_ok gc gn
        (PushServer.updated_status_list (stored_updates w gc gn) user_status) w h).2.2
    have hu' :
        stored_updates
            (utils.do_request (PushServer.friend_write utils user_status gc gn w) w).2 gc gn
          = PushServer.updated_status_list (stored_updates w gc gn) user_status := hu
    rw [hu']
    exact PushServer.updated_status_list_begins_with _ _
  · rw [hworld, stored_updates_write_other w fc fn _ gc gn hk]
    exact begins_with_refl _

/-- Over the modelled store every `Updates` value the loop writes starts with the
`Updates` the addressed record had in any earlier world `w0` whose `Updates` texts
the current ones extend. -/
theorem push_loop_extends (user_status : String) (l : friends_list_t) (w0 w : World)
    (hinv : ∀ gc gn, begins_with (stored_updates w gc gn) (stored_updates w0 gc gn)) :
    ∀ r ∈ (PushServer.push_loop utils user_status l w).requests, ∀ v,
      written_updates r = some v →
        ∃ fc fn,
          r.path = [PushServer.update_entity_op, PushServer.data_table_name, fc, fn] ∧
            begins_with v (stored_updates w0 fc fn) := by
  induction l generalizing w with
  | nil =>
    intro r hr
    simp [PushServer.push_loop] at hr
  | cons e rest ih =>
    obtain ⟨fc, fn⟩ := e
    have hw : (utils.do_request (PushServer.read_request fc fn) w).2 = w :=
      admin_read_world fc fn w
    intro r hr v hv
    by_cases h : (utils.do_request (PushServer.read_request fc fn) w).1.1 = status_codes.OK
    · rw [PushServer.push_loop_found utils user_status fc fn rest w h, hw] at hr
      have hu :
          (utils.do_request (PushServer.friend_write utils user_status fc fn w) w).1.1
            = status_codes.OK :=
        (admin_update_of_ok fc fn
          (PushServer.updated_status_list (stored_updates w fc fn) user_status) w h).1
      rw [if_pos hu] at hr
      simp only [List.mem_cons] at hr
      rcases hr with hr | hr | hr
      · rw [hr, PushServer.written_updates_friend_read] at hv
        cases hv
      · rw [hr, PushServer.written_updates_friend_write] at hv
        simp only [Option.some.injEq] at hv
        refine ⟨fc, fn, by rw [hr]; rfl, ?_⟩
        rw [← hv]
        exact begins_with_trans _ _ _ (PushServer.updated_status_list_begins_with _ _)
          (hinv fc fn)
      · exact ih _
          (fun gc gn =>
            begins_with_trans _ _ _ (friend_write_extends user_status fc fn w h gc gn)
              (hinv gc gn))
          r hr v hv
    · rw [PushServer.push_loop_skip utils user_status fc fn rest w h, hw] at hr
      simp only [List.mem_cons] at hr
      rcases hr with hr | hr
      · rw [hr, PushServer.written_updates_friend_read] at hv
        cases hv
      · exact ih w hinv r hr v hv

/-- Over the modelled store every `Updates` value a request to the push server writes
starts with the `Updates` the addressed record had before the request. -/
theorem handle_post_extends (message : http_request) (w : World) :
    ∀ r ∈ (PushServer.handle_post utils message w).requests, ∀ v,
      written_updates r = some v →
        ∃ fc fn,
          r.path = [PushServer.update_entity_op, PushServer.data_table_name, fc, fn] ∧
            begins_with v (stored_updates w fc fn) := by
  intro r hr v hv
  unfold PushServer.handle_post at hr
  split at hr
  · simp only [] at hr
    split at hr
    · rename_i op uc un st tail hpath hcond
      have hreq :
          r ∈ (PushServer.push_loop utils st
                (utils.parse_friends_list
                  (PushServer.friends_string_of (PushServer.get_json_body message)))
                w).requests := by
        split at hr <;> exact hr
      exact push_loop_extends _ _ w w (fun gc gn => begins_with_refl _) r hreq v hv
    · simp at hr
  · simp at hr

/-- C21. `Updates` is append-only. No request that handle_get, handle_post or handle_put
of the user server issues carries a value for `Updates` (so SignOn, SignOff, AddFriend,
UnFriend, ReadFriendList and also UpdateStatus itself never write it), whatever the
collaborators answer; and over the modelled store every value for `Updates` that a
request issued by the push server's handle_post carries goes to a friend's record
through the update operation and starts with the `Updates` text that record had
before the request was handled. -/
theorem updates_append_only {σ : Type} (cu : ClientUtils σ) (message : http_request)
    (users : signed_on_users_t) (w : σ) (push : http_request) (store : World) :
    (∀ r ∈ (UserServer.handle_get cu message users w).requests, written_updates r = none) ∧
      (∀ r ∈ (UserServer.handle_post cu message users w).requests,
        written_updates r = none) ∧
      (∀ r ∈ (UserServer.handle_put cu message users w).requests,
        written_updates r = none) ∧
      (∀ r ∈ (PushServer.handle_post utils push store).requests, ∀ v,
        written_updates r = some v →
          ∃ fc fn,
            r.path = [PushServer.update_entity_op, PushServer.data_table_name, fc, fn] ∧
              begins_with v (stored_updates store fc fn)) :=
  ⟨UserServer.handle_get_writes_no_updates cu message users w,
    UserServer.handle_post_writes_no_updates cu message users w,
    UserServer.handle_put_writes_no_updates cu message users w,
    handle_post_extends push store⟩

end Model

/-! ## A friend that cannot be read is skipped -/

namespace Model

end Model

namespace PushServer

end PushServer

/-! ## The stored friend list stays duplicate-free -/

namespace Model

open UserServer

/-- In the modelled store a write to a record that cannot be read changes nothing. -/
theorem update_world_of_read_not_ok (s : session_t) (body : value) (w : World)
    (h : (do_request (read_request s) w).1.1 ≠ status_codes.OK) :
    (do_request (update_request s body) w).2 = w := by
  by_cases h1 : s.1 = ""
  · by_cases h2 : s.2.1 = "" <;> by_cases h3 : s.2.2 = "" <;>
      simp [do_request, update_request, List.filter, h1, h2, h3, data_addr, update_entity_op,
        data_table_name]
  · by_cases h2 : s.2.1 = ""
    · by_cases h3 : s.2.2 = "" <;>
        simp [do_request, update_request, List.filter, h1, h2, h3, data_addr,
          update_entity_op, data_table_name]
    · by_cases h3 : s.2.2 = ""
      · simp [do_request, update_request, List.filter, h1, h2, h3, data_addr,
          update_entity_op, data_table_name]
      · rw [do_request_read s w h1 h2 h3] at h
        rw [do_request_update s body w h1 h2 h3]
        unfold read_record at h
        unfold write_record
        cases hf : find_record w.records "DataTable" s.2.1 s.2.2 with
        | none => rfl
        | some r =>
          rw [hf] at h
          exact absurd rfl h

/-- A read in the modelled store leaves the world as it was, whatever its answer. -/
theorem read_world (s : session_t) (w : World) :
    (do_request (read_request s) w).2 = w := by
  by_cases h : (do_request (read_request s) w).1.1 = status_codes.OK
  · obtain ⟨r, -, hr⟩ := read_of_ok s w h
    rw [hr]
  · by_cases h1 : s.1 = ""
    · by_cases h2 : s.2.1 = "" <;> by_cases h3 : s.2.2 = "" <;>
        simp [do_request, read_request, List.filter, h1, h2, h3, data_addr, read_entity_op,
          data_table_name]
    · by_cases h2 : s.2.1 = ""
      · by_cases h3 : s.2.2 = "" <;>
          simp [do_request, read_request, List.filter, h1, h2, h3, data_addr, read_entity_op,
            data_table_name]
      · by_cases h3 : s.2.2 = ""
        · simp [do_request, read_request, List.filter, h1, h2, h3, data_addr, read_entity_op,
            data_table_name]
        · rw [do_request_read s w h1 h2 h3]
          unfold read_record
          split <;> rfl

/-- The friend list the record holds after AddFriend, over the modelled store: the
old list when the pair is in it or the record cannot be read, else the decoding of the
encoding of the old list with the pair appended. -/
theorem stored_friends_after_add_friend (parse : String → friends_list_t)
    (encode : friends_list_t → String) (userId c n : String) (users : signed_on_users_t)
    (s : session_t) (w : World) (hwf : map_wf users) (hs : map_find users userId = some s) :
    stored_friends (utils_with parse encode) s
        (handle_put (utils_with parse encode) (add_friend_message userId c n) users w).world
      = (if (c, n) ∈ stored_friends (utils_with parse encode) s w ∨
            (do_request (read_request s) w).1.1 ≠ status_codes.OK then
          stored_friends (utils_with parse encode) s w
        else parse (encode (stored_friends (utils_with parse encode) s w ++ [(c, n)]))) := by
  have hw : ((utils_with parse encode).do_request (read_request s) w).2 = w :=
    read_world s w
  by_cases hmem : (c, n) ∈ stored_friends (utils_with parse encode) s w
  · rw [if_pos (Or.inl hmem), add_friend_present _ userId c n users s w hwf hs hmem, hw]
  · by_cases hread : (do_request (read_request s) w).1.1 = status_codes.OK
    · have hcond :
          ¬ ((c, n) ∈ stored_friends (utils_with parse encode) s w ∨
            (do_request (read_request s) w).1.1 ≠ status_codes.OK) := by
        simp [hmem, hread]
      rw [if_neg hcond]
      exact (add_friend_step parse encode userId c n users s w hwf hs hread).2.2.2.2 hmem
    · have hu :
          ((utils_with parse encode).do_request
              (update_request s
                (build_json_object
                  [(friend_prop,
                    (utils_with parse encode).friends_list_to_string
                      (stored_friends (utils_with parse encode) s w ++ [(c, n)]))]))
              w).2 = w :=
        update_world_of_read_not_ok s _ w hread
      have hworld :
          (handle_put (utils_with parse encode) (add_friend_message userId c n) users w).world
            = w := by
        rw [add_friend_absent _ userId c n users s w hwf hs hmem, hw]
        split <;> exact hu
      rw [if_pos (Or.inr hread), hworld]

/-- The friend list the record holds after UnFriend, over the modelled store: the old
list when the loop erased nothing or the record cannot be read, else the decoding of
the encoding of the list the loop left. -/
theorem stored_friends_after_unfriend (parse : String → friends_list_t)
    (encode : friends_list_t → String) (userId c n : String) (users : signed_on_users_t)
    (s : session_t) (w : World) (hwf : map_wf users) (hs : map_find users userId = some s) :
    stored_friends (utils_with parse encode) s
        (handle_put (utils_with parse encode) (unfriend_message userId c n) users w).world
      = (if (erase_loop c n 0 (stored_friends (utils_with parse encode) s w) false).2 = false ∨
            (do_request (read_request s) w).1.1 ≠ status_codes.OK then
          stored_friends (utils_with parse encode) s w
        else
          parse
            (encode (erase_loop c n 0 (stored_friends (utils_with parse encode) s w) false).1)) := by
  have hw : ((utils_with parse encode).do_request (read_request s) w).2 = w :=
    read_world s w
  have hout := unfriend_outcome (utils_with parse encode) userId c n users s w hwf hs
  rw [hw] at hout
  by_cases hflag : (erase_loop c n 0 (stored_friends (utils_with parse encode) s w) false).2 = false
  · have hworld :
        (handle_put (utils_with parse encode) (unfriend_message userId c n) users w).world
          = w := by
      rw [hout, if_pos hflag]
    rw [if_pos (Or.inl hflag), hworld]
  · by_cases hread : (do_request (read_request s) w).1.1 = status_codes.OK
    · have hcond :
          ¬ ((erase_loop c n 0 (stored_friends (utils_with parse encode) s w) false).2 = false ∨
            (do_request (read_request s) w).1.1 ≠ status_codes.OK) := by
        simp [hflag, hread]
      have hu :=
        update_of_ok parse encode s w
          (encode (erase_loop c n 0 (stored_friends (utils_with parse encode) s w) false).1)
          hread
      have hu1 :
          ((utils_with parse encode).do_request
              (update_request s
                (build_json_object
                  [(friend_prop,
                    (utils_with parse encode).friends_list_to_string
                      (erase_loop c n 0 (stored_friends (utils_with parse encode) s w)
                        false).1)]))
              w).1.1 = status_codes.OK := hu.1
      have hworld :
          (handle_put (utils_with parse encode) (unfriend_message userId c n) users w).world
            = (do_request
                (update_request s
                  (build_json_object
                    [(friend_prop,
                      encode
                        (erase_loop c n 0 (stored_friends (utils_with parse encode) s w)
                          false).1)]))
                w).2 := by
        rw [hout, if_neg hflag, if_pos hu1]
        rfl
      rw [if_neg hcond, hworld]
      exact hu.2.2
    · have hu :
          ((utils_with parse encode).do_request
              (update_request s
                (build_json_object
                  [(friend_prop,
                    (utils_with parse encode).friends_list_to_string
                      (erase_loop c n 0 (stored_friends (utils_with parse encode) s w)
                        false).1)]))
              w).2 = w :=
        update_world_of_read_not_ok s _ w hread
      have hworld :
          (handle_put (utils_with parse encode) (unfriend_message userId c n) users w).world
            = w := by
        rw [hout, if_neg hflag]
        split <;> exact hu
      rw [if_pos (Or.inr hread), hworld]

/-- AddFriend keeps the stored friend list duplicate-free when the list it writes
decodes back to itself. -/
theorem stored_nodup_after_add_friend (parse : String → friends_list_t)
    (encode : friends_list_t → String) (userId c n : String) (users : signed_on_users_t)
    (s : session_t) (w : World) (hwf : map_wf users) (hs : map_find users userId = some s)
    (hnodup : (stored_friends (utils_with parse encode) s w).Nodup)
    (hrt :
      parse (encode (stored_friends (utils_with parse encode) s w ++ [(c, n)]))
        = stored_friends (utils_with parse encode) s w ++ [(c, n)]) :
    (stored_friends (utils_with parse encode) s
      (handle_put (utils_with parse encode) (add_friend_message userId c n) users
        w).world).Nodup := by
  rw [stored_friends_after_add_friend parse encode userId c n users s w hwf hs]
  split
  · exact hnodup
  · rename_i hcond
    rw [hrt, List.nodup_append]
    refine ⟨hnodup, List.nodup_singleton _, ?_⟩
    intro a ha hb
    rw [List.mem_singleton] at hb
    exact hcond (Or.inl (hb ▸ ha))

/-- UnFriend keeps the stored friend list duplicate-free when the list it writes
decodes back to itself. -/
theorem stored_nodup_after_unfriend (parse : String → friends_list_t)
    (encode : friends_list_t → String) (userId c n : String) (users : signed_on_users_t)
    (s : session_t) (w : World) (hwf : map_wf users) (hs : map_find users userId = some s)
    (hnodup : (stored_friends (utils_with parse encode) s w).Nodup)
    (hrt :
      parse (encode (erase_loop c n 0 (stored_friends (utils_with parse encode) s w) false).1)
        = (erase_loop c n 0 (stored_friends (utils_with parse encode) s w) false).1) :
    (stored_friends (utils_with parse encode) s
      (handle_put (utils_with parse encode) (unfriend_message userId c n) users
        w).world).Nodup := by
  rw [stored_friends_after_unfriend parse encode userId c n users s w hwf hs]
  split
  · exact hnodup
  · rw [hrt]
    exact (erase_loop_sublist c n 0 _ false).nodup hnodup

/-- C9, as amended. For a signed-on user whose decoded friend list has no pair twice:
the list AddFriend or UnFriend hands to the encoder has no pair twice; and, over the
modelled store and any codec, the friend list the record holds afterwards has no pair
twice provided the list written decodes back to itself.  For the modelled codec that
holds after UnFriend always, and after AddFriend when country and name contain neither
`|` nor `;`. -/
theorem friend_list_stays_duplicate_free (parse : String → friends_list_t)
    (encode : friends_list_t → String) (userId c n : String) (users : signed_on_users_t)
    (s : session_t) (w : World) (hwf : map_wf users) (hs : map_find users userId = some s)
    (hnodup : (stored_friends (utils_with parse encode) s w).Nodup) :
    (∀ r ∈ (handle_put (utils_with parse encode) (add_friend_message userId c n) users
          w).requests,
        r = read_request s ∨
          (r = update_request s
                (build_json_object
                  [(friend_prop,
                    encode (stored_friends (utils_with parse encode) s w ++ [(c, n)]))]) ∧
            (stored_friends (utils_with parse encode) s w ++ [(c, n)]).Nodup)) ∧
      (∀ r ∈ (handle_put (utils_with parse encode) (unfriend_message userId c n) users
          w).requests,
        r = read_request s ∨
          (r = update_request s
                (build_json_object
                  [(friend_prop,
                    encode
                      (erase_loop c n 0 (stored_friends (utils_with parse encode) s w)
                        false).1)]) ∧
            (erase_loop c n 0 (stored_friends (utils_with parse encode) s w) false).1.Nodup)) ∧
      (parse (encode (stored_friends (utils_with parse encode) s w ++ [(c, n)]))
          = stored_friends (utils_with parse encode) s w ++ [(c, n)] →
        (stored_friends (utils_with parse encode) s
          (handle_put (utils_with parse encode) (add_friend_message userId c n) users
            w).world).Nodup) ∧
      (parse
            (encode (erase_loop c n 0 (stored_friends (utils_with parse encode) s w) false).1)
          = (erase_loop c n 0 (stored_friends (utils_with parse encode) s w) false).1 →
        (stored_friends (utils_with parse encode) s
          (handle_put (utils_with parse encode) (unfriend_message userId c n) users
            w).world).Nodup) ∧
      ((stored_friends utils s w).Nodup → no_separator c → no_separator n →
        (stored_friends utils s
          (handle_put utils (add_friend_message userId c n) users w).world).Nodup) ∧
      ((stored_friends utils s w).Nodup →
        (stored_friends utils s
          (handle_put utils (unfriend_message userId c n) users w).world).Nodup) := by
  have hwritten :=
    written_friend_list_nodup (utils_with parse encode) userId c n users s w hwf hs hnodup
  refine ⟨hwritten.1, hwritten.2, ?_, ?_, ?_, ?_⟩
  · exact stored_nodup_after_add_friend parse encode userId c n users s w hwf hs hnodup
  · exact stored_nodup_after_unfriend parse encode userId c n users s w hwf hs hnodup
  · intro hnd hc hn
    apply stored_nodup_after_add_friend parse_friends_list friends_list_to_string userId c n
      users s w hwf hs hnd
    apply parse_friends_list_to_string
    intro f hf
    rcases List.mem_append.mp hf with hf | hf
    · exact parse_friends_list_no_separator _ f hf
    · rw [List.mem_singleton] at hf
      rw [hf]
      exact ⟨hc, hn⟩
  · intro hnd
    apply stored_nodup_after_unfriend parse_friends_list friends_list_to_string userId c n
      users s w hwf hs hnd
    apply parse_friends_list_to_string
    intro f hf
    exact parse_friends_list_no_separator _ f ((erase_loop_sublist c n 0 _ false).subset hf)

theorem friend_list_stays_duplicate_free_witness :
    (stored_friends utils ("t", "Zimbabwe", "Bob") world_ann).Nodup ∧
      no_separator "Canada" ∧ no_separator "Cy" ∧
      (stored_friends utils ("t", "Zimbabwe", "Bob")
        (handle_put utils (add_friend_message "bob" "Canada" "Cy") users_bob
          world_ann).world).Nodup ∧
      (stored_friends utils ("t", "Zimbabwe", "Bob")
        (handle_put utils (unfriend_message "bob" "USA" "Ann") users_bob
          world_ann).world).Nodup :=
  ⟨by decide, by unfold no_separator; decide, by unfold no_separator; decide,
    (friend_list_stays_duplicate_free parse_friends_list friends_list_to_string "bob" "Canada"
      "Cy" users_bob ("t", "Zimbabwe", "Bob") world_ann (by unfold map_wf; decide) (by decide)
      (by decide)).2.2.2.2.1 (by decide) (by unfold no_separator; decide)
      (by unfold no_separator; decide),
    (friend_list_stays_duplicate_free parse_friends_list friends_list_to_string "bob" "USA"
      "Ann" users_bob ("t", "Zimbabwe", "Bob") world_ann (by unfold map_wf; decide) (by decide)
      (by decide)).2.2.2.2.2 (by decide)⟩

/-- C9 fails as stated for the stored list: `bob` is signed on and his friend list is
empty, so it has no pair twice; AddFriend with the country `USA;Ann|USA` and the name
`Ann` replies OK and writes the encoding `USA;Ann|USA;Ann` of the one-entry list, and
the friend list the record holds afterwards is (USA, Ann) twice. -/
theorem add_friend_with_separator_stores_duplicate :
    map_find users_bob "bob" = some ("t", "Zimbabwe", "Bob") ∧
      stored_friends utils ("t", "Zimbabwe", "Bob") world_bob = [] ∧
      (handle_put utils (add_friend_message "bob" "USA;Ann|USA" "Ann") users_bob
          world_bob).replies = [(status_codes.OK, value.null)] ∧
      (handle_put utils (add_friend_message "bob" "USA;Ann|USA" "Ann") users_bob
          world_bob).requests
        = [read_request ("t", "Zimbabwe", "Bob"),
            update_request ("t", "Zimbabwe", "Bob")
              (value.object [("Friends", scalar.string "USA;Ann|USA;Ann")])] ∧
      stored_friends utils ("t", "Zimbabwe", "Bob")
          (handle_put utils (add_friend_message "bob" "USA;Ann|USA" "Ann") users_bob
            world_bob).world
        = [("USA", "Ann"), ("USA", "Ann")] ∧
      ¬ (stored_friends utils ("t", "Zimbabwe", "Bob")
          (handle_put utils (add_friend_message "bob" "USA;Ann|USA" "Ann") users_bob
            world_bob).world).Nodup := by
  decide

end Model
